import Mathlib

/-!
# Object-array klass and Win32 attach listener: a shallow embedding

Embedding of `src/hotspot/share/oops/objArrayKlass.cpp` and
`src/hotspot/os/windows/attachListener_windows.cpp`.

Conventions.
* A `jint` is an `Int` in the range `[-2^31, 2^31)`; the cast `(unsigned int) x`
  is `x % 2^32` and unsigned addition is addition modulo `2^32`.
* A `Klass*` is a `KlassId` (a natural number naming the descriptor); a pointer that
  may be `nullptr` is an `Option`.
* Collaborators whose code is not part of these files (the subtype query, the
  reference-copy primitive, the heap allocator, the registry lookup that creates
  array klasses) are parameters of the embedded functions.
* Effects on collaborators are recorded as traces: the list of the calls made, in
  program order.
-/

set_option autoImplicit false

/-! ## Machine integers -/

/-- The range of a 32-bit signed `jint`. -/
def is_jint (x : Int) : Prop := -(2 : Int) ^ 31 ≤ x ∧ x < (2 : Int) ^ 31

instance (x : Int) : Decidable (is_jint x) := by unfold is_jint; infer_instance

/-- The cast `(unsigned int) x` of a 32-bit value. -/
def to_uint (x : Int) : Int := x % (2 : Int) ^ 32

/-- The sum `(unsigned int) a + (unsigned int) b`, computed in 32-bit unsigned arithmetic. -/
def uint_add (a b : Int) : Int := (to_uint a + to_uint b) % (2 : Int) ^ 32

/-- The cast `(int) x` to a 32-bit signed value. -/
def to_int (x : Int) : Int := (x + (2 : Int) ^ 31) % (2 : Int) ^ 32 - (2 : Int) ^ 31

/-! ## Klass descriptors -/

/-- The identity of a klass descriptor (`Klass*`). -/
abbrev KlassId := Nat

/-- The concrete kind of a klass, as answered by `is_instance_klass`, `is_inline_klass`,
`is_objArray_klass`, `is_typeArray_klass` and `is_flatArray_klass`. -/
inductive KlassKind where
  | InstanceKlassKind
  | InlineKlassKind
  | ObjArrayKlassKind
  | TypeArrayKlassKind
  | FlatArrayKlassKind
deriving DecidableEq, Repr

/-- A klass descriptor: the fields of `Klass`, `ArrayKlass` and `ObjArrayKlass` read or
written by the embedded functions. -/
structure Klass where
  kind : KlassKind
  /-- The direct supertype, `super()`. -/
  super : Option KlassId
  /-- The array `secondary_supers()`; `none` is `nullptr`. -/
  secondary_supers : Option (List KlassId)
  /-- The array form of this klass if it exists, `array_klass_or_null()`. -/
  array_klass : Option KlassId
  dimension : Int
  element_klass : KlassId
  bottom_klass : KlassId
  /-- The array klass of one dimension less, `lower_dimension()`; `none` is `nullptr`. -/
  lower_dimension : Option KlassId
  null_free : Bool
  /-- The owner `class_loader_data()`. -/
  class_loader_data : Nat
  /-- The `BasicType` of the elements of a primitive array, `element_type()`. -/
  element_type : Nat
  /-- The name symbol, `name()`. -/
  name : Nat
  external_name : String
deriving DecidableEq, Repr

namespace Klass

def is_instance_klass (k : Klass) : Bool :=
  k.kind = KlassKind.InstanceKlassKind || k.kind = KlassKind.InlineKlassKind

def is_inline_klass (k : Klass) : Bool := k.kind = KlassKind.InlineKlassKind

def is_objArray_klass (k : Klass) : Bool := k.kind = KlassKind.ObjArrayKlassKind

def is_typeArray_klass (k : Klass) : Bool := k.kind = KlassKind.TypeArrayKlassKind

def is_flatArray_klass (k : Klass) : Bool := k.kind = KlassKind.FlatArrayKlassKind

def is_null_free_array_klass (k : Klass) : Bool := k.null_free

end Klass

/-! ## Checked bulk copy: `ObjArrayKlass::copy_array` and `ObjArrayKlass::do_copy` -/

/-- An array object on the heap: its address (object identity), its klass and its length. -/
structure arrayOop where
  addr : Nat
  klass : Klass
  length : Int
deriving DecidableEq, Repr

namespace arrayOop

def is_objArray (a : arrayOop) : Bool := a.klass.is_objArray_klass

def is_flatArray (a : arrayOop) : Bool := a.klass.is_flatArray_klass

def is_typeArray (a : arrayOop) : Bool := a.klass.is_typeArray_klass

/-- The length of an array object is a non-negative `jint`. -/
def valid_length (a : arrayOop) : Prop := 0 ≤ a.length ∧ a.length < (2 : Int) ^ 31

instance (a : arrayOop) : Decidable a.valid_length := by unfold valid_length; infer_instance

end arrayOop

/-- The decorator set of one `ArrayAccess<...>::oop_arraycopy` instantiation. -/
structure Decorators where
  ARRAYCOPY_DISJOINT : Bool
  ARRAYCOPY_CHECKCAST : Bool
  ARRAYCOPY_NOTNULL : Bool
deriving DecidableEq, Repr

/-- One invocation of the reference-copy primitive
`ArrayAccess<decorators>::oop_arraycopy(s, src_offset, d, dst_offset, length)`. -/
structure ArrayCopyCall where
  decorators : Decorators
  src : arrayOop
  src_offset : Nat
  dst : arrayOop
  dst_offset : Nat
  length : Int
deriving DecidableEq, Repr

/-- The text of the messages printed by `copy_array`, with the formatted values kept
as data. -/
inductive CopyMessage where
  /-- The text "arraycopy: type mismatch: can not copy object array[] into %s[]". -/
  | type_mismatch (element_type : Nat)
  /-- The text "arraycopy: destination type %s is not an array". -/
  | not_an_array (external_name : String)
  /-- The text "arraycopy: source index %d out of bounds for object array[%d]". -/
  | source_index (src_pos : Int) (length : Int)
  /-- The text "arraycopy: destination index %d out of bounds for object array[%d]". -/
  | destination_index (dst_pos : Int) (length : Int)
  /-- The text "arraycopy: length %d is negative". -/
  | length_negative (length : Int)
  /-- The text "arraycopy: last source index %u out of bounds for object array[%d]". -/
  | last_source_index (index : Int) (length : Int)
  /-- The text "arraycopy: last destination index %u out of bounds for object array[%d]". -/
  | last_destination_index (index : Int) (length : Int)
deriving DecidableEq, Repr

/-- The exceptions thrown by `copy_array` itself. -/
inductive CopyException where
  | ArrayStoreException (msg : CopyMessage)
  | ArrayIndexOutOfBoundsException (msg : CopyMessage)
deriving DecidableEq, Repr

/-- How `copy_array` leaves: it returns after its own checks (the reference-copy
primitive, if invoked, having run), it throws, or it hands the whole call to
`FlatArrayKlass::copy_array`. -/
inductive CopyOutcome where
  | returned
  | threw (e : CopyException)
  | delegated_to_flat
deriving DecidableEq, Repr

/-- The VM options and collaborators `copy_array` and `do_copy` depend on. -/
structure CopyEnv where
  UseFlatArray : Bool
  UseCompressedOops : Bool
  /-- The byte offset `objArrayOopDesc::obj_at_offset<narrowOop>(index)`. -/
  obj_at_offset_narrow : Int → Nat
  /-- The byte offset `objArrayOopDesc::obj_at_offset<oop>(index)`. -/
  obj_at_offset_oop : Int → Nat
  /-- The query `stype->is_subtype_of(bound)`. -/
  is_subtype_of : KlassId → KlassId → Bool

namespace ObjArrayKlass

def no_decorators : Decorators := ⟨false, false, false⟩

/-- `ObjArrayKlass::do_copy`: the trace of calls of the reference-copy primitive. -/
def do_copy (env : CopyEnv) (s : arrayOop) (src_offset : Nat)
    (d : arrayOop) (dst_offset : Nat) (length : Int) : List ArrayCopyCall :=
  if s.addr = d.addr then
    [⟨no_decorators, s, src_offset, d, dst_offset, length⟩]
  else
    let bound := d.klass.element_klass
    let stype := s.klass.element_klass
    let null_check := (!s.klass.is_null_free_array_klass) && d.klass.is_null_free_array_klass
    if stype = bound || env.is_subtype_of stype bound then
      if null_check then
        [⟨⟨true, false, true⟩, s, src_offset, d, dst_offset, length⟩]
      else
        [⟨⟨true, false, false⟩, s, src_offset, d, dst_offset, length⟩]
    else
      if null_check then
        [⟨⟨true, true, true⟩, s, src_offset, d, dst_offset, length⟩]
      else
        [⟨⟨true, true, false⟩, s, src_offset, d, dst_offset, length⟩]

/-- `ObjArrayKlass::copy_array`: how the call leaves and the trace of calls of the
reference-copy primitive it made. -/
def copy_array (env : CopyEnv) (s : arrayOop) (src_pos : Int) (d : arrayOop)
    (dst_pos : Int) (length : Int) : CopyOutcome × List ArrayCopyCall :=
  if env.UseFlatArray && d.is_flatArray then
    (CopyOutcome.delegated_to_flat, [])
  else if !d.is_objArray then
    if d.is_typeArray then
      (CopyOutcome.threw (CopyException.ArrayStoreException
        (CopyMessage.type_mismatch d.klass.element_type)), [])
    else
      (CopyOutcome.threw (CopyException.ArrayStoreException
        (CopyMessage.not_an_array d.klass.external_name)), [])
  else if src_pos < 0 ∨ dst_pos < 0 ∨ length < 0 then
    if src_pos < 0 then
      (CopyOutcome.threw (CopyException.ArrayIndexOutOfBoundsException
        (CopyMessage.source_index src_pos s.length)), [])
    else if dst_pos < 0 then
      (CopyOutcome.threw (CopyException.ArrayIndexOutOfBoundsException
        (CopyMessage.destination_index dst_pos d.length)), [])
    else
      (CopyOutcome.threw (CopyException.ArrayIndexOutOfBoundsException
        (CopyMessage.length_negative length)), [])
  else if uint_add length src_pos > to_uint s.length ∨
      uint_add length dst_pos > to_uint d.length then
    if uint_add length src_pos > to_uint s.length then
      (CopyOutcome.threw (CopyException.ArrayIndexOutOfBoundsException
        (CopyMessage.last_source_index (uint_add length src_pos) s.length)), [])
    else
      (CopyOutcome.threw (CopyException.ArrayIndexOutOfBoundsException
        (CopyMessage.last_destination_index (uint_add length dst_pos) d.length)), [])
  else if length = 0 then
    (CopyOutcome.returned, [])
  else if env.UseCompressedOops then
    let src_offset := env.obj_at_offset_narrow src_pos
    let dst_offset := env.obj_at_offset_narrow dst_pos
    (CopyOutcome.returned, do_copy env s src_offset d dst_offset length)
  else
    let src_offset := env.obj_at_offset_oop src_pos
    let dst_offset := env.obj_at_offset_oop dst_pos
    (CopyOutcome.returned, do_copy env s src_offset d dst_offset length)

/-- The heap after a call: the reference-copy primitive applied, in order, to every
recorded invocation.  Nothing else in `copy_array` writes to the heap. -/
def heap_after {Heap : Type} (oop_arraycopy : ArrayCopyCall → Heap → Heap)
    (calls : List ArrayCopyCall) (heap : Heap) : Heap :=
  calls.foldl (fun h c => oop_arraycopy c h) heap

end ObjArrayKlass

/-! ## Attach operation queue: `Win32AttachListener` and `Win32AttachOperation` -/

/-- A C string, as the list of its bytes before the terminating NUL. -/
abbrev CString := List Nat

/-- The length `strlen(s)`. -/
def strlen (s : CString) : Nat := s.length

/-- Whether `needle` occurs in `hay` at its very start. -/
def starts_with : CString → CString → Bool
  | _, [] => true
  | [], _ :: _ => false
  | h :: hay, n :: needle => h = n && starts_with hay needle

/-- The offset of the first occurrence of `needle` in `hay`, as `strstr(hay, needle)`
finds it; `none` is the null pointer. -/
def strstr : CString → CString → Option Nat
  | [], needle => if starts_with [] needle then some 0 else none
  | h :: hay, needle =>
    if starts_with (h :: hay) needle then some 0
    else (strstr hay needle).map (fun off => off + 1)

/-- The bytes of the string literal `"\\\\.\\pipe\\"`, that is, `\\.\pipe\`. -/
def pipe_name_lead : CString := [92, 92, 46, 92, 112, 105, 112, 101, 92]

/-- The bytes of `"<noname>"`. -/
def noname : CString := [60, 110, 111, 110, 97, 109, 101, 62]

/-- The bytes of `"<nopipe>"`. -/
def nopipe : CString := [60, 110, 111, 112, 105, 112, 101, 62]

/-- The limits `AttachOperation::name_length_max` and `AttachOperation::arg_length_max`,
which are declared outside these files. -/
structure AttachLimits where
  name_length_max : Nat
  arg_length_max : Nat

/-- The value returned by `WaitForSingleObject`. -/
inductive WaitResult where
  | WAIT_OBJECT_0
  | WAIT_ABANDONED
  | WAIT_TIMEOUT
  | WAIT_FAILED
deriving DecidableEq, Repr

/-- A preallocated operation record; `next` links it into a list, `none` is `nullptr`. -/
structure Win32AttachOperation where
  name : CString
  arg0 : CString
  arg1 : CString
  arg2 : CString
  pipe : CString
  next : Option Nat
deriving DecidableEq, Repr

/-- The statics of `Win32AttachListener` together with the records allocated by `init`:
a `Win32AttachOperation*` is an index into `ops`. -/
structure Win32AttachListener where
  ops : List Win32AttachOperation
  avail : Option Nat
  head : Option Nat
  tail : Option Nat
  /-- The current count of `_enqueued_ops_semaphore`. -/
  semaphore_count : Nat
  /-- The maximum count given to `CreateSemaphore`. -/
  semaphore_max : Nat
deriving DecidableEq, Repr

namespace Win32AttachOperation

def pipe_name_max : Nat := 256

/-- `set_pipe`: `snprintf` into the buffer of `pipe_name_max + 1` bytes. -/
def set_pipe (op : Win32AttachOperation) (pipe : CString) : Win32AttachOperation :=
  { op with pipe := pipe.take pipe_name_max }

def set_next (op : Win32AttachOperation) (next : Option Nat) : Win32AttachOperation :=
  { op with next := next }

def set_name (op : Win32AttachOperation) (name : CString) : Win32AttachOperation :=
  { op with name := name }

def set_arg0 (op : Win32AttachOperation) (arg : CString) : Win32AttachOperation :=
  { op with arg0 := arg }

def set_arg1 (op : Win32AttachOperation) (arg : CString) : Win32AttachOperation :=
  { op with arg1 := arg }

def set_arg2 (op : Win32AttachOperation) (arg : CString) : Win32AttachOperation :=
  { op with arg2 := arg }

/-- The no-argument constructor. -/
def fresh : Win32AttachOperation :=
  set_next (set_pipe ⟨noname, [], [], [], [], none⟩ nopipe) none

end Win32AttachOperation

namespace Win32AttachListener

def max_enqueued_operations : Nat := 4

def ATTACH_ERROR_DISABLED : Int := 100
def ATTACH_ERROR_RESOURCE : Int := 101
def ATTACH_ERROR_ILLEGALARG : Int := 102
def ATTACH_ERROR_INTERNAL : Int := 103

def set_head (st : Win32AttachListener) (head : Option Nat) : Win32AttachListener :=
  { st with head := head }

def set_tail (st : Win32AttachListener) (tail : Option Nat) : Win32AttachListener :=
  { st with tail := tail }

def set_available (st : Win32AttachListener) (avail : Option Nat) : Win32AttachListener :=
  { st with avail := avail }

/-- The field `op->next()` of the record at `op`. -/
def next (st : Win32AttachListener) (op : Nat) : Option Nat :=
  (st.ops.get? op).bind (fun r => r.next)

/-- Apply a setter to the record at `op`. -/
def update (st : Win32AttachListener) (op : Nat)
    (f : Win32AttachOperation → Win32AttachOperation) : Win32AttachListener :=
  { st with ops := st.ops.modify f op }

/-- The statement `new Win32AttachOperation()`: the address of the new record and the
memory holding it. -/
def new_operation (st : Win32AttachListener) : Nat × Win32AttachListener :=
  (st.ops.length, { st with ops := st.ops ++ [Win32AttachOperation.fresh] })

/-- `Win32AttachListener::init` (both handles are created successfully). -/
def init : Win32AttachListener :=
  let st : Win32AttachListener :=
    { ops := [], avail := none, head := none, tail := none,
      semaphore_count := 0, semaphore_max := max_enqueued_operations }
  let st := set_head st none
  let st := set_tail st none
  let st := set_available st none
  (List.range max_enqueued_operations).foldl
    (fun st _ =>
      let (op, st) := new_operation st
      let st := update st op (fun r => r.set_next st.avail)
      set_available st (some op))
    st

/-- The wait loop that opens `enqueue`.  `is_initialized k` is what
`AttachListener::is_initialized()` answers after `k` seconds of sleeping.  The result
says whether the listener was seen initialised, and how many times `Sleep(1000)` ran. -/
def enqueue_wait (is_initialized : Nat → Bool) (sleep_count : Nat) : Bool × Nat :=
  if !is_initialized sleep_count then
    let sleep_count1 := sleep_count + 1
    if sleep_count1 > 10 then (false, sleep_count1)
    else enqueue_wait is_initialized sleep_count1
  else (true, sleep_count)
termination_by 11 - sleep_count
decreasing_by omega

/-- How a call of `enqueue` ends. -/
inductive EnqueueResult where
  /-- The call returns `status`, having slept `sleeps` times. -/
  | returned (status : Int) (sleeps : Nat) (st : Win32AttachListener)
  /-- A `guarantee` failed and the VM is aborted. -/
  | vm_abort
deriving DecidableEq, Repr

/-- Lines 212 to 241 of `enqueue`, run with the mutex held: take a record from the
available list, append it to the operation list, fill it in and release the semaphore.
`sleeps` is the number of times the wait loop slept. -/
def enqueue_locked (sleeps : Nat) (st : Win32AttachListener)
    (cmd arg0 arg1 arg2 pipename : CString) : EnqueueResult :=
  match st.avail with
  | some op =>
    let st := set_available st (next st op)
    let st := update st op (fun r => r.set_next none)
    let st :=
      match st.tail with
      | none => set_head st (some op)
      | some t => update st t (fun r => r.set_next (some op))
    let st := set_tail st (some op)
    let st := update st op (fun r => r.set_name cmd)
    let st := update st op (fun r => r.set_arg0 arg0)
    let st := update st op (fun r => r.set_arg1 arg1)
    let st := update st op (fun r => r.set_arg2 arg2)
    let st := update st op (fun r => r.set_pipe pipename)
    -- ReleaseSemaphore fails when the count would exceed the maximum
    if st.semaphore_count + 1 ≤ st.semaphore_max then
      EnqueueResult.returned 0 sleeps { st with semaphore_count := st.semaphore_count + 1 }
    else EnqueueResult.vm_abort
  | none => EnqueueResult.returned ATTACH_ERROR_RESOURCE sleeps st

/-- `Win32AttachListener::enqueue`.  `mutex_wait` is what `WaitForSingleObject(mutex())`
returns. -/
def enqueue (lim : AttachLimits) (is_initialized : Nat → Bool) (mutex_wait : WaitResult)
    (st : Win32AttachListener) (cmd arg0 arg1 arg2 pipename : CString) : EnqueueResult :=
  let w := enqueue_wait is_initialized 0
  if !w.1 then EnqueueResult.returned ATTACH_ERROR_DISABLED w.2 st
  else if strlen cmd > lim.name_length_max then
    EnqueueResult.returned ATTACH_ERROR_ILLEGALARG w.2 st
  else if strlen arg0 > lim.arg_length_max then
    EnqueueResult.returned ATTACH_ERROR_ILLEGALARG w.2 st
  else if strlen arg1 > lim.arg_length_max then
    EnqueueResult.returned ATTACH_ERROR_ILLEGALARG w.2 st
  else if strlen arg2 > lim.arg_length_max then
    EnqueueResult.returned ATTACH_ERROR_ILLEGALARG w.2 st
  else if strlen pipename > Win32AttachOperation.pipe_name_max then
    EnqueueResult.returned ATTACH_ERROR_ILLEGALARG w.2 st
  else if strstr pipename pipe_name_lead ≠ some 0 then
    EnqueueResult.returned ATTACH_ERROR_ILLEGALARG w.2 st
  else if mutex_wait ≠ WaitResult.WAIT_OBJECT_0 then
    EnqueueResult.returned ATTACH_ERROR_INTERNAL w.2 st
  else enqueue_locked w.2 st cmd arg0 arg1 arg2 pipename

/-- How a call of `dequeue` ends. -/
inductive DequeueResult where
  /-- The call returns the record at `op`. -/
  | returned (op : Nat) (st : Win32AttachListener)
  /-- The call waits on the semaphore, whose count is zero. -/
  | blocked (st : Win32AttachListener)
  /-- A `guarantee` failed and the VM is aborted. -/
  | vm_abort
deriving DecidableEq, Repr

/-- The loop of `dequeue`, entered with the semaphore count `count`: every round
takes one unit of the count, so the recursion is on the count.  `mutex_wait` is what
`WaitForSingleObject(mutex())` returns. -/
def dequeue_loop (mutex_wait : WaitResult) : Nat → Win32AttachListener → DequeueResult
  | 0, st => DequeueResult.blocked st
  | count + 1, st =>
    let st := { st with semaphore_count := count }
    if mutex_wait ≠ WaitResult.WAIT_OBJECT_0 then DequeueResult.vm_abort
    else
      match st.head with
      | some op =>
        let st := set_head st (next st op)
        let st := if st.head = none then set_tail st none else st
        DequeueResult.returned op st
      | none => dequeue_loop mutex_wait count st

/-- `Win32AttachListener::dequeue`. -/
def dequeue (mutex_wait : WaitResult) (st : Win32AttachListener) : DequeueResult :=
  dequeue_loop mutex_wait st.semaphore_count st

end Win32AttachListener

/-! ## Requests to the attach queue -/

/-- The five strings of one call of `enqueue`. -/
structure AttachRequest where
  cmd : CString
  arg0 : CString
  arg1 : CString
  arg2 : CString
  pipename : CString
deriving DecidableEq, Repr

namespace AttachRequest

/-- A request that passes every parameter check of `enqueue`. -/
def valid (lim : AttachLimits) (r : AttachRequest) : Prop :=
  strlen r.cmd ≤ lim.name_length_max ∧ strlen r.arg0 ≤ lim.arg_length_max ∧
  strlen r.arg1 ≤ lim.arg_length_max ∧ strlen r.arg2 ≤ lim.arg_length_max ∧
  strlen r.pipename ≤ Win32AttachOperation.pipe_name_max ∧
  strstr r.pipename pipe_name_lead = some 0

instance (lim : AttachLimits) (r : AttachRequest) : Decidable (r.valid lim) := by
  unfold valid; infer_instance

end AttachRequest

namespace Win32AttachListener

/-- A call of `enqueue` with the request `r`, made while the listener is initialised
and with the wait for the mutex returning `WAIT_OBJECT_0`. -/
def submit (lim : AttachLimits) (st : Win32AttachListener) (r : AttachRequest) :
    EnqueueResult :=
  enqueue lim (fun _ => true) WaitResult.WAIT_OBJECT_0 st r.cmd r.arg0 r.arg1 r.arg2 r.pipename

end Win32AttachListener

/-- The client end of the pipe, as `complete` sees it. -/
structure PipeEnv where
  /-- Whether `CreateFile` on the pipe name yields a valid handle. -/
  CreateFile : CString → Bool
  /-- What the `k`-th call of `WriteFile` on the handle does when asked for `len` bytes:
  `none` is failure, `some n` is success with `n` bytes written. -/
  WriteFile : Nat → Nat → Option Nat

/-- The message `complete` logs. -/
inductive AttachLog where
  | wrote_result
  | failure_writing
  | could_not_open
deriving DecidableEq, Repr

/-- What a call of `complete` leaves behind: the queue, the bytes the pipe accepted, in
order, and the message logged. -/
structure CompleteResult where
  st : Win32AttachListener
  delivered : CString
  log : AttachLog
deriving DecidableEq, Repr

namespace Win32AttachOperation

/-- The decimal text of a `jint`, as `%d` prints it. -/
def decimal (result : Int) : CString :=
  (if result < 0 then [45] else []) ++ (Nat.toDigits 10 result.natAbs).map Char.toNat

/-- The buffer `msg` after `_snprintf(msg, sizeof(msg), "%d\n", result)` and
`msg[sizeof(msg) - 1] = 0`, up to its terminating NUL. -/
def result_message (result : Int) : CString :=
  (decimal result ++ [10]).take 31

/-- `Win32AttachOperation::write_pipe(hPipe, buf, len)`, started when `calls` calls of
`WriteFile` have been made: whether it succeeded, the number of calls made by then, and
the bytes the pipe accepted.  `len` is the `int` of the source, passed to `WriteFile` as
a `DWORD`; the pipe never reports more bytes than it was asked for.  The loop runs
while `len > 0`; `fuel` bounds the number of rounds and `none` means the bound was
reached. -/
def write_pipe (env : PipeEnv) : (fuel : Nat) → (calls : Nat) → (buf : CString) →
    (len : Int) → Option (Bool × Nat × CString)
  | 0, _, _, _ => none
  | fuel + 1, calls, buf, len =>
    match env.WriteFile calls (to_uint len).toNat with
    | none => some (false, calls + 1, [])
    | some nwrote =>
      let nwrote := min nwrote (to_uint len).toNat
      let out := buf.take nwrote
      let buf := buf.drop nwrote
      let len := to_int (len - nwrote)
      if len > 0 then
        (write_pipe env fuel (calls + 1) buf len).map
          (fun r => (r.1, r.2.1, out ++ r.2.2))
      else some (true, calls + 1, out)

/-- Lines 343 to 354 of `complete`: with the mutex acquired, put the record back on the
available list. -/
def release (mutex_wait : WaitResult) (st : Win32AttachListener) (this : Nat) :
    Win32AttachListener :=
  if mutex_wait = WaitResult.WAIT_OBJECT_0 then
    let st := Win32AttachListener.update st this (fun r => r.set_next st.avail)
    Win32AttachListener.set_available st (some this)
  else st

/-- `Win32AttachOperation::complete` on the record at `this`; `none` means that a
`write_pipe` loop did not end within `fuel` rounds. -/
def complete (env : PipeEnv) (mutex_wait : WaitResult) (fuel : Nat)
    (st : Win32AttachListener) (this : Nat) (result : Int) (result_stream : CString) :
    Option CompleteResult :=
  let pipe := ((st.ops.get? this).map (fun r => r.pipe)).getD []
  if env.CreateFile pipe then
    let msg := result_message result
    match write_pipe env fuel 0 msg (to_int (strlen msg)) with
    | none => none
    | some (false, _, out) =>
      some ⟨release mutex_wait st this, out, AttachLog.failure_writing⟩
    | some (true, calls, out) =>
      match write_pipe env fuel calls result_stream (to_int result_stream.length) with
      | none => none
      | some (false, _, out2) =>
        some ⟨release mutex_wait st this, out ++ out2, AttachLog.failure_writing⟩
      | some (true, _, out2) =>
        some ⟨release mutex_wait st this, out ++ out2, AttachLog.wrote_result⟩
  else
    some ⟨release mutex_wait st this, [], AttachLog.could_not_open⟩

/-- The record holding the request `r`, as `enqueue` fills it in. -/
def filled (r : AttachRequest) (next : Option Nat) : Win32AttachOperation :=
  ⟨r.cmd, r.arg0, r.arg1, r.arg2, r.pipename.take pipe_name_max, next⟩

end Win32AttachOperation

/-! ## The attach queue as lists of records -/

namespace Win32AttachListener

/-- The field `next` of the record at `op`, in the memory `ops`. -/
def next_at (ops : List Win32AttachOperation) (op : Nat) : Option Nat :=
  (ops.get? op).bind (fun r => r.next)

/-- The records linked from the pointer `p` through their `next` fields are exactly the
members of `l`, in order, and the list ends with a null pointer. -/
def chain (ops : List Win32AttachOperation) : Option Nat → List Nat → Prop
  | p, [] => p = none
  | p, i :: rest => p = some i ∧ i < ops.length ∧ chain ops (next_at ops i) rest

/-- The five strings the record at `op` carries. -/
def request_of (ops : List Win32AttachOperation) (op : Nat) : AttachRequest :=
  match ops.get? op with
  | some r => ⟨r.name, r.arg0, r.arg1, r.arg2, r.pipe⟩
  | none => ⟨[], [], [], [], []⟩

/-- The queue together with its history: the records in service (dequeued and not yet
completed), the requests `enqueue` has answered with 0, in order, and the requests
carried by the records `dequeue` has returned, in order. -/
structure Config where
  st : Win32AttachListener
  in_service : List Nat
  accepted : List AttachRequest
  served : List AttachRequest

/-- One operation on the queue, run to its end.  `dequeue` returns only when its waits
succeed; `complete` is applied to a record in service, with the wait for the mutex
returning `WAIT_OBJECT_0` as its assertions require. -/
inductive Step (lim : AttachLimits) : Config → Config → Prop where
  | enqueue (c : Config) (is_initialized : Nat → Bool) (mutex_wait : WaitResult)
      (r : AttachRequest) (status : Int) (sleeps : Nat) (st1 : Win32AttachListener) :
      Win32AttachListener.enqueue lim is_initialized mutex_wait c.st r.cmd r.arg0 r.arg1 r.arg2
          r.pipename = EnqueueResult.returned status sleeps st1 →
      Step lim c ⟨st1, c.in_service, if status = 0 then c.accepted ++ [r] else c.accepted,
        c.served⟩
  | dequeue (c : Config) (mutex_wait : WaitResult) (op : Nat) (st1 : Win32AttachListener) :
      Win32AttachListener.dequeue mutex_wait c.st = DequeueResult.returned op st1 →
      Step lim c ⟨st1, op :: c.in_service, c.accepted, c.served ++ [request_of st1.ops op]⟩
  | dequeue_blocked (c : Config) (mutex_wait : WaitResult) (st1 : Win32AttachListener) :
      Win32AttachListener.dequeue mutex_wait c.st = DequeueResult.blocked st1 →
      Step lim c ⟨st1, c.in_service, c.accepted, c.served⟩
  | complete (c : Config) (op : Nat) (env : PipeEnv) (fuel : Nat) (result : Int)
      (result_stream : CString) (res : CompleteResult) :
      op ∈ c.in_service →
      Win32AttachOperation.complete env WaitResult.WAIT_OBJECT_0 fuel c.st op result
          result_stream = some res →
      Step lim c ⟨res.st, c.in_service.erase op, c.accepted, c.served⟩

/-- The configurations reached from `init` by operations on the queue. -/
inductive Reachable (lim : AttachLimits) : Config → Prop where
  | init : Reachable lim ⟨Win32AttachListener.init, [], [], []⟩
  | step (c c1 : Config) : Reachable lim c → Step lim c c1 → Reachable lim c1

/-- Every successful `WriteFile` that is asked for at least one byte accepts at least one
byte. -/
def makes_progress (env : PipeEnv) : Prop :=
  ∀ k len, 0 < len → env.WriteFile k len ≠ some 0

/-- Every `WriteFile` succeeds, possibly accepting only part of the buffer. -/
def writes_succeed (env : PipeEnv) : Prop :=
  ∀ k len, ∃ n, env.WriteFile k len = some n

/-- The shape of the queue: `free` is the available list, `pending` the operation list. -/
def queue_shape (c : Config) (free pending : List Nat) : Prop :=
  c.st.ops.length = 4 ∧
  chain c.st.ops c.st.avail free ∧
  chain c.st.ops c.st.head pending ∧
  c.st.tail = pending.getLast? ∧
  (free ++ pending ++ c.in_service).Perm (List.range 4) ∧
  c.st.semaphore_count = pending.length ∧
  c.st.semaphore_max = 4 ∧
  c.accepted = c.served ++ pending.map (request_of c.st.ops)

end Win32AttachListener

/-! ## Array-class registry: `compute_secondary_supers` and `allocate_objArray_klass` -/

/-- The well-known klasses of `vmClasses`. -/
structure vmClasses where
  Object_klass : KlassId
  Cloneable_klass : KlassId
  Serializable_klass : KlassId

/-- Modelled from the spec: `Universe::the_array_interfaces_array()`, which is declared
outside these files: the one canonical precomputed array holding exactly the two
fixed markers, cloneable and serializable. -/
def the_array_interfaces_array (vm : vmClasses) : List KlassId :=
  [vm.Cloneable_klass, vm.Serializable_klass]

/-- The metadata state read and written by the registry. -/
structure VMState where
  /-- The descriptor stored at each `Klass*`. -/
  klass_at : KlassId → Klass
  is_bootstrapping : Bool
  Object_klass_loaded : Bool

/-- A call of one of the resolving lookups on a klass. -/
inductive ResolveCall where
  /-- The call `k->array_klass(THREAD)`. -/
  | array_klass (k : KlassId)
  /-- The call `k->array_klass(n, THREAD)`. -/
  | array_klass_n (k : KlassId) (n : Int)
  /-- The call `InlineKlass::cast(k)->value_array_klass(THREAD)`. -/
  | value_array_klass (k : KlassId)
deriving DecidableEq, Repr

/-- The calls `allocate_objArray_klass` makes to its collaborators. -/
inductive RegistryEvent where
  /-- The scope `MutexUnlocker mu(MultiArray_lock)` is entered. -/
  | unlock_MultiArray_lock
  /-- The scope of the `MutexUnlocker` is left: re-lock. -/
  | relock_MultiArray_lock
  | resolve (c : ResolveCall)
  | create_element_klass_array_name (element_klass : KlassId)
  /-- The call `ObjArrayKlass::allocate(loader_data, n, element_klass, name, null_free, THREAD)`. -/
  | allocate (loader_data : Nat) (n : Int) (element_klass : KlassId) (name : Option Nat)
      (null_free : Bool)
  | complete_create_array_klass (oak : KlassId) (super_klass : Option KlassId)
  | add_class (loader_data : Nat) (oak : KlassId)
deriving DecidableEq, Repr

/-- The collaborators of `allocate_objArray_klass`, each a transformer of the metadata
state; a result `none` (or `false`) leaves an exception pending. -/
structure RegistryEnv where
  vm : vmClasses
  resolve : ResolveCall → VMState → Option KlassId × VMState
  create_element_klass_array_name : KlassId → VMState → Option Nat × VMState
  /-- The placement `new (loader_data, size, THREAD)`: the address of the storage. -/
  metaspace_new : Nat → VMState → Option KlassId × VMState
  complete_create_array_klass : KlassId → Option KlassId → VMState → Bool × VMState
  add_class : Nat → KlassId → VMState → VMState

/-- How a call of `allocate_objArray_klass` ends. -/
inductive RegistryOutcome where
  | returned (oak : KlassId)
  /-- The call returns `nullptr` with an exception pending. -/
  | exception
  /-- A null pointer is dereferenced. -/
  | null_dereference
deriving DecidableEq, Repr

structure RegistryResult where
  outcome : RegistryOutcome
  state : VMState
  trace : List RegistryEvent

namespace ObjArrayKlass

/-- `ObjArrayKlass::compute_secondary_supers`: the returned list (`none` is `nullptr`)
and the descriptor `this` after the call. -/
def compute_secondary_supers (vm : vmClasses) (klass_at : KlassId → Klass) (this : Klass)
    (num_extra_slots : Int) : Option (List (Option KlassId)) × Klass :=
  let elem_supers := (klass_at this.element_klass).secondary_supers
  let num_elem_supers : Int :=
    match elem_supers with
    | none => 0
    | some a => a.length
  let num_secondaries := num_extra_slots + 2 + num_elem_supers
  if num_secondaries = 2 then
    (none, { this with secondary_supers := some (the_array_interfaces_array vm) })
  else
    let secondaries : List (Option KlassId) := []
    let secondaries := secondaries ++ [some vm.Cloneable_klass]
    let secondaries := secondaries ++ [some vm.Serializable_klass]
    let secondaries :=
      ((elem_supers.getD []).take num_elem_supers.toNat).foldl
        (fun secondaries elem_super =>
          let array_super := (klass_at elem_super).array_klass
          secondaries ++ [array_super])
        secondaries
    (some secondaries, this)

/-- The constructor `ObjArrayKlass::ObjArrayKlass(n, element_klass, name, null_free)`. -/
def construct (klass_at : KlassId → Klass) (n : Int) (element_klass : KlassId)
    (name : Nat) (null_free : Bool) : Klass :=
  let ek := klass_at element_klass
  let bk : KlassId :=
    if ek.is_objArray_klass then ek.bottom_klass
    else if ek.is_flatArray_klass then ek.element_klass
    else element_klass
  { kind := KlassKind.ObjArrayKlassKind
    super := none
    secondary_supers := none
    array_klass := none
    dimension := n
    element_klass := element_klass
    bottom_klass := bk
    lower_dimension := none
    null_free := null_free
    class_loader_data := (klass_at bk).class_loader_data
    element_type := 0
    name := name
    external_name := "" }

/-- The class-side `ObjArrayKlass::allocate(loader_data, n, k, name, null_free, THREAD)`:
storage from the metaspace, then the constructor. -/
def allocate_klass (env : RegistryEnv) (loader_data : Nat) (n : Int) (k : KlassId)
    (name : Nat) (null_free : Bool) (st : VMState) : Option KlassId × VMState :=
  match env.metaspace_new loader_data st with
  | (none, st) => (none, st)
  | (some oak, st) =>
    (some oak,
      { st with klass_at := Function.update st.klass_at oak
                  (construct st.klass_at n k name null_free) })

/-- Lines 121 to 140 of `allocate_objArray_klass`: name, descriptor, mirror, class list. -/
def create_objArray_klass (env : RegistryEnv) (st : VMState) (trace : List RegistryEvent)
    (loader_data : Nat) (n : Int) (element_klass : KlassId) (null_free : Bool)
    (super_klass : Option KlassId) : RegistryResult :=
  let trace := trace ++ [RegistryEvent.create_element_klass_array_name element_klass]
  match env.create_element_klass_array_name element_klass st with
  | (none, st) => ⟨RegistryOutcome.exception, st, trace⟩
  | (some name, st) =>
    let trace := trace ++ [RegistryEvent.allocate loader_data n element_klass (some name) null_free]
    match allocate_klass env loader_data n element_klass name null_free st with
    | (none, st) => ⟨RegistryOutcome.exception, st, trace⟩
    | (some oak, st) =>
      let trace := trace ++ [RegistryEvent.complete_create_array_klass oak super_klass]
      match env.complete_create_array_klass oak super_klass st with
      | (false, st) => ⟨RegistryOutcome.exception, st, trace⟩
      | (true, st) =>
        let trace := trace ++ [RegistryEvent.add_class loader_data oak]
        let st := env.add_class loader_data oak st
        ⟨RegistryOutcome.returned oak, st, trace⟩

/-- The loop `elem_super->array_klass(CHECK_NULL)` over the secondary supertypes, in the
order given; the flag is false when one of the calls left an exception pending. -/
def resolve_each (env : RegistryEnv) :
    List KlassId → VMState → List RegistryEvent → Bool × VMState × List RegistryEvent
  | [], st, trace => (true, st, trace)
  | elem_super :: rest, st, trace =>
    let trace := trace ++ [RegistryEvent.resolve (ResolveCall.array_klass elem_super)]
    match env.resolve (ResolveCall.array_klass elem_super) st with
    | (none, st) => (false, st, trace)
    | (some _, st) => resolve_each env rest st trace

/-- Lines 93 to 113 of `allocate_objArray_klass`: back out, allocate the missing array
forms, and retry through the element klass. -/
def back_out_and_retry (env : RegistryEnv) (st : VMState) (n : Int) (element_klass : KlassId)
    (null_free : Bool) (element_super : KlassId) (element_supers : List KlassId) :
    RegistryResult :=
  let trace := [RegistryEvent.unlock_MultiArray_lock]
  let first := if null_free then ResolveCall.array_klass element_klass
               else ResolveCall.array_klass element_super
  let trace := trace ++ [RegistryEvent.resolve first]
  match env.resolve first st with
  | (none, st) => ⟨RegistryOutcome.exception, st, trace ++ [RegistryEvent.relock_MultiArray_lock]⟩
  | (some _, st) =>
    match resolve_each env element_supers.reverse st trace with
    | (false, st, trace) =>
      ⟨RegistryOutcome.exception, st, trace ++ [RegistryEvent.relock_MultiArray_lock]⟩
    | (true, st, trace) =>
      let retry := if null_free then ResolveCall.value_array_klass element_klass
                   else ResolveCall.array_klass_n element_klass n
      let trace := trace ++ [RegistryEvent.resolve retry]
      match env.resolve retry st with
      | (none, st) =>
        ⟨RegistryOutcome.exception, st, trace ++ [RegistryEvent.relock_MultiArray_lock]⟩
      | (some ek, st) =>
        ⟨RegistryOutcome.returned ek, st, trace ++ [RegistryEvent.relock_MultiArray_lock]⟩

/-- `ObjArrayKlass::allocate_objArray_klass`. -/
def allocate_objArray_klass (env : RegistryEnv) (st : VMState) (loader_data : Nat) (n : Int)
    (element_klass : KlassId) (null_free : Bool) : RegistryResult :=
  if !st.is_bootstrapping || st.Object_klass_loaded then
    match (st.klass_at element_klass).super with
    | some element_super =>
      let super_klass :=
        if null_free then (st.klass_at element_klass).array_klass
        else (st.klass_at element_super).array_klass
      let supers_exist := super_klass.isSome
      match (st.klass_at element_klass).secondary_supers with
      | none => ⟨RegistryOutcome.null_dereference, st, []⟩
      | some element_supers =>
        let supers_exist :=
          supers_exist && element_supers.reverse.all (fun elem_super =>
            (st.klass_at elem_super).array_klass.isSome)
        let supers_exist :=
          if null_free then
            if (st.klass_at element_klass).array_klass.isNone then false else supers_exist
          else supers_exist
        if !supers_exist then
          back_out_and_retry env st n element_klass null_free element_super element_supers
        else
          create_objArray_klass env st [] loader_data n element_klass null_free super_klass
    | none =>
      create_objArray_klass env st [] loader_data n element_klass null_free
        (some env.vm.Object_klass)
  else
    create_objArray_klass env st [] loader_data n element_klass null_free none

end ObjArrayKlass

/-! ## Reading the results of the registry -/

namespace ObjArrayKlass

/-- The secondary supertypes a call of `compute_secondary_supers` leaves for the
descriptor: the list it returns or, when it returns `nullptr`, the array it installed
in the descriptor. -/
def computed_secondaries (r : Option (List (Option KlassId)) × Klass) : List (Option KlassId) :=
  match r.1 with
  | some secondaries => secondaries
  | none => (r.2.secondary_supers.getD []).map some

/-- The candidate direct supertype of the array of `element_klass`: the array form of
the direct supertype of the element (of the element itself for a null-free array), or
`Object` when the element has no direct supertype. -/
def candidate_super (env : RegistryEnv) (st : VMState) (element_klass : KlassId)
    (null_free : Bool) : Option KlassId :=
  match (st.klass_at element_klass).super with
  | some element_super =>
    if null_free then (st.klass_at element_klass).array_klass
    else (st.klass_at element_super).array_klass
  | none => some env.vm.Object_klass

/-- The candidate direct supertype exists, and so does the array form of every secondary
supertype of the element klass. -/
def supertype_arrays_exist (env : RegistryEnv) (st : VMState) (element_klass : KlassId)
    (null_free : Bool) : Prop :=
  candidate_super env st element_klass null_free ≠ none ∧
  ∀ elem_super ∈ ((st.klass_at element_klass).secondary_supers).getD [],
    (st.klass_at elem_super).array_klass ≠ none

instance (env : RegistryEnv) (st : VMState) (element_klass : KlassId) (null_free : Bool) :
    Decidable (supertype_arrays_exist env st element_klass null_free) := by
  unfold supertype_arrays_exist; infer_instance

/-- The events of the descriptor a call creates for itself: its name, its allocation,
its completion and its registration with the loader. -/
def creates_descriptor : RegistryEvent → Bool
  | RegistryEvent.create_element_klass_array_name _ => true
  | RegistryEvent.allocate _ _ _ _ _ => true
  | RegistryEvent.complete_create_array_klass _ _ => true
  | RegistryEvent.add_class _ _ => true
  | _ => false

/-- The first resolving call of the back-out path. -/
def first_resolve (element_klass : KlassId) (null_free : Bool) (element_super : KlassId) :
    ResolveCall :=
  if null_free then ResolveCall.array_klass element_klass
  else ResolveCall.array_klass element_super

/-- The resolving call that retries through the element klass. -/
def retry_resolve (n : Int) (element_klass : KlassId) (null_free : Bool) : ResolveCall :=
  if null_free then ResolveCall.value_array_klass element_klass
  else ResolveCall.array_klass_n element_klass n

/-- The state after the resolving calls of the back-out path that precede the retry. -/
def state_before_retry (env : RegistryEnv) (st : VMState) (element_klass : KlassId)
    (null_free : Bool) (element_super : KlassId) (element_supers : List KlassId) : VMState :=
  element_supers.reverse.foldl
    (fun st elem_super => (env.resolve (ResolveCall.array_klass elem_super) st).2)
    (env.resolve (first_resolve element_klass null_free element_super) st).2

/-- The value of `super_klass` when line 121 is reached: null during VM bootstrapping
before `Object` is loaded, the candidate direct supertype otherwise. -/
def direct_super_klass (env : RegistryEnv) (st : VMState) (element_klass : KlassId)
    (null_free : Bool) : Option KlassId :=
  if !st.is_bootstrapping || st.Object_klass_loaded then
    candidate_super env st element_klass null_free
  else none

/-- The call reaches line 121 and goes on to create a descriptor of its own: the VM is
bootstrapping and `Object` is not loaded yet, or the element klass has no direct
supertype, or the array forms of its supertypes all exist. -/
def reaches_creation (env : RegistryEnv) (st : VMState) (element_klass : KlassId)
    (null_free : Bool) : Prop :=
  (!st.is_bootstrapping || st.Object_klass_loaded) = false ∨
  (st.klass_at element_klass).super = none ∨
  ((st.klass_at element_klass).secondary_supers ≠ none ∧
    supertype_arrays_exist env st element_klass null_free)

end ObjArrayKlass

/-! ## Element klasses of object arrays -/

namespace ObjArrayKlass

/-- The klasses an object-array descriptor is constructed over: an instance klass, a
primitive-array klass, a flat array of an inline klass, or an object-array klass over
such a klass whose bottom klass is the one the constructor computes. -/
inductive valid_element (klass_at : KlassId → Klass) : KlassId → Prop where
  | instance_klass (k : KlassId) :
      (klass_at k).is_instance_klass = true → valid_element klass_at k
  | typeArray_klass (k : KlassId) :
      (klass_at k).is_typeArray_klass = true → valid_element klass_at k
  | flatArray_klass (k : KlassId) :
      (klass_at k).is_flatArray_klass = true →
      (klass_at (klass_at k).element_klass).is_inline_klass = true →
      valid_element klass_at k
  | objArray_klass (k : KlassId) (n : Int) (name : Nat) (null_free : Bool) :
      (klass_at k).is_objArray_klass = true →
      valid_element klass_at (klass_at k).element_klass →
      (klass_at k).bottom_klass =
        (construct klass_at n (klass_at k).element_klass name null_free).bottom_klass →
      valid_element klass_at k

end ObjArrayKlass

/-! ## Array instances: `ObjArrayKlass::allocate` and `ObjArrayKlass::multi_allocate` -/

/-- A reference: the address of a heap object, or `none` for null. -/
abbrev oop := Option Nat

/-- An object array on the Java heap. -/
structure objArrayOopDesc where
  klass : KlassId
  length : Int
  slots : List oop
deriving DecidableEq, Repr

/-- The Java heap: the objects allocated so far (an address is an index), and the
klasses initialised so far, in order. -/
structure JavaHeap where
  objects : List objArrayOopDesc
  initialized : List KlassId
deriving DecidableEq, Repr

/-- The exceptions raised while allocating. -/
inductive JavaException where
  /-- The message is the offending length, printed with `%d`. -/
  | NegativeArraySizeException (length : Int)
  /-- The requested array size exceeds the VM limit. -/
  | OutOfMemoryError_array_size
  /-- The heap cannot satisfy the allocation. -/
  | OutOfMemoryError_heap
  /-- The initialisation of the element klass threw. -/
  | initialization_error (k : KlassId)
deriving DecidableEq, Repr

/-- How an allocating call ends. -/
inductive Completion where
  | normal (result : oop) (heap : JavaHeap)
  /-- The call returns null with `e` pending. -/
  | threw (e : JavaException) (heap : JavaHeap)
  /-- A null pointer is dereferenced, or memory outside the length vector is read. -/
  | fault
deriving DecidableEq, Repr

/-- The descriptors and collaborators the allocation functions depend on. -/
structure AllocEnv where
  klass_at : KlassId → Klass
  /-- The limit `arrayOopDesc::max_array_length(T_OBJECT)`. -/
  max_array_length : Int
  /-- Whether the heap fails to allocate when this many objects exist already. -/
  allocation_fails : Nat → Bool
  /-- Whether `initialize` of the klass throws. -/
  initialize_fails : KlassId → Bool
  /-- The instance `InlineKlass::cast(k)->default_value()`. -/
  default_value : KlassId → oop
  /-- The `multi_allocate` of a lower-dimension klass that is not an `ObjArrayKlass`. -/
  other_multi_allocate : KlassId → Nat → List Int → JavaHeap → Completion

/-- Modelled from the spec: `Klass::check_array_allocation_length`, which is declared
outside these files: a length above the maximum is a limit condition, a negative
length is a negative-array-size condition. -/
def check_array_allocation_length (length max_length : Int) : Option JavaException :=
  if length > max_length then some JavaException.OutOfMemoryError_array_size
  else if length < 0 then some (JavaException.NegativeArraySizeException length)
  else none

/-- Modelled from the spec: `CollectedHeap::array_allocate(klass, size, length, do_zero)`,
which is declared outside these files: newly allocated storage is zero-filled; resource
exhaustion surfaces as an out-of-memory condition. -/
def array_allocate (env : AllocEnv) (klass : KlassId) (length : Int) (heap : JavaHeap) :
    Option (Nat × JavaHeap) :=
  if env.allocation_fails heap.objects.length then none
  else
    some (heap.objects.length,
      { heap with objects := heap.objects ++ [⟨klass, length, List.replicate length.toNat none⟩] })

/-- The store `array->obj_at_put(index, value)`. -/
def obj_at_put (heap : JavaHeap) (array : Nat) (index : Nat) (value : oop) : JavaHeap :=
  { heap with objects := heap.objects.modify (fun a => { a with slots := a.slots.set index value }) array }

namespace ObjArrayKlass

/-- The instance-side `ObjArrayKlass::allocate(length, THREAD)` on the descriptor `this`. -/
def allocate (env : AllocEnv) (this : KlassId) (length : Int) (heap : JavaHeap) : Completion :=
  match check_array_allocation_length length env.max_array_length with
  | some e => Completion.threw e heap
  | none =>
    let populate_null_free := (env.klass_at this).is_null_free_array_klass
    match array_allocate env this length heap with
    | none => Completion.threw JavaException.OutOfMemoryError_heap heap
    | some (array, heap) =>
      if populate_null_free then
        let element_klass := (env.klass_at this).element_klass
        if env.initialize_fails element_klass then
          Completion.threw (JavaException.initialization_error element_klass) heap
        else
          let heap := { heap with initialized := heap.initialized ++ [element_klass] }
          let value := env.default_value element_klass
          let heap := (List.range length.toNat).foldl
            (fun heap i => obj_at_put heap array i value) heap
          Completion.normal (some array) heap
      else Completion.normal (some array) heap

/-- The loop of `multi_allocate` over the slots of a non-empty outer array: `count`
rounds are left, the next slot is `index`. -/
def fill_sub_arrays (sub_allocate : JavaHeap → Completion) (array : Nat) :
    (count : Nat) → (index : Nat) → JavaHeap → Completion
  | 0, _, heap => Completion.normal (some array) heap
  | count + 1, index, heap =>
    match sub_allocate heap with
    | Completion.normal sub_array heap =>
      fill_sub_arrays sub_allocate array count (index + 1) (obj_at_put heap array index sub_array)
    | other => other

/-- The loop of `multi_allocate` over the lower dimension values behind an empty outer
array: `count` rounds are left, `sizes` is the pointer into the length vector. -/
def check_lower_dimensions (array : oop) (heap : JavaHeap) :
    (count : Nat) → (sizes : List Int) → Completion
  | 0, _ => Completion.normal array heap
  | count + 1, sizes =>
    let sizes := sizes.tail
    match sizes.head? with
    | none => Completion.fault
    | some v =>
      if v < 0 then Completion.threw (JavaException.NegativeArraySizeException v) heap
      else check_lower_dimensions array heap count sizes

/-- The body of `ObjArrayKlass::multi_allocate`; `recurse` is `multi_allocate` at
`rank - 1` on a lower-dimension klass that is an `ObjArrayKlass`. -/
def multi_allocate_body (env : AllocEnv)
    (recurse : KlassId → List Int → JavaHeap → Completion)
    (rank : Nat) (this : KlassId) (sizes : List Int) (heap : JavaHeap) : Completion :=
  match sizes.head? with
  | none => Completion.fault
  | some length =>
    let ld_klass := (env.klass_at this).lower_dimension
    match allocate env this length heap with
    | Completion.normal (some array) heap =>
      if rank > 1 then
        if length ≠ 0 then
          match ld_klass with
          | none => Completion.fault
          | some ld =>
            fill_sub_arrays
              (fun heap =>
                if (env.klass_at ld).is_objArray_klass then recurse ld sizes.tail heap
                else env.other_multi_allocate ld (rank - 1) sizes.tail heap)
              array length.toNat 0 heap
        else check_lower_dimensions (some array) heap (rank - 1) sizes
      else Completion.normal (some array) heap
    | other => other

/-- `ObjArrayKlass::multi_allocate(rank, sizes, THREAD)` on the descriptor `this`. -/
def multi_allocate (env : AllocEnv) : (rank : Nat) → (this : KlassId) → (sizes : List Int) →
    JavaHeap → Completion
  | 0 => multi_allocate_body env (fun _ _ _ => Completion.fault) 0
  | rank + 1 => multi_allocate_body env (multi_allocate env rank) (rank + 1)

end ObjArrayKlass

/-! ## Reading the results of the allocation -/

namespace ObjArrayKlass

/-- The `count` dimensions below the descriptor `k` are object-array descriptors, each
the `lower_dimension()` of the one above. -/
def obj_array_chain (env : AllocEnv) : (count : Nat) → (k : KlassId) → Prop
  | 0, _ => True
  | count + 1, k =>
    ∃ ld, (env.klass_at k).lower_dimension = some ld ∧
      (env.klass_at ld).is_objArray_klass = true ∧ obj_array_chain env count ld

/-- The heap `heap1` is the heap `heap0` followed by a new array of klass `k` with
`length` slots, and by further objects. -/
def holds_new_array (heap0 heap1 : JavaHeap) (k : KlassId) (length : Int) : Prop :=
  ∃ arr rest, heap1.objects = heap0.objects ++ arr :: rest ∧ arr.klass = k ∧
    arr.length = length ∧ arr.slots.length = length.toNat

end ObjArrayKlass

/-! ## Concrete inputs -/

namespace Example

/-- A klass descriptor with the given kind, element klass and null-free flag. -/
def klass (kind : KlassKind) (element_klass : KlassId) (null_free : Bool) : Klass :=
  { kind := kind, super := none, secondary_supers := some [], array_klass := none,
    dimension := 1, element_klass := element_klass, bottom_klass := element_klass,
    lower_dimension := none, null_free := null_free, class_loader_data := 0,
    element_type := 10, name := 0, external_name := "" }

/-- Klass 1 is `Object`, klass 2 is `String`, klass 3 is a value class `Point`. -/
def copy_env : CopyEnv :=
  { UseFlatArray := true, UseCompressedOops := true,
    obj_at_offset_narrow := fun i => 16 + 4 * i.toNat,
    obj_at_offset_oop := fun i => 16 + 8 * i.toNat,
    is_subtype_of := fun a b => a == b || b == 1 }

/-- An `Object[5]` at address 100. -/
def object_array : arrayOop := ⟨100, klass KlassKind.ObjArrayKlassKind 1 false, 5⟩

/-- A `String[3]` at address 200. -/
def string_array : arrayOop := ⟨200, klass KlassKind.ObjArrayKlassKind 2 false, 3⟩

/-- A null-free `Point[4]` at address 300. -/
def point_array : arrayOop := ⟨300, klass KlassKind.ObjArrayKlassKind 3 true, 4⟩

/-- An `int[8]` at address 400. -/
def int_array : arrayOop := ⟨400, klass KlassKind.TypeArrayKlassKind 0 false, 8⟩

/-- The limits of the attach protocol: 16 bytes of command, 1024 bytes of argument. -/
def limits : AttachLimits := ⟨16, 1024⟩

/-- The command `jcmd` with no arguments, answered on the pipe `\\.\pipe\x`. -/
def request : AttachRequest := ⟨[106, 99, 109, 100], [], [], [], pipe_name_lead ++ [120]⟩

/-- The well-known klasses: `Object` is 1, `Cloneable` is 4, `Serializable` is 5. -/
def vm : vmClasses := ⟨1, 4, 5⟩

/-- A class table: `Object` (1) with its array `Object[]` (8), `String` (2), a subclass of
`Object` implementing `Comparable` (6), and `Comparable` with no array form yet. -/
def klass_table : KlassId → Klass
  | 1 => { klass KlassKind.InstanceKlassKind 0 false with array_klass := some 8 }
  | 2 => { klass KlassKind.InstanceKlassKind 0 false with
            super := some 1, secondary_supers := some [6] }
  | 6 => { klass KlassKind.InstanceKlassKind 0 false with super := some 1 }
  | 8 => { klass KlassKind.ObjArrayKlassKind 1 false with super := some 1 }
  | _ => klass KlassKind.InstanceKlassKind 0 false

/-- The same class table once `Comparable[]` (7) exists. -/
def klass_table_complete : KlassId → Klass
  | 6 => { klass KlassKind.InstanceKlassKind 0 false with
            super := some 1, array_klass := some 7 }
  | 7 => { klass KlassKind.ObjArrayKlassKind 6 false with super := some 8 }
  | k => klass_table k

def vm_state : VMState := ⟨klass_table, false, true⟩

/-- The metadata state once `Comparable[]` exists. -/
def vm_state_complete : VMState := ⟨klass_table_complete, false, true⟩

/-- Collaborators that always succeed: every resolving call answers klass 9, and the
metaspace hands out address 9. -/
def registry_env : RegistryEnv :=
  { vm := vm
    resolve := fun _ st => (some 9, st)
    create_element_klass_array_name := fun _ st => (some 0, st)
    metaspace_new := fun _ st => (some 9, st)
    complete_create_array_klass := fun _ _ st => (true, st)
    add_class := fun _ _ st => st }

/-- A descriptor table in which klass 11 is the null-free array of the value class
`Point` (3). -/
def point_klass_table : KlassId → Klass
  | 3 => klass KlassKind.InlineKlassKind 0 false
  | 11 => klass KlassKind.ObjArrayKlassKind 3 true
  | k => klass_table k

/-- An allocation environment in which the default instance of `Point` is at
address 77. -/
def point_alloc_env : AllocEnv :=
  { klass_at := point_klass_table
    max_array_length := 2147483645
    allocation_fails := fun _ => false
    initialize_fails := fun _ => false
    default_value := fun _ => some 77
    other_multi_allocate := fun _ _ _ _ => Completion.fault }

/-- An allocation environment over the class table: the heap never fails, the limit
is that of a 64-bit VM. -/
def alloc_env : AllocEnv :=
  { klass_at := klass_table
    max_array_length := 2147483645
    allocation_fails := fun _ => false
    initialize_fails := fun _ => false
    default_value := fun _ => none
    other_multi_allocate := fun _ _ _ _ => Completion.fault }

def empty_heap : JavaHeap := ⟨[], []⟩

/-- The queue after the request `jcmd` has been enqueued: it is held by record 3. -/
def one_pending : Win32AttachListener.Config :=
  ⟨⟨[Win32AttachOperation.fresh.set_next none, Win32AttachOperation.fresh.set_next (some 0),
      Win32AttachOperation.fresh.set_next (some 1), Win32AttachOperation.filled request none],
      some 2, some 3, some 3, 1, 4⟩, [], [request], []⟩

/-- The queue after that request has been dequeued: record 3 is in service. -/
def one_in_service : Win32AttachListener.Config :=
  ⟨⟨[Win32AttachOperation.fresh.set_next none, Win32AttachOperation.fresh.set_next (some 0),
      Win32AttachOperation.fresh.set_next (some 1), Win32AttachOperation.filled request none],
      some 2, none, none, 0, 4⟩, [3], [request], [request]⟩

/-- A pipe that opens and accepts one byte per write. -/
def slow_pipe : PipeEnv := ⟨fun _ => true, fun _ len => some (min len 1)⟩

/-- The class table with `Object[][]` (12), whose lower dimension is `Object[]` (8). -/
def multi_klass_table : KlassId → Klass
  | 12 => { klass KlassKind.ObjArrayKlassKind 8 false with
            lower_dimension := some 8, dimension := 2, bottom_klass := 1 }
  | k => klass_table k

def multi_alloc_env : AllocEnv :=
  { klass_at := multi_klass_table
    max_array_length := 2147483645
    allocation_fails := fun _ => false
    initialize_fails := fun _ => false
    default_value := fun _ => none
    other_multi_allocate := fun _ _ _ _ => Completion.fault }

end Example

/-! ## Theorems: checked bulk copy -/

namespace ObjArrayKlass

lemma to_uint_of_nonneg {x : Int} (h0 : 0 ≤ x) (h1 : x < (2 : Int) ^ 31) : to_uint x = x := by
  unfold to_uint
  exact Int.emod_eq_of_lt h0 (by omega)

lemma uint_add_of_nonneg {a b : Int} (ha0 : 0 ≤ a) (ha1 : a < (2 : Int) ^ 31)
    (hb0 : 0 ≤ b) (hb1 : b < (2 : Int) ^ 31) : uint_add a b = a + b := by
  unfold uint_add
  rw [to_uint_of_nonneg ha0 ha1, to_uint_of_nonneg hb0 hb1]
  exact Int.emod_eq_of_lt (by omega) (by omega)

lemma not_flatArray_of_objArray {d : arrayOop} (hd : d.is_objArray = true) :
    d.is_flatArray = false := by
  unfold arrayOop.is_objArray Klass.is_objArray_klass at hd
  unfold arrayOop.is_flatArray Klass.is_flatArray_klass
  have hk : d.klass.kind = KlassKind.ObjArrayKlassKind := by simpa using hd
  simp [hk]

/-- With an object-array destination and non-negative arguments, `copy_array` is its
range check followed by the copy proper. -/
lemma copy_array_of_nonneg (env : CopyEnv) (s d : arrayOop) (src_pos dst_pos length : Int)
    (hd : d.is_objArray = true) (hsp : 0 ≤ src_pos) (hdp : 0 ≤ dst_pos) (hl : 0 ≤ length) :
    copy_array env s src_pos d dst_pos length =
      if uint_add length src_pos > to_uint s.length ∨
          uint_add length dst_pos > to_uint d.length then
        if uint_add length src_pos > to_uint s.length then
          (CopyOutcome.threw (CopyException.ArrayIndexOutOfBoundsException
            (CopyMessage.last_source_index (uint_add length src_pos) s.length)), [])
        else
          (CopyOutcome.threw (CopyException.ArrayIndexOutOfBoundsException
            (CopyMessage.last_destination_index (uint_add length dst_pos) d.length)), [])
      else if length = 0 then (CopyOutcome.returned, [])
      else if env.UseCompressedOops then
        (CopyOutcome.returned,
          do_copy env s (env.obj_at_offset_narrow src_pos) d (env.obj_at_offset_narrow dst_pos) length)
      else
        (CopyOutcome.returned,
          do_copy env s (env.obj_at_offset_oop src_pos) d (env.obj_at_offset_oop dst_pos) length) := by
  have hneg : ¬ (src_pos < 0 ∨ dst_pos < 0 ∨ length < 0) := by omega
  unfold copy_array
  simp only [not_flatArray_of_objArray hd, hd, Bool.and_false, Bool.not_true, Bool.false_eq_true,
    if_false, hneg]

/-- C1: for an object-array destination, array lengths that are non-negative 32-bit
values, and non-negative 32-bit `src_pos`, `dst_pos` and `length`, the unsigned sums of
the range check do not wrap, `copy_array` throws ArrayIndexOutOfBoundsException exactly
when `src_pos + length > s.length` or `dst_pos + length > d.length` over the integers
(naming the last source index first, else the last destination index), and in
particular `copy_array(s, 0, d, 0, s.length + 1)` is rejected naming index
`s.length + 1` against `s.length`. -/
theorem copy_array_range_check_exact (env : CopyEnv) (s d : arrayOop)
    (src_pos dst_pos length : Int)
    (hd : d.is_objArray = true) (hsl : s.valid_length) (hdl : d.valid_length)
    (hsp : 0 ≤ src_pos ∧ src_pos < (2 : Int) ^ 31)
    (hdp : 0 ≤ dst_pos ∧ dst_pos < (2 : Int) ^ 31)
    (hl : 0 ≤ length ∧ length < (2 : Int) ^ 31) :
    (uint_add length src_pos = length + src_pos ∧ uint_add length dst_pos = length + dst_pos) ∧
    ((∃ m, (copy_array env s src_pos d dst_pos length).1 =
        CopyOutcome.threw (CopyException.ArrayIndexOutOfBoundsException m)) ↔
      (src_pos + length > s.length ∨ dst_pos + length > d.length)) ∧
    (src_pos + length > s.length →
      copy_array env s src_pos d dst_pos length =
        (CopyOutcome.threw (CopyException.ArrayIndexOutOfBoundsException
          (CopyMessage.last_source_index (src_pos + length) s.length)), [])) ∧
    (src_pos + length ≤ s.length → dst_pos + length > d.length →
      copy_array env s src_pos d dst_pos length =
        (CopyOutcome.threw (CopyException.ArrayIndexOutOfBoundsException
          (CopyMessage.last_destination_index (dst_pos + length) d.length)), [])) ∧
    (src_pos + length ≤ s.length → dst_pos + length ≤ d.length →
      (copy_array env s src_pos d dst_pos length).1 = CopyOutcome.returned) ∧
    (s.length + 1 < (2 : Int) ^ 31 →
      copy_array env s 0 d 0 (s.length + 1) =
        (CopyOutcome.threw (CopyException.ArrayIndexOutOfBoundsException
          (CopyMessage.last_source_index (s.length + 1) s.length)), [])) := by
  obtain ⟨hs0, hs1⟩ := hsl
  obtain ⟨hd0, hd1⟩ := hdl
  have e1 : uint_add length src_pos = length + src_pos :=
    uint_add_of_nonneg hl.1 hl.2 hsp.1 hsp.2
  have e2 : uint_add length dst_pos = length + dst_pos :=
    uint_add_of_nonneg hl.1 hl.2 hdp.1 hdp.2
  have e3 : to_uint s.length = s.length := to_uint_of_nonneg hs0 hs1
  have e4 : to_uint d.length = d.length := to_uint_of_nonneg hd0 hd1
  have key := copy_array_of_nonneg env s d src_pos dst_pos length hd hsp.1 hdp.1 hl.1
  rw [e1, e2, e3, e4] at key
  refine ⟨⟨e1, e2⟩, ?_, ?_, ?_, ?_, ?_⟩
  · constructor
    · rintro ⟨m, hm⟩
      by_contra hcon
      have hno : ¬ (length + src_pos > s.length ∨ length + dst_pos > d.length) := by omega
      rw [key, if_neg hno] at hm
      split_ifs at hm
    · intro h
      have hyes : length + src_pos > s.length ∨ length + dst_pos > d.length := by omega
      rw [key, if_pos hyes]
      split_ifs
      · exact ⟨_, rfl⟩
      · exact ⟨_, rfl⟩
  · intro h
    have h1 : length + src_pos > s.length := by omega
    rw [key, if_pos (Or.inl h1), if_pos h1, add_comm]
  · intro h h2
    have h1 : ¬ length + src_pos > s.length := by omega
    have h3 : length + dst_pos > d.length := by omega
    rw [key, if_pos (Or.inr h3), if_neg h1, add_comm]
  · intro h h2
    have hno : ¬ (length + src_pos > s.length ∨ length + dst_pos > d.length) := by omega
    rw [key, if_neg hno]
    split_ifs <;> rfl
  · intro hlt
    have key2 := copy_array_of_nonneg env s d 0 0 (s.length + 1) hd le_rfl le_rfl (by omega)
    have e5 : uint_add (s.length + 1) 0 = s.length + 1 := by
      have := uint_add_of_nonneg (a := s.length + 1) (b := 0) (by omega) hlt le_rfl (by norm_num)
      simpa using this
    rw [e5, e3] at key2
    have h1 : s.length + 1 > s.length := by omega
    rw [key2, if_pos (Or.inl h1), if_pos h1]

/-- The witness of C1: copying four elements from position 2 of a `String[3]` into an
`Object[5]`. -/
theorem copy_array_range_check_exact_witness :
    (∃ m, (copy_array Example.copy_env Example.string_array 2 Example.object_array 0 4).1 =
        CopyOutcome.threw (CopyException.ArrayIndexOutOfBoundsException m)) ↔
      ((2 : Int) + 4 > Example.string_array.length ∨ (0 : Int) + 4 > Example.object_array.length) :=
  (copy_array_range_check_exact Example.copy_env Example.string_array Example.object_array
    2 0 4 (by decide) (by decide) (by decide) (by decide) (by decide) (by decide)).2.1

/-- With an object-array destination and a valid range of positive length, `copy_array`
is `do_copy` at the offsets of the two positions. -/
lemma copy_array_of_valid (env : CopyEnv) (s d : arrayOop) (src_pos dst_pos length : Int)
    (hd : d.is_objArray = true) (hsl : s.valid_length) (hdl : d.valid_length)
    (hsp : 0 ≤ src_pos) (hdp : 0 ≤ dst_pos) (hl : 0 < length)
    (hsr : src_pos + length ≤ s.length) (hdr : dst_pos + length ≤ d.length) :
    copy_array env s src_pos d dst_pos length =
      (CopyOutcome.returned,
        if env.UseCompressedOops then
          do_copy env s (env.obj_at_offset_narrow src_pos) d (env.obj_at_offset_narrow dst_pos)
            length
        else
          do_copy env s (env.obj_at_offset_oop src_pos) d (env.obj_at_offset_oop dst_pos)
            length) := by
  obtain ⟨hs0, hs1⟩ := hsl
  obtain ⟨hd0, hd1⟩ := hdl
  have e1 : uint_add length src_pos = length + src_pos :=
    uint_add_of_nonneg (by omega) (by omega) hsp (by omega)
  have e2 : uint_add length dst_pos = length + dst_pos :=
    uint_add_of_nonneg (by omega) (by omega) hdp (by omega)
  have e3 : to_uint s.length = s.length := to_uint_of_nonneg hs0 hs1
  have e4 : to_uint d.length = d.length := to_uint_of_nonneg hd0 hd1
  have hno : ¬ (length + src_pos > s.length ∨ length + dst_pos > d.length) := by omega
  have hl0 : length ≠ 0 := by omega
  rw [copy_array_of_nonneg env s d src_pos dst_pos length hd hsp hdp (by omega), e1, e2, e3, e4,
    if_neg hno, if_neg hl0]
  split_ifs <;> rfl

/-- The one call `do_copy` makes, with its decorators computed from the two arrays. -/
lemma do_copy_eq (env : CopyEnv) (s d : arrayOop) (src_offset dst_offset : Nat)
    (length : Int) :
    do_copy env s src_offset d dst_offset length =
      [⟨⟨decide (s.addr ≠ d.addr),
          decide (s.addr ≠ d.addr) &&
            !(decide (s.klass.element_klass = d.klass.element_klass) ||
              env.is_subtype_of s.klass.element_klass d.klass.element_klass),
          decide (s.addr ≠ d.addr) && ((!s.klass.null_free) && d.klass.null_free)⟩,
        s, src_offset, d, dst_offset, length⟩] := by
  unfold do_copy no_decorators Klass.is_null_free_array_klass
  by_cases h : s.addr = d.addr
  · simp [h]
  · by_cases h2 : s.klass.element_klass = d.klass.element_klass
    · cases hn : ((!s.klass.null_free) && d.klass.null_free) <;> simp [h, h2, hn]
    · cases h3 : env.is_subtype_of s.klass.element_klass d.klass.element_klass <;>
        cases hn : ((!s.klass.null_free) && d.klass.null_free) <;> simp [h, h2, h3, hn]

/-- C3: `copy_array` reports the first failing precondition in the order destination
type, negativity, range.  A destination that is neither an object array nor delegated
to the flat-array path raises ArrayStoreException for every `src_pos`, `dst_pos` and
`length`; with an object-array destination any negative argument raises the
negative-argument ArrayIndexOutOfBoundsException, naming `src_pos` if it is negative,
else `dst_pos` if it is negative, else `length`, whatever the range check would say. -/
theorem copy_array_error_order (env : CopyEnv) (s d : arrayOop)
    (src_pos dst_pos length : Int) :
    (d.is_objArray = false → (env.UseFlatArray && d.is_flatArray) = false →
      copy_array env s src_pos d dst_pos length =
        (CopyOutcome.threw (CopyException.ArrayStoreException
          (if d.is_typeArray then CopyMessage.type_mismatch d.klass.element_type
           else CopyMessage.not_an_array d.klass.external_name)), [])) ∧
    (d.is_objArray = true → (src_pos < 0 ∨ dst_pos < 0 ∨ length < 0) →
      copy_array env s src_pos d dst_pos length =
        (CopyOutcome.threw (CopyException.ArrayIndexOutOfBoundsException
          (if src_pos < 0 then CopyMessage.source_index src_pos s.length
           else if dst_pos < 0 then CopyMessage.destination_index dst_pos d.length
           else CopyMessage.length_negative length)), [])) := by
  constructor
  · intro hd hf
    unfold copy_array
    rw [hf, hd]
    split_ifs <;> simp_all
  · intro hd hneg
    unfold copy_array
    simp only [not_flatArray_of_objArray hd, hd, Bool.and_false, Bool.not_true,
      Bool.false_eq_true, if_false, if_pos hneg]
    split_ifs <;> rfl

/-- The witness of C3: an `int[]` destination with negative and out-of-range arguments,
and an object-array destination with a negative `dst_pos` and an out-of-range length. -/
theorem copy_array_error_order_witness :
    copy_array Example.copy_env Example.string_array (-1) Example.int_array 99 (-7) =
        (CopyOutcome.threw (CopyException.ArrayStoreException
          (CopyMessage.type_mismatch 10)), []) ∧
    copy_array Example.copy_env Example.string_array 0 Example.object_array (-2) 99 =
        (CopyOutcome.threw (CopyException.ArrayIndexOutOfBoundsException
          (CopyMessage.destination_index (-2) 5)), []) :=
  ⟨(copy_array_error_order Example.copy_env Example.string_array Example.int_array
      (-1) 99 (-7)).1 (by decide) (by decide),
   (copy_array_error_order Example.copy_env Example.string_array Example.object_array
      0 (-2) 99).2 (by decide) (by decide)⟩

/-- C4: for object arrays `s` and `d` of any element types and positions
`0 ≤ p ≤ s.length`, `0 ≤ q ≤ d.length`, `copy_array(s, p, d, q, 0)` returns
successfully, makes no call of the reference-copy primitive and leaves the heap as it
was; so does the boundary call `copy_array(s, s.length, d, 0, 0)`. -/
theorem copy_array_zero_length (env : CopyEnv) (s d : arrayOop) (p q : Int)
    (hd : d.is_objArray = true) (hsl : s.valid_length) (hdl : d.valid_length)
    (hp : 0 ≤ p ∧ p ≤ s.length) (hq : 0 ≤ q ∧ q ≤ d.length) :
    copy_array env s p d q 0 = (CopyOutcome.returned, []) ∧
    (∀ (Heap : Type) (oop_arraycopy : ArrayCopyCall → Heap → Heap) (heap : Heap),
      heap_after oop_arraycopy (copy_array env s p d q 0).2 heap = heap) ∧
    copy_array env s s.length d 0 0 = (CopyOutcome.returned, []) := by
  obtain ⟨hs0, hs1⟩ := hsl
  obtain ⟨hd0, hd1⟩ := hdl
  have main : ∀ p q : Int, 0 ≤ p → p ≤ s.length → 0 ≤ q → q ≤ d.length →
      copy_array env s p d q 0 = (CopyOutcome.returned, []) := by
    intro p q hp0 hp1 hq0 hq1
    have e1 : uint_add 0 p = 0 + p :=
      uint_add_of_nonneg le_rfl (by norm_num) hp0 (by omega)
    have e2 : uint_add 0 q = 0 + q :=
      uint_add_of_nonneg le_rfl (by norm_num) hq0 (by omega)
    have e3 : to_uint s.length = s.length := to_uint_of_nonneg hs0 hs1
    have e4 : to_uint d.length = d.length := to_uint_of_nonneg hd0 hd1
    have hno : ¬ (0 + p > s.length ∨ 0 + q > d.length) := by omega
    rw [copy_array_of_nonneg env s d p q 0 hd hp0 hq0 le_rfl, e1, e2, e3, e4, if_neg hno,
      if_pos rfl]
  refine ⟨main p q hp.1 hp.2 hq.1 hq.2, ?_, main s.length 0 hs0 le_rfl le_rfl hd0⟩
  intro Heap prim heap
  rw [main p q hp.1 hp.2 hq.1 hq.2]
  rfl

/-- The witness of C4: a zero-length copy from the end of a `String[3]` into a null-free
`Point[4]`, whose element types are unrelated. -/
theorem copy_array_zero_length_witness :
    copy_array Example.copy_env Example.string_array 3 Example.point_array 4 0 =
      (CopyOutcome.returned, []) :=
  (copy_array_zero_length Example.copy_env Example.string_array Example.point_array 3 4
    (by decide) (by decide) (by decide) (by decide) (by decide)).1

/-- C5: for every validated copy of positive length, `copy_array` makes exactly one
call of the reference-copy primitive, through `do_copy`, on the given arrays and length,
and that call carries ARRAYCOPY_CHECKCAST exactly when source and destination are
distinct array objects and the source element klass is neither equal to nor a subtype
of the destination element klass. -/
theorem do_copy_checkcast_iff (env : CopyEnv) (s d : arrayOop) (src_pos dst_pos length : Int)
    (hd : d.is_objArray = true) (hsl : s.valid_length) (hdl : d.valid_length)
    (hsp : 0 ≤ src_pos) (hdp : 0 ≤ dst_pos) (hl : 0 < length)
    (hsr : src_pos + length ≤ s.length) (hdr : dst_pos + length ≤ d.length) :
    ∃ call : ArrayCopyCall,
      copy_array env s src_pos d dst_pos length = (CopyOutcome.returned, [call]) ∧
      call.src = s ∧ call.dst = d ∧ call.length = length ∧
      (call.decorators.ARRAYCOPY_CHECKCAST = true ↔
        (s.addr ≠ d.addr ∧
          ¬ (s.klass.element_klass = d.klass.element_klass ∨
            env.is_subtype_of s.klass.element_klass d.klass.element_klass = true))) := by
  rw [copy_array_of_valid env s d src_pos dst_pos length hd hsl hdl hsp hdp hl hsr hdr]
  by_cases hc : env.UseCompressedOops = true
  · rw [if_pos hc, do_copy_eq]
    exact ⟨_, rfl, rfl, rfl, rfl, by simp⟩
  · rw [if_neg hc, do_copy_eq]
    exact ⟨_, rfl, rfl, rfl, rfl, by simp⟩

/-- The witness of C5: copying an `Object[5]` prefix into a `String[3]` needs the
per-element check. -/
theorem do_copy_checkcast_iff_witness :
    ∃ call : ArrayCopyCall,
      copy_array Example.copy_env Example.object_array 1 Example.string_array 0 3 =
        (CopyOutcome.returned, [call]) ∧
      call.src = Example.object_array ∧ call.dst = Example.string_array ∧ call.length = 3 ∧
      (call.decorators.ARRAYCOPY_CHECKCAST = true ↔
        (Example.object_array.addr ≠ Example.string_array.addr ∧
          ¬ (Example.object_array.klass.element_klass = Example.string_array.klass.element_klass ∨
            Example.copy_env.is_subtype_of Example.object_array.klass.element_klass
              Example.string_array.klass.element_klass = true))) :=
  do_copy_checkcast_iff Example.copy_env Example.object_array Example.string_array 1 0 3
    (by decide) (by decide) (by decide) (by decide) (by decide) (by decide) (by decide)
    (by decide)

/-- C6: for every validated copy of positive length, the one call of the reference-copy
primitive carries ARRAYCOPY_NOTNULL exactly when source and destination are distinct
array objects, the destination klass is null-free and the source klass is not; the
element klasses, which decide the per-element type check, play no part. -/
theorem do_copy_notnull_iff (env : CopyEnv) (s d : arrayOop) (src_pos dst_pos length : Int)
    (hd : d.is_objArray = true) (hsl : s.valid_length) (hdl : d.valid_length)
    (hsp : 0 ≤ src_pos) (hdp : 0 ≤ dst_pos) (hl : 0 < length)
    (hsr : src_pos + length ≤ s.length) (hdr : dst_pos + length ≤ d.length) :
    ∃ call : ArrayCopyCall,
      copy_array env s src_pos d dst_pos length = (CopyOutcome.returned, [call]) ∧
      call.src = s ∧ call.dst = d ∧ call.length = length ∧
      (call.decorators.ARRAYCOPY_NOTNULL = true ↔
        (s.addr ≠ d.addr ∧ d.klass.is_null_free_array_klass = true ∧
          s.klass.is_null_free_array_klass = false)) := by
  rw [copy_array_of_valid env s d src_pos dst_pos length hd hsl hdl hsp hdp hl hsr hdr]
  by_cases hc : env.UseCompressedOops = true
  · rw [if_pos hc, do_copy_eq]
    refine ⟨_, rfl, rfl, rfl, rfl, ?_⟩
    simp only [Klass.is_null_free_array_klass]
    cases s.klass.null_free <;> cases d.klass.null_free <;> simp
  · rw [if_neg hc, do_copy_eq]
    refine ⟨_, rfl, rfl, rfl, rfl, ?_⟩
    simp only [Klass.is_null_free_array_klass]
    cases s.klass.null_free <;> cases d.klass.null_free <;> simp

/-- The witness of C6: copying from an `Object[5]` into a null-free `Point[4]`. -/
theorem do_copy_notnull_iff_witness :
    ∃ call : ArrayCopyCall,
      copy_array Example.copy_env Example.object_array 0 Example.point_array 1 3 =
        (CopyOutcome.returned, [call]) ∧
      call.src = Example.object_array ∧ call.dst = Example.point_array ∧ call.length = 3 ∧
      (call.decorators.ARRAYCOPY_NOTNULL = true ↔
        (Example.object_array.addr ≠ Example.point_array.addr ∧
          Example.point_array.klass.is_null_free_array_klass = true ∧
          Example.object_array.klass.is_null_free_array_klass = false)) :=
  do_copy_notnull_iff Example.copy_env Example.object_array Example.point_array 0 1 3
    (by decide) (by decide) (by decide) (by decide) (by decide) (by decide) (by decide)
    (by decide)

/-- C7: whenever `copy_array` throws one of its own validation errors
(ArrayStoreException for the destination type, ArrayIndexOutOfBoundsException for a
negative argument or an out-of-range source or destination range), it has made no call
of the reference-copy primitive, so the heap is as it was before the call. -/
theorem copy_array_failure_no_copy (env : CopyEnv) (s d : arrayOop)
    (src_pos dst_pos length : Int) (e : CopyException)
    (h : (copy_array env s src_pos d dst_pos length).1 = CopyOutcome.threw e) :
    (copy_array env s src_pos d dst_pos length).2 = [] ∧
    ∀ (Heap : Type) (oop_arraycopy : ArrayCopyCall → Heap → Heap) (heap : Heap),
      heap_after oop_arraycopy (copy_array env s src_pos d dst_pos length).2 heap = heap := by
  have h2 : (copy_array env s src_pos d dst_pos length).2 = [] := by
    unfold copy_array at h ⊢
    split_ifs at h ⊢ <;> rfl
  refine ⟨h2, ?_⟩
  intro Heap prim heap
  rw [h2]
  rfl

/-- The witness of C7: a copy of four elements out of a `String[3]` is rejected by the
range check. -/
theorem copy_array_failure_no_copy_witness :
    (copy_array Example.copy_env Example.string_array 0 Example.object_array 0 4).2 = [] :=
  (copy_array_failure_no_copy Example.copy_env Example.string_array Example.object_array 0 0 4
    (CopyException.ArrayIndexOutOfBoundsException (CopyMessage.last_source_index 4 3))
    (by decide)).1

end ObjArrayKlass

/-! ## Theorems: attach operation queue -/

namespace Win32AttachListener

lemma enqueue_wait_ready (is_initialized : Nat → Bool) (h : is_initialized 0 = true) :
    enqueue_wait is_initialized 0 = (true, 0) := by
  rw [enqueue_wait]
  simp [h]

/-- A valid request submitted while the listener is initialised reaches the critical
section of `enqueue` without sleeping. -/
lemma submit_of_valid (lim : AttachLimits) (st : Win32AttachListener) (r : AttachRequest)
    (hv : r.valid lim) :
    submit lim st r = enqueue_locked 0 st r.cmd r.arg0 r.arg1 r.arg2 r.pipename := by
  obtain ⟨h1, h2, h3, h4, h5, h6⟩ := hv
  unfold submit enqueue
  rw [enqueue_wait_ready _ rfl]
  simp only [Bool.not_true, Bool.false_eq_true, if_false, gt_iff_lt, Nat.not_lt.mpr h1,
    Nat.not_lt.mpr h2, Nat.not_lt.mpr h3, Nat.not_lt.mpr h4, Nat.not_lt.mpr h5, h6, ne_eq,
    not_true_eq_false]

/-- Whatever the pipe does, a call of `complete` that returns leaves the queue that
`release` computes. -/
lemma complete_st (env : PipeEnv) (mutex_wait : WaitResult) (fuel : Nat)
    (st : Win32AttachListener) (this : Nat) (result : Int) (result_stream : CString)
    (res : CompleteResult)
    (h : Win32AttachOperation.complete env mutex_wait fuel st this result result_stream =
      some res) :
    res.st = Win32AttachOperation.release mutex_wait st this := by
  unfold Win32AttachOperation.complete at h
  simp only at h
  split_ifs at h
  · split at h
    · simp at h
    · simp only [Option.some.injEq] at h; rw [← h]
    · split at h
      · simp at h
      · simp only [Option.some.injEq] at h; rw [← h]
      · simp only [Option.some.injEq] at h; rw [← h]
  · simp only [Option.some.injEq] at h; rw [← h]

/-- A pipe that accepts every write in full lets `complete` return. -/
lemma complete_returns (env : PipeEnv) (mutex_wait : WaitResult) (fuel : Nat)
    (st : Win32AttachListener) (this : Nat) (result : Int) (result_stream : CString)
    (hw : ∀ k len, env.WriteFile k len = some len) :
    ∃ res, Win32AttachOperation.complete env mutex_wait (fuel + 1) st this result
      result_stream = some res := by
  have hwp : ∀ calls buf len, ∃ out, Win32AttachOperation.write_pipe env (fuel + 1) calls buf len =
      some (true, calls + 1, out) := by
    intro calls buf len
    have hlen : ¬ to_int (len - ((to_uint len).toNat : Int)) > 0 := by
      have h0 : 0 ≤ to_uint len := by
        unfold to_uint
        exact Int.emod_nonneg _ (by norm_num)
      rw [Int.toNat_of_nonneg h0]
      unfold to_int to_uint
      norm_num
      omega
    simp only [Win32AttachOperation.write_pipe, hw, min_self, hlen, if_false]
    exact ⟨_, rfl⟩
  unfold Win32AttachOperation.complete
  simp only
  split_ifs
  · obtain ⟨out, h1⟩ := hwp 0 (Win32AttachOperation.result_message result)
      (to_int (strlen (Win32AttachOperation.result_message result)))
    rw [h1]
    simp only
    obtain ⟨out2, h2⟩ := hwp (0 + 1) result_stream (to_int result_stream.length)
    rw [h2]
    exact ⟨_, rfl⟩
  · exact ⟨_, rfl⟩

/-- C2, as amended: from the freshly initialised queue (four free records), with the
listener initialised and every wait for the mutex successful, four valid requests
enqueued before any dequeue each return 0 and a fifth valid request returns
ATTACH_ERROR_RESOURCE, which is 101, leaving the queue as it was; one dequeue then
returns a record, after which the available list is still empty and the fifth request
still returns ATTACH_ERROR_RESOURCE, leaving the queue as it was; and once `complete`
has returned for the dequeued record, that record heads the available list and the
fifth request is accepted with status 0.  `complete` does return when the pipe accepts
every write in full. -/
theorem enqueue_pool_exhaustion (lim : AttachLimits) (r1 r2 r3 r4 r5 : AttachRequest)
    (h1 : r1.valid lim) (h2 : r2.valid lim) (h3 : r3.valid lim) (h4 : r4.valid lim)
    (h5 : r5.valid lim) :
    ∃ (st1 st2 st3 st4 st5 : Win32AttachListener) (op : Nat),
      submit lim init r1 = EnqueueResult.returned 0 0 st1 ∧
      submit lim st1 r2 = EnqueueResult.returned 0 0 st2 ∧
      submit lim st2 r3 = EnqueueResult.returned 0 0 st3 ∧
      submit lim st3 r4 = EnqueueResult.returned 0 0 st4 ∧
      submit lim st4 r5 = EnqueueResult.returned ATTACH_ERROR_RESOURCE 0 st4 ∧
      ATTACH_ERROR_RESOURCE = 101 ∧
      dequeue WaitResult.WAIT_OBJECT_0 st4 = DequeueResult.returned op st5 ∧
      st5.avail = none ∧
      submit lim st5 r5 = EnqueueResult.returned ATTACH_ERROR_RESOURCE 0 st5 ∧
      (∀ (env : PipeEnv) (fuel : Nat) (result : Int) (result_stream : CString)
          (res : CompleteResult),
        Win32AttachOperation.complete env WaitResult.WAIT_OBJECT_0 fuel st5 op result
            result_stream = some res →
          res.st.avail = some op ∧
          ∃ st6, submit lim res.st r5 = EnqueueResult.returned 0 0 st6) ∧
      (∀ (env : PipeEnv) (fuel : Nat) (result : Int) (result_stream : CString),
        (∀ k len, env.WriteFile k len = some len) →
          ∃ res, Win32AttachOperation.complete env WaitResult.WAIT_OBJECT_0 (fuel + 1) st5 op
            result result_stream = some res) := by
  refine ⟨
    ⟨[Win32AttachOperation.fresh.set_next none, Win32AttachOperation.fresh.set_next (some 0),
      Win32AttachOperation.fresh.set_next (some 1), Win32AttachOperation.filled r1 none],
      some 2, some 3, some 3, 1, 4⟩,
    ⟨[Win32AttachOperation.fresh.set_next none, Win32AttachOperation.fresh.set_next (some 0),
      Win32AttachOperation.filled r2 none, Win32AttachOperation.filled r1 (some 2)],
      some 1, some 3, some 2, 2, 4⟩,
    ⟨[Win32AttachOperation.fresh.set_next none, Win32AttachOperation.filled r3 none,
      Win32AttachOperation.filled r2 (some 1), Win32AttachOperation.filled r1 (some 2)],
      some 0, some 3, some 1, 3, 4⟩,
    ⟨[Win32AttachOperation.filled r4 none, Win32AttachOperation.filled r3 (some 0),
      Win32AttachOperation.filled r2 (some 1), Win32AttachOperation.filled r1 (some 2)],
      none, some 3, some 0, 4, 4⟩,
    ⟨[Win32AttachOperation.filled r4 none, Win32AttachOperation.filled r3 (some 0),
      Win32AttachOperation.filled r2 (some 1), Win32AttachOperation.filled r1 (some 2)],
      none, some 2, some 0, 3, 4⟩,
    3, ?_, ?_, ?_, ?_, ?_, rfl, ?_, rfl, ?_, ?_, ?_⟩
  · rw [submit_of_valid lim _ r1 h1]; exact rfl
  · rw [submit_of_valid lim _ r2 h2]; exact rfl
  · rw [submit_of_valid lim _ r3 h3]; exact rfl
  · rw [submit_of_valid lim _ r4 h4]; exact rfl
  · rw [submit_of_valid lim _ r5 h5]; exact rfl
  · exact rfl
  · rw [submit_of_valid lim _ r5 h5]; exact rfl
  · intro env fuel result result_stream res hres
    rw [complete_st env _ fuel _ _ result result_stream res hres, submit_of_valid lim _ r5 h5]
    exact ⟨rfl, _, rfl⟩
  · intro env fuel result result_stream hw
    exact complete_returns env _ fuel _ _ result result_stream hw

/-- The witness of C2, as amended: five times the request `jcmd`. -/
theorem enqueue_pool_exhaustion_witness :
    Example.request.valid Example.limits ∧
    ∃ (st1 st2 st3 st4 st5 : Win32AttachListener) (op : Nat),
      submit Example.limits init Example.request = EnqueueResult.returned 0 0 st1 ∧
      submit Example.limits st1 Example.request = EnqueueResult.returned 0 0 st2 ∧
      submit Example.limits st2 Example.request = EnqueueResult.returned 0 0 st3 ∧
      submit Example.limits st3 Example.request = EnqueueResult.returned 0 0 st4 ∧
      submit Example.limits st4 Example.request =
        EnqueueResult.returned ATTACH_ERROR_RESOURCE 0 st4 ∧
      ATTACH_ERROR_RESOURCE = 101 ∧
      dequeue WaitResult.WAIT_OBJECT_0 st4 = DequeueResult.returned op st5 ∧
      st5.avail = none ∧
      submit Example.limits st5 Example.request =
        EnqueueResult.returned ATTACH_ERROR_RESOURCE 0 st5 ∧
      (∀ (env : PipeEnv) (fuel : Nat) (result : Int) (result_stream : CString)
          (res : CompleteResult),
        Win32AttachOperation.complete env WaitResult.WAIT_OBJECT_0 fuel st5 op result
            result_stream = some res →
          res.st.avail = some op ∧
          ∃ st6, submit Example.limits res.st Example.request =
            EnqueueResult.returned 0 0 st6) ∧
      (∀ (env : PipeEnv) (fuel : Nat) (result : Int) (result_stream : CString),
        (∀ k len, env.WriteFile k len = some len) →
          ∃ res, Win32AttachOperation.complete env WaitResult.WAIT_OBJECT_0 (fuel + 1) st5 op
            result result_stream = some res) :=
  ⟨by decide,
   enqueue_pool_exhaustion Example.limits Example.request Example.request Example.request
    Example.request Example.request (by decide) (by decide) (by decide) (by decide)
    (by decide)⟩

/-- The counterexample to C2 as stated: after four accepted requests `jcmd` and one
dequeue, which hands out the record at address 3, the available list is still empty,
so the fifth attempt returns ATTACH_ERROR_RESOURCE again and not 0. -/
theorem enqueue_after_dequeue_exhausted :
    ∃ (st1 st2 st3 st4 st5 : Win32AttachListener),
      submit Example.limits init Example.request = EnqueueResult.returned 0 0 st1 ∧
      submit Example.limits st1 Example.request = EnqueueResult.returned 0 0 st2 ∧
      submit Example.limits st2 Example.request = EnqueueResult.returned 0 0 st3 ∧
      submit Example.limits st3 Example.request = EnqueueResult.returned 0 0 st4 ∧
      dequeue WaitResult.WAIT_OBJECT_0 st4 = DequeueResult.returned 3 st5 ∧
      st5.avail = none ∧
      submit Example.limits st5 Example.request =
        EnqueueResult.returned ATTACH_ERROR_RESOURCE 0 st5 ∧
      submit Example.limits st5 Example.request ≠ EnqueueResult.returned 0 0 st5 ∧
      ¬ ∃ st6, submit Example.limits st5 Example.request = EnqueueResult.returned 0 0 st6 := by
  have hv : Example.request.valid Example.limits := by decide
  refine ⟨
    ⟨[Win32AttachOperation.fresh.set_next none, Win32AttachOperation.fresh.set_next (some 0),
      Win32AttachOperation.fresh.set_next (some 1),
      Win32AttachOperation.filled Example.request none],
      some 2, some 3, some 3, 1, 4⟩,
    ⟨[Win32AttachOperation.fresh.set_next none, Win32AttachOperation.fresh.set_next (some 0),
      Win32AttachOperation.filled Example.request none,
      Win32AttachOperation.filled Example.request (some 2)],
      some 1, some 3, some 2, 2, 4⟩,
    ⟨[Win32AttachOperation.fresh.set_next none, Win32AttachOperation.filled Example.request none,
      Win32AttachOperation.filled Example.request (some 1),
      Win32AttachOperation.filled Example.request (some 2)],
      some 0, some 3, some 1, 3, 4⟩,
    ⟨[Win32AttachOperation.filled Example.request none,
      Win32AttachOperation.filled Example.request (some 0),
      Win32AttachOperation.filled Example.request (some 1),
      Win32AttachOperation.filled Example.request (some 2)],
      none, some 3, some 0, 4, 4⟩,
    ⟨[Win32AttachOperation.filled Example.request none,
      Win32AttachOperation.filled Example.request (some 0),
      Win32AttachOperation.filled Example.request (some 1),
      Win32AttachOperation.filled Example.request (some 2)],
      none, some 2, some 0, 3, 4⟩,
    ?_, ?_, ?_, ?_, ?_, rfl, ?_, ?_, ?_⟩
  · rw [submit_of_valid _ _ _ hv]; exact rfl
  · rw [submit_of_valid _ _ _ hv]; exact rfl
  · rw [submit_of_valid _ _ _ hv]; exact rfl
  · rw [submit_of_valid _ _ _ hv]; exact rfl
  · exact rfl
  · rw [submit_of_valid _ _ _ hv]; exact rfl
  · rw [submit_of_valid _ _ _ hv]; decide
  · rw [submit_of_valid _ _ _ hv]
    rintro ⟨st6, h⟩
    change EnqueueResult.returned ATTACH_ERROR_RESOURCE 0 _ = _ at h
    injection h with h1
    simp [ATTACH_ERROR_RESOURCE] at h1

end Win32AttachListener

/-! ## Theorems: array-class registry -/

namespace ObjArrayKlass

lemma foldl_push_eq {α β : Type} (f : α → β) (l : List α) (init : List β) :
    l.foldl (fun acc x => acc ++ [f x]) init = init ++ l.map f := by
  induction l generalizing init with
  | nil => simp
  | cons x xs ih => simp [ih]

/-- C8: for a descriptor whose element klass has the secondary supertypes `S` (none
when the array is null), each with an existing array form, and a non-negative number
of extra slots, the secondary supertypes `compute_secondary_supers` computes are the
cloneable marker, the serializable marker and then the array form of each member of
`S`, in that order and with no other entry, `S.length + 2` in all, and no entry is
null: each array entry is the descriptor the lookup `array_klass_or_null` returned. -/
theorem compute_secondary_supers_exact (vm : vmClasses) (klass_at : KlassId → Klass)
    (this : Klass) (num_extra_slots : Int) (hx : 0 ≤ num_extra_slots)
    (hA : ∀ s ∈ ((klass_at this.element_klass).secondary_supers).getD [],
      (klass_at s).array_klass ≠ none) :
    computed_secondaries (compute_secondary_supers vm klass_at this num_extra_slots) =
      some vm.Cloneable_klass :: some vm.Serializable_klass ::
        (((klass_at this.element_klass).secondary_supers).getD []).map
          (fun s => (klass_at s).array_klass) ∧
    (computed_secondaries (compute_secondary_supers vm klass_at this num_extra_slots)).length =
      (((klass_at this.element_klass).secondary_supers).getD []).length + 2 ∧
    ∀ e ∈ computed_secondaries (compute_secondary_supers vm klass_at this num_extra_slots),
      e ≠ none := by
  have main : computed_secondaries (compute_secondary_supers vm klass_at this num_extra_slots) =
      some vm.Cloneable_klass :: some vm.Serializable_klass ::
        (((klass_at this.element_klass).secondary_supers).getD []).map
          (fun s => (klass_at s).array_klass) := by
    unfold compute_secondary_supers computed_secondaries
    cases hS : (klass_at this.element_klass).secondary_supers with
    | none =>
      simp only [Option.getD_none, List.map_nil]
      split_ifs with h2
      · simp [the_array_interfaces_array]
      · simp
    | some S =>
      simp only [Option.getD_some]
      split_ifs with h2
      · have hlen : S.length = 0 := by omega
        have hnil : S = [] := List.length_eq_zero.mp hlen
        subst hnil
        simp [the_array_interfaces_array]
      · simp [foldl_push_eq]
  refine ⟨main, ?_, ?_⟩
  · rw [main]; simp
  · rw [main]
    intro e he
    simp only [List.mem_cons, List.mem_map] at he
    rcases he with rfl | rfl | ⟨s, hs, rfl⟩
    · simp
    · simp
    · exact hA s hs

/-- The witness of C8: the descriptor of `String[]`, whose element klass implements
`Comparable`, once `Comparable[]` (7) exists. -/
theorem compute_secondary_supers_exact_witness :
    computed_secondaries (compute_secondary_supers Example.vm Example.klass_table_complete
      (construct Example.klass_table_complete 1 2 0 false) 0) =
      [some 4, some 5, some 7] :=
  (compute_secondary_supers_exact Example.vm Example.klass_table_complete
    (construct Example.klass_table_complete 1 2 0 false) 0 (by decide) (by decide)).1

lemma resolve_each_no_create (env : RegistryEnv) (l : List KlassId) (st : VMState)
    (trace : List RegistryEvent) (h : ∀ e ∈ trace, creates_descriptor e = false) :
    ∀ e ∈ (resolve_each env l st trace).2.2, creates_descriptor e = false := by
  induction l generalizing st trace with
  | nil => simpa [resolve_each] using h
  | cons x xs ih =>
    have h2 : ∀ e ∈ trace ++ [RegistryEvent.resolve (ResolveCall.array_klass x)],
        creates_descriptor e = false := by
      intro e he
      rcases List.mem_append.mp he with he | he
      · exact h e he
      · simp only [List.mem_singleton] at he
        subst he
        rfl
    unfold resolve_each
    simp only
    split
    · exact h2
    · exact ih _ _ h2

lemma resolve_each_success (env : RegistryEnv) (hres : ∀ c st, (env.resolve c st).1 ≠ none)
    (l : List KlassId) (st : VMState) (trace : List RegistryEvent) :
    resolve_each env l st trace =
      (true,
        l.foldl (fun st elem_super => (env.resolve (ResolveCall.array_klass elem_super) st).2) st,
        trace ++ l.map (fun elem_super => RegistryEvent.resolve (ResolveCall.array_klass elem_super))) := by
  induction l generalizing st trace with
  | nil => simp [resolve_each]
  | cons x xs ih =>
    unfold resolve_each
    simp only
    split
    · rename_i st2 heq
      exact absurd (congrArg Prod.fst heq) (hres _ _)
    · rename_i k st2 heq
      have hst : st2 = (env.resolve (ResolveCall.array_klass x) st).2 := by rw [heq]
      rw [ih, hst]
      simp

lemma back_out_no_create (env : RegistryEnv) (st : VMState) (n : Int)
    (element_klass : KlassId) (null_free : Bool) (element_super : KlassId)
    (element_supers : List KlassId) :
    ∀ e ∈ (back_out_and_retry env st n element_klass null_free element_super
      element_supers).trace, creates_descriptor e = false := by
  have h0 : ∀ e ∈ [RegistryEvent.unlock_MultiArray_lock] ++
      [RegistryEvent.resolve (if null_free then ResolveCall.array_klass element_klass
        else ResolveCall.array_klass element_super)], creates_descriptor e = false := by
    intro e he
    simp only [List.mem_append, List.mem_singleton] at he
    rcases he with rfl | rfl <;> rfl
  have add_relock : ∀ tr : List RegistryEvent, (∀ e ∈ tr, creates_descriptor e = false) →
      ∀ e ∈ tr ++ [RegistryEvent.relock_MultiArray_lock], creates_descriptor e = false := by
    intro tr htr e he
    rcases List.mem_append.mp he with he | he
    · exact htr e he
    · simp only [List.mem_singleton] at he
      subst he
      rfl
  unfold back_out_and_retry
  simp only
  split
  · exact add_relock _ h0
  · rename_i k st1 heq1
    have h1 := resolve_each_no_create env element_supers.reverse st1 _ h0
    split
    · rename_i st2 tr2 heq2
      rw [heq2] at h1
      exact add_relock _ h1
    · rename_i st2 tr2 heq2
      rw [heq2] at h1
      have h2 : ∀ e ∈ tr2 ++ [RegistryEvent.resolve
          (if null_free then ResolveCall.value_array_klass element_klass
            else ResolveCall.array_klass_n element_klass n)], creates_descriptor e = false := by
        intro e he
        rcases List.mem_append.mp he with he | he
        · exact h1 e he
        · simp only [List.mem_singleton] at he
          subst he
          rfl
      split
      · exact add_relock _ h2
      · exact add_relock _ h2

lemma back_out_success (env : RegistryEnv) (hres : ∀ c st, (env.resolve c st).1 ≠ none)
    (st : VMState) (n : Int) (element_klass : KlassId) (null_free : Bool)
    (element_super : KlassId) (element_supers : List KlassId) :
    (back_out_and_retry env st n element_klass null_free element_super element_supers).trace =
      [RegistryEvent.unlock_MultiArray_lock,
        RegistryEvent.resolve (first_resolve element_klass null_free element_super)] ++
      element_supers.reverse.map
        (fun elem_super => RegistryEvent.resolve (ResolveCall.array_klass elem_super)) ++
      [RegistryEvent.resolve (retry_resolve n element_klass null_free),
        RegistryEvent.relock_MultiArray_lock] ∧
    ∃ ek, (env.resolve (retry_resolve n element_klass null_free)
        (state_before_retry env st element_klass null_free element_super element_supers)).1 =
          some ek ∧
      (back_out_and_retry env st n element_klass null_free element_super element_supers).outcome =
        RegistryOutcome.returned ek := by
  unfold back_out_and_retry state_before_retry first_resolve retry_resolve
  simp only
  split
  · rename_i st1 heq1
    exact absurd (congrArg Prod.fst heq1) (hres _ _)
  · rename_i k1 st1 heq1
    have hst1 : (env.resolve (if null_free then ResolveCall.array_klass element_klass
        else ResolveCall.array_klass element_super) st).2 = st1 := by rw [heq1]
    rw [resolve_each_success env hres, hst1]
    simp only
    split
    · rename_i st3 heq3
      exact absurd (congrArg Prod.fst heq3) (hres _ _)
    · rename_i ek st3 heq3
      refine ⟨by simp, ek, by rw [heq3], rfl⟩

/-- The test `supers_exist` of `allocate_objArray_klass` holds exactly when the supertype
array forms exist. -/
lemma supers_exist_iff (env : RegistryEnv) (st : VMState) (element_klass : KlassId)
    (null_free : Bool) (element_super : KlassId) (element_supers : List KlassId)
    (hsuper : (st.klass_at element_klass).super = some element_super)
    (hS : (st.klass_at element_klass).secondary_supers = some element_supers) :
    (if null_free then
        if (st.klass_at element_klass).array_klass.isNone then false
        else
          ((if null_free then (st.klass_at element_klass).array_klass
            else (st.klass_at element_super).array_klass).isSome &&
            element_supers.reverse.all (fun elem_super =>
              (st.klass_at elem_super).array_klass.isSome))
      else
        ((if null_free then (st.klass_at element_klass).array_klass
          else (st.klass_at element_super).array_klass).isSome &&
          element_supers.reverse.all (fun elem_super =>
            (st.klass_at elem_super).array_klass.isSome))) = true ↔
      supertype_arrays_exist env st element_klass null_free := by
  unfold supertype_arrays_exist candidate_super
  rw [hsuper, hS]
  simp only [Option.getD_some]
  have hall : (element_supers.reverse.all (fun elem_super =>
      (st.klass_at elem_super).array_klass.isSome) = true) ↔
      ∀ elem_super ∈ element_supers, (st.klass_at elem_super).array_klass ≠ none := by
    simp [List.all_eq_true, Option.isSome_iff_ne_none]
  cases null_free with
  | true =>
    cases hek : (st.klass_at element_klass).array_klass with
    | none => simp
    | some a =>
      simp only [if_true, Option.isNone_some, Bool.false_eq_true, if_false, Option.isSome_some,
        Bool.true_and, ne_eq, not_false_eq_true, true_and, reduceCtorEq]
      exact hall
  | false =>
    simp only [Bool.false_eq_true, if_false, Bool.and_eq_true, Option.isSome_iff_ne_none]
    rw [hall]

/-- Outside bootstrapping, an element klass with a direct supertype whose supertype
array forms do not all exist sends `allocate_objArray_klass` down the back-out path. -/
lemma allocate_objArray_klass_of_missing (env : RegistryEnv) (st : VMState)
    (loader_data : Nat) (n : Int) (element_klass : KlassId) (null_free : Bool)
    (element_super : KlassId) (element_supers : List KlassId)
    (hboot : st.is_bootstrapping = false)
    (hsuper : (st.klass_at element_klass).super = some element_super)
    (hS : (st.klass_at element_klass).secondary_supers = some element_supers)
    (hmiss : ¬ supertype_arrays_exist env st element_klass null_free) :
    allocate_objArray_klass env st loader_data n element_klass null_free =
      back_out_and_retry env st n element_klass null_free element_super element_supers := by
  have hb := (supers_exist_iff env st element_klass null_free element_super element_supers
    hsuper hS).not.mpr hmiss
  rw [Bool.not_eq_true] at hb
  unfold allocate_objArray_klass
  simp only [hboot, hsuper, hS, Bool.not_false, Bool.true_or, if_true]
  rw [hb]
  simp

/-- Outside bootstrapping, when the supertype array forms exist `allocate_objArray_klass`
goes on to create the descriptor, with the candidate as its direct supertype. -/
lemma allocate_objArray_klass_of_complete (env : RegistryEnv) (st : VMState)
    (loader_data : Nat) (n : Int) (element_klass : KlassId) (null_free : Bool)
    (element_supers : List KlassId)
    (hboot : st.is_bootstrapping = false)
    (hS : (st.klass_at element_klass).secondary_supers = some element_supers)
    (hex : supertype_arrays_exist env st element_klass null_free) :
    allocate_objArray_klass env st loader_data n element_klass null_free =
      create_objArray_klass env st [] loader_data n element_klass null_free
        (candidate_super env st element_klass null_free) := by
  cases hsuper : (st.klass_at element_klass).super with
  | none =>
    unfold allocate_objArray_klass candidate_super
    simp only [hboot, hsuper, Bool.not_false, Bool.true_or, if_true]
  | some element_super =>
    have hb := (supers_exist_iff env st element_klass null_free element_super element_supers
      hsuper hS).mpr hex
    unfold allocate_objArray_klass candidate_super
    simp only [hboot, hsuper, hS, Bool.not_false, Bool.true_or, if_true]
    rw [hb]
    simp

/-- C9: outside VM bootstrapping, for an element klass whose array of secondary
supertypes is `element_supers` (empty when the element has no direct supertype, which is
`Object`), `allocate_objArray_klass` creates a descriptor of its own (name, allocation,
completion, registration) only if, on entry, the candidate direct supertype and the
array form of every secondary supertype of the element klass exist.  If one of them is
missing, the call makes none of these four calls; it resolves the array form of the
direct supertype (of the element for a null-free array) and of every secondary
supertype, last to first, re-resolves through the element klass and, when these
resolving calls succeed, returns the descriptor the re-resolution answered. -/
theorem allocate_objArray_klass_supers_first (env : RegistryEnv) (st : VMState)
    (loader_data : Nat) (n : Int) (element_klass : KlassId) (null_free : Bool)
    (element_supers : List KlassId)
    (hboot : st.is_bootstrapping = false)
    (hS : (st.klass_at element_klass).secondary_supers = some element_supers)
    (hroot : (st.klass_at element_klass).super = none → element_supers = []) :
    ((∃ e ∈ (allocate_objArray_klass env st loader_data n element_klass null_free).trace,
        creates_descriptor e = true) →
      supertype_arrays_exist env st element_klass null_free) ∧
    (supertype_arrays_exist env st element_klass null_free →
      allocate_objArray_klass env st loader_data n element_klass null_free =
        create_objArray_klass env st [] loader_data n element_klass null_free
          (candidate_super env st element_klass null_free)) ∧
    (¬ supertype_arrays_exist env st element_klass null_free →
      (∀ e ∈ (allocate_objArray_klass env st loader_data n element_klass null_free).trace,
        creates_descriptor e = false) ∧
      ∃ element_super, (st.klass_at element_klass).super = some element_super ∧
        ((∀ c st1, (env.resolve c st1).1 ≠ none) →
          (allocate_objArray_klass env st loader_data n element_klass null_free).trace =
            [RegistryEvent.unlock_MultiArray_lock,
              RegistryEvent.resolve (first_resolve element_klass null_free element_super)] ++
            element_supers.reverse.map
              (fun elem_super => RegistryEvent.resolve (ResolveCall.array_klass elem_super)) ++
            [RegistryEvent.resolve (retry_resolve n element_klass null_free),
              RegistryEvent.relock_MultiArray_lock] ∧
          ∃ ek, (env.resolve (retry_resolve n element_klass null_free)
              (state_before_retry env st element_klass null_free element_super
                element_supers)).1 = some ek ∧
            (allocate_objArray_klass env st loader_data n element_klass null_free).outcome =
              RegistryOutcome.returned ek)) := by
  have hcomplete := allocate_objArray_klass_of_complete env st loader_data n element_klass
    null_free element_supers hboot hS
  cases hsuper : (st.klass_at element_klass).super with
  | none =>
    have hex : supertype_arrays_exist env st element_klass null_free := by
      unfold supertype_arrays_exist candidate_super
      rw [hsuper, hS, hroot hsuper]
      simp
    exact ⟨fun _ => hex, hcomplete, fun hmiss => absurd hex hmiss⟩
  | some element_super =>
    by_cases hex : supertype_arrays_exist env st element_klass null_free
    · exact ⟨fun _ => hex, hcomplete, fun hmiss => absurd hex hmiss⟩
    · have hback := allocate_objArray_klass_of_missing env st loader_data n element_klass
        null_free element_super element_supers hboot hsuper hS hex
      have hno := back_out_no_create env st n element_klass null_free element_super
        element_supers
      rw [hback]
      refine ⟨?_, fun h => absurd h hex, fun _ => ⟨hno, element_super, rfl, ?_⟩⟩
      · rintro ⟨e, he, hc⟩
        rw [hno e he] at hc
        exact absurd hc (by simp)
      · intro hres
        exact back_out_success env hres st n element_klass null_free element_super
          element_supers

/-- The witness of C9: `String[]` is requested while `Comparable[]` does not exist. -/
theorem allocate_objArray_klass_supers_first_witness :
    ¬ supertype_arrays_exist Example.registry_env Example.vm_state 2 false ∧
    ∀ e ∈ (allocate_objArray_klass Example.registry_env Example.vm_state 0 1 2 false).trace,
      creates_descriptor e = false :=
  ⟨by decide,
   ((allocate_objArray_klass_supers_first Example.registry_env Example.vm_state 0 1 2 false
      [6] rfl rfl (by decide)).2.2 (by decide)).1⟩

end ObjArrayKlass

/-! ## Theorems: array instances -/

namespace ObjArrayKlass

lemma check_lower_dimensions_eq (array : oop) (heap : JavaHeap) (count : Nat)
    (sizes : List Int) (hlen : count + 1 ≤ sizes.length) :
    check_lower_dimensions array heap count sizes =
      match (sizes.tail.take count).find? (fun v => decide (v < 0)) with
      | some v => Completion.threw (JavaException.NegativeArraySizeException v) heap
      | none => Completion.normal array heap := by
  induction count generalizing sizes with
  | zero => simp [check_lower_dimensions]
  | succ n ih =>
    match sizes, hlen with
    | _ :: y :: rest, hlen =>
      unfold check_lower_dimensions
      simp only [List.tail_cons, List.head?_cons, List.take_succ_cons, List.find?_cons]
      by_cases hy : y < 0
      · simp [hy]
      · have hlen2 : n + 1 ≤ (y :: rest).length := by
          simp only [List.length_cons] at hlen ⊢
          omega
        simp only [hy, if_false, decide_False]
        rw [ih (y :: rest) hlen2]
        simp

/-- C10: for a rank above 1, a length vector of `rank` entries whose first entry is 0,
a descriptor that is not null-free (as every descriptor of rank above 1 is), a
non-negative maximum array length and a heap that can allocate the outer array,
`multi_allocate` allocates the empty outer array and nothing else, then checks the
remaining lengths `sizes[1..rank-1]` in order: it throws NegativeArraySizeException
for the first negative one, if there is one, and otherwise returns the empty outer
array. -/
theorem multi_allocate_empty_outer (env : AllocEnv) (rank : Nat) (this : KlassId)
    (sizes : List Int) (heap : JavaHeap)
    (hrank : 1 < rank) (hlen : sizes.length = rank) (h0 : sizes.head? = some 0)
    (hmax : 0 ≤ env.max_array_length)
    (hnf : (env.klass_at this).is_null_free_array_klass = false)
    (halloc : env.allocation_fails heap.objects.length = false) :
    multi_allocate env rank this sizes heap =
      match sizes.tail.find? (fun v => decide (v < 0)) with
      | some v =>
        Completion.threw (JavaException.NegativeArraySizeException v)
          { heap with objects := heap.objects ++ [⟨this, 0, []⟩] }
      | none =>
        Completion.normal (some heap.objects.length)
          { heap with objects := heap.objects ++ [⟨this, 0, []⟩] } := by
  obtain ⟨r, rfl⟩ : ∃ r, rank = r + 1 := ⟨rank - 1, by omega⟩
  have halloc0 : allocate env this 0 heap =
      Completion.normal (some heap.objects.length)
        { heap with objects := heap.objects ++ [⟨this, 0, []⟩] } := by
    unfold allocate check_array_allocation_length array_allocate
    have h1 : ¬ (0 : Int) > env.max_array_length := by omega
    simp [h1, hnf, halloc]
  have htake : sizes.tail.take r = sizes.tail := by
    apply List.take_of_length_le
    simp only [List.length_tail]
    omega
  unfold multi_allocate
  unfold multi_allocate_body
  simp only [h0, halloc0]
  rw [if_pos hrank]
  simp only [ne_eq, not_true_eq_false, if_false, Nat.add_sub_cancel]
  rw [check_lower_dimensions_eq _ _ r sizes (by omega), htake]

/-- The witness of C10: a request for dimensions `[0][5][-2]`. -/
theorem multi_allocate_empty_outer_witness :
    multi_allocate Example.alloc_env 3 8 [0, 5, -2] Example.empty_heap =
      Completion.threw (JavaException.NegativeArraySizeException (-2)) ⟨[⟨8, 0, []⟩], []⟩ :=
  multi_allocate_empty_outer Example.alloc_env 3 8 [0, 5, -2] Example.empty_heap
    (by decide) rfl rfl (by decide) rfl rfl

end ObjArrayKlass

/-! ## Theorems: parameter checks and the wait loop of `enqueue` -/

namespace Win32AttachListener

lemma starts_with_iff (hay needle : CString) :
    starts_with hay needle = true ↔ needle <+: hay := by
  induction needle generalizing hay with
  | nil =>
    cases hay <;> simp [starts_with]
  | cons n needle ih =>
    cases hay with
    | nil => simp [starts_with]
    | cons h hay =>
      simp only [starts_with, Bool.and_eq_true, decide_eq_true_eq, ih]
      constructor
      · rintro ⟨rfl, t, ht⟩
        exact ⟨t, by simp [ht]⟩
      · rintro ⟨t, ht⟩
        simp only [List.cons_append, List.cons.injEq] at ht
        exact ⟨ht.1.symm, t, ht.2⟩

lemma strstr_eq_zero_iff (hay needle : CString) :
    strstr hay needle = some 0 ↔ needle <+: hay := by
  rw [← starts_with_iff]
  cases hay with
  | nil =>
    unfold strstr
    split_ifs with h <;> simp [h]
  | cons h hay =>
    unfold strstr
    split_ifs with h1
    · simp [h1]
    · simp only [h1, Bool.false_eq_true, iff_false]
      cases strstr hay needle <;> simp

/-- The critical section of `enqueue` never answers an error of the parameter checks. -/
lemma enqueue_locked_status (sleeps : Nat) (st : Win32AttachListener)
    (cmd arg0 arg1 arg2 pipename : CString) (status : Int) (k : Nat)
    (st1 : Win32AttachListener)
    (h : enqueue_locked sleeps st cmd arg0 arg1 arg2 pipename =
      EnqueueResult.returned status k st1) :
    status = 0 ∨ status = ATTACH_ERROR_RESOURCE := by
  unfold enqueue_locked at h
  split at h
  · simp only at h
    split_ifs at h
    simp only [EnqueueResult.returned.injEq] at h
    exact Or.inl h.1.symm
  · simp only [EnqueueResult.returned.injEq] at h
    exact Or.inr h.1.symm

/-- The parameter checks of `enqueue`, as one condition on the five strings. -/
lemma enqueue_of_ready (lim : AttachLimits) (is_initialized : Nat → Bool)
    (mutex_wait : WaitResult) (st : Win32AttachListener)
    (cmd arg0 arg1 arg2 pipename : CString) (hinit : is_initialized 0 = true) :
    enqueue lim is_initialized mutex_wait st cmd arg0 arg1 arg2 pipename =
      if strlen cmd > lim.name_length_max ∨ strlen arg0 > lim.arg_length_max ∨
          strlen arg1 > lim.arg_length_max ∨ strlen arg2 > lim.arg_length_max ∨
          strlen pipename > Win32AttachOperation.pipe_name_max ∨
          ¬ pipe_name_lead <+: pipename then
        EnqueueResult.returned ATTACH_ERROR_ILLEGALARG 0 st
      else if mutex_wait ≠ WaitResult.WAIT_OBJECT_0 then
        EnqueueResult.returned ATTACH_ERROR_INTERNAL 0 st
      else enqueue_locked 0 st cmd arg0 arg1 arg2 pipename := by
  unfold enqueue
  rw [enqueue_wait_ready _ hinit]
  simp only [Bool.not_true, Bool.false_eq_true, if_false, ne_eq, strstr_eq_zero_iff]
  by_cases h1 : strlen cmd > lim.name_length_max
  · simp [h1]
  by_cases h2 : strlen arg0 > lim.arg_length_max
  · simp [h1, h2]
  by_cases h3 : strlen arg1 > lim.arg_length_max
  · simp [h1, h2, h3]
  by_cases h4 : strlen arg2 > lim.arg_length_max
  · simp [h1, h2, h3, h4]
  by_cases h5 : strlen pipename > Win32AttachOperation.pipe_name_max
  · simp [h1, h2, h3, h4, h5]
  by_cases h6 : pipe_name_lead <+: pipename
  · simp [h1, h2, h3, h4, h5, h6]
  · simp [h1, h2, h3, h4, h5, h6]

/-- C14: with the listener initialised, `enqueue` returns ATTACH_ERROR_ILLEGALARG, which
is 102, exactly when the command is longer than `name_length_max`, or one of the three
arguments is longer than `arg_length_max`, or the pipe name is longer than 256 bytes,
or the pipe name does not begin with the lead `\\.\pipe\`; a rejected request leaves
the queue as it was (no record leaves the available list, none joins the operation
list); and a pipe name of exactly 256 bytes that begins with the lead is not rejected
when the other four strings are within their limits. -/
theorem enqueue_illegal_arg_iff (lim : AttachLimits) (is_initialized : Nat → Bool)
    (mutex_wait : WaitResult) (st : Win32AttachListener)
    (cmd arg0 arg1 arg2 pipename : CString) (hinit : is_initialized 0 = true) :
    ((∃ sleeps st1, enqueue lim is_initialized mutex_wait st cmd arg0 arg1 arg2 pipename =
        EnqueueResult.returned ATTACH_ERROR_ILLEGALARG sleeps st1) ↔
      (strlen cmd > lim.name_length_max ∨ strlen arg0 > lim.arg_length_max ∨
        strlen arg1 > lim.arg_length_max ∨ strlen arg2 > lim.arg_length_max ∨
        strlen pipename > 256 ∨ ¬ pipe_name_lead <+: pipename)) ∧
    ATTACH_ERROR_ILLEGALARG = 102 ∧
    (∀ sleeps st1, enqueue lim is_initialized mutex_wait st cmd arg0 arg1 arg2 pipename =
        EnqueueResult.returned ATTACH_ERROR_ILLEGALARG sleeps st1 → st1 = st) ∧
    (strlen pipename = 256 → pipe_name_lead <+: pipename →
      strlen cmd ≤ lim.name_length_max → strlen arg0 ≤ lim.arg_length_max →
      strlen arg1 ≤ lim.arg_length_max → strlen arg2 ≤ lim.arg_length_max →
      ∀ sleeps st1, enqueue lim is_initialized mutex_wait st cmd arg0 arg1 arg2 pipename ≠
        EnqueueResult.returned ATTACH_ERROR_ILLEGALARG sleeps st1) := by
  have key := enqueue_of_ready lim is_initialized mutex_wait st cmd arg0 arg1 arg2 pipename hinit
  have hmax : Win32AttachOperation.pipe_name_max = 256 := rfl
  rw [hmax] at key
  have hnot : ∀ sleeps st1,
      ¬ (strlen cmd > lim.name_length_max ∨ strlen arg0 > lim.arg_length_max ∨
        strlen arg1 > lim.arg_length_max ∨ strlen arg2 > lim.arg_length_max ∨
        strlen pipename > 256 ∨ ¬ pipe_name_lead <+: pipename) →
      enqueue lim is_initialized mutex_wait st cmd arg0 arg1 arg2 pipename ≠
        EnqueueResult.returned ATTACH_ERROR_ILLEGALARG sleeps st1 := by
    intro sleeps st1 hv heq
    rw [key, if_neg hv] at heq
    split_ifs at heq
    · simp [ATTACH_ERROR_INTERNAL, ATTACH_ERROR_ILLEGALARG] at heq
    · rcases enqueue_locked_status _ _ _ _ _ _ _ _ _ _ heq with h | h
      · simp [ATTACH_ERROR_ILLEGALARG] at h
      · simp [ATTACH_ERROR_ILLEGALARG, ATTACH_ERROR_RESOURCE] at h
  refine ⟨⟨?_, ?_⟩, rfl, ?_, ?_⟩
  · rintro ⟨sleeps, st1, heq⟩
    by_contra hv
    exact hnot sleeps st1 hv heq
  · intro hbad
    exact ⟨0, st, by rw [key, if_pos hbad]⟩
  · intro sleeps st1 heq
    by_cases hv : (strlen cmd > lim.name_length_max ∨ strlen arg0 > lim.arg_length_max ∨
        strlen arg1 > lim.arg_length_max ∨ strlen arg2 > lim.arg_length_max ∨
        strlen pipename > 256 ∨ ¬ pipe_name_lead <+: pipename)
    · rw [key, if_pos hv] at heq
      simp only [EnqueueResult.returned.injEq] at heq
      exact heq.2.2.symm
    · exact absurd heq (hnot sleeps st1 hv)
  · intro h256 hlead h1 h2 h3 h4 sleeps st1
    apply hnot
    intro hbad
    rcases hbad with h | h | h | h | h | h
    · omega
    · omega
    · omega
    · omega
    · omega
    · exact h hlead

/-- The witness of C14: the request `jcmd` whose pipe name is `jcmd` itself, with no
lead. -/
theorem enqueue_illegal_arg_iff_witness :
    (∃ sleeps st1, enqueue Example.limits (fun _ => true) WaitResult.WAIT_OBJECT_0 init
        [106, 99, 109, 100] [] [] [] [106, 99, 109, 100] =
        EnqueueResult.returned ATTACH_ERROR_ILLEGALARG sleeps st1) ↔
      (strlen [106, 99, 109, 100] > Example.limits.name_length_max ∨
        strlen [] > Example.limits.arg_length_max ∨
        strlen [] > Example.limits.arg_length_max ∨ strlen [] > Example.limits.arg_length_max ∨
        strlen [106, 99, 109, 100] > 256 ∨ ¬ pipe_name_lead <+: [106, 99, 109, 100]) :=
  (enqueue_illegal_arg_iff Example.limits (fun _ => true) WaitResult.WAIT_OBJECT_0 init
    [106, 99, 109, 100] [] [] [] [106, 99, 109, 100] rfl).1

/-- While the listener stays uninitialised the wait loop sleeps until the count passes
ten, which is its eleventh sleep. -/
lemma enqueue_wait_never_ready (is_initialized : Nat → Bool)
    (h : ∀ k, k ≤ 10 → is_initialized k = false) (d sleep_count : Nat)
    (hd : sleep_count + d = 10) :
    enqueue_wait is_initialized sleep_count = (false, 11) := by
  induction d generalizing sleep_count with
  | zero =>
    have hs : sleep_count = 10 := by omega
    subst hs
    rw [enqueue_wait]
    simp [h 10 le_rfl]
  | succ d ih =>
    rw [enqueue_wait]
    have hlt : ¬ sleep_count + 1 > 10 := by omega
    simp only [h sleep_count (by omega), Bool.not_false, if_true, hlt, if_false]
    exact ih (sleep_count + 1) (by omega)

/-- A listener that becomes initialised after `m` seconds, `m` at most ten, is seen
initialised after `m` sleeps. -/
lemma enqueue_wait_ready_at (is_initialized : Nat → Bool) (m : Nat) (hm : m ≤ 10)
    (hbefore : ∀ k, k < m → is_initialized k = false) (hat : is_initialized m = true)
    (d sleep_count : Nat) (hd : sleep_count + d = m) :
    enqueue_wait is_initialized sleep_count = (true, m) := by
  induction d generalizing sleep_count with
  | zero =>
    have hs : sleep_count = m := by omega
    subst hs
    rw [enqueue_wait]
    simp [hat]
  | succ d ih =>
    rw [enqueue_wait]
    have hlt : ¬ sleep_count + 1 > 10 := by omega
    simp only [hbefore sleep_count (by omega), Bool.not_false, if_true, hlt, if_false]
    exact ih (sleep_count + 1) (by omega)

/-- C15, the code at the failing input: while `AttachListener::is_initialized()` stays
false, `enqueue` returns ATTACH_ERROR_DISABLED, which is 100, with the queue untouched,
but only after `Sleep(1000)` has run eleven times, not ten; and a listener that becomes
initialised only after ten full seconds of sleeping is still waited for, the request
being accepted after ten sleeps. -/
theorem enqueue_gives_up_after_eleven_sleeps :
    enqueue Example.limits (fun _ => false) WaitResult.WAIT_OBJECT_0 init
        Example.request.cmd Example.request.arg0 Example.request.arg1 Example.request.arg2
        Example.request.pipename =
      EnqueueResult.returned ATTACH_ERROR_DISABLED 11 init ∧
    ATTACH_ERROR_DISABLED = 100 ∧
    ∃ st1, enqueue Example.limits (fun k => decide (10 ≤ k)) WaitResult.WAIT_OBJECT_0 init
        Example.request.cmd Example.request.arg0 Example.request.arg1 Example.request.arg2
        Example.request.pipename =
      EnqueueResult.returned 0 10 st1 := by
  refine ⟨?_, rfl, ?_⟩
  · unfold enqueue
    rw [enqueue_wait_never_ready (fun _ => false) (fun _ _ => rfl) 10 0 rfl]
    rfl
  · unfold enqueue
    rw [enqueue_wait_ready_at (fun k => decide (10 ≤ k)) 10 le_rfl
      (fun k hk => by simp; omega) (by simp) 10 0 rfl]
    exact ⟨_, rfl⟩

end Win32AttachListener

/-! ## Theorems: registration with the class loader -/

namespace ObjArrayKlass

/-- The three ways `allocate_objArray_klass` can go: the back-out path, the creation of
the descriptor, or a null `secondary_supers` array. -/
lemma allocate_objArray_klass_cases (env : RegistryEnv) (st : VMState) (loader_data : Nat)
    (n : Int) (element_klass : KlassId) (null_free : Bool) :
    (∃ element_super element_supers,
      allocate_objArray_klass env st loader_data n element_klass null_free =
        back_out_and_retry env st n element_klass null_free element_super element_supers) ∨
    (∃ super_klass,
      allocate_objArray_klass env st loader_data n element_klass null_free =
        create_objArray_klass env st [] loader_data n element_klass null_free super_klass) ∨
    allocate_objArray_klass env st loader_data n element_klass null_free =
      ⟨RegistryOutcome.null_dereference, st, []⟩ := by
  unfold allocate_objArray_klass
  by_cases hb : (!st.is_bootstrapping || st.Object_klass_loaded) = true
  · rw [if_pos hb]
    cases hsuper : (st.klass_at element_klass).super with
    | none => exact Or.inr (Or.inl ⟨_, rfl⟩)
    | some element_super =>
      cases hS : (st.klass_at element_klass).secondary_supers with
      | none => exact Or.inr (Or.inr rfl)
      | some element_supers =>
        simp only
        split_ifs <;>
          first
          | exact Or.inl ⟨_, _, rfl⟩
          | exact Or.inr (Or.inl ⟨_, rfl⟩)
  · rw [if_neg hb]
    exact Or.inr (Or.inl ⟨_, rfl⟩)

/-- In the creation of the descriptor, `add_class` is the last of four calls, made once,
after `complete_create_array_klass` has answered success. -/
lemma create_objArray_klass_add_class (env : RegistryEnv) (st : VMState) (loader_data : Nat)
    (n : Int) (element_klass : KlassId) (null_free : Bool) (super_klass : Option KlassId)
    (l : Nat) (k : KlassId)
    (hmem : RegistryEvent.add_class l k ∈
      (create_objArray_klass env st [] loader_data n element_klass null_free super_klass).trace) :
    l = loader_data ∧
    (create_objArray_klass env st [] loader_data n element_klass null_free
      super_klass).outcome = RegistryOutcome.returned k ∧
    ∃ name st1 st2 st3,
      env.create_element_klass_array_name element_klass st = (some name, st1) ∧
      allocate_klass env loader_data n element_klass name null_free st1 = (some k, st2) ∧
      env.complete_create_array_klass k super_klass st2 = (true, st3) ∧
      (create_objArray_klass env st [] loader_data n element_klass null_free
        super_klass).trace =
        [RegistryEvent.create_element_klass_array_name element_klass,
          RegistryEvent.allocate loader_data n element_klass (some name) null_free,
          RegistryEvent.complete_create_array_klass k super_klass,
          RegistryEvent.add_class loader_data k] ∧
      (create_objArray_klass env st [] loader_data n element_klass null_free
        super_klass).state = env.add_class loader_data k st3 := by
  unfold create_objArray_klass at hmem ⊢
  rcases h1 : env.create_element_klass_array_name element_klass st with ⟨_ | name, st1⟩
  · simp [h1] at hmem
  · simp only [h1, List.nil_append] at hmem ⊢
    rcases h2 : allocate_klass env loader_data n element_klass name null_free st1 with
      ⟨_ | oak, st2⟩
    · simp [h2] at hmem
    · simp only [h2] at hmem ⊢
      rcases h3 : env.complete_create_array_klass oak super_klass st2 with ⟨_ | _, st3⟩
      · simp [h3] at hmem
      · simp only [h3, List.cons_append, List.nil_append, List.mem_cons, reduceCtorEq,
          RegistryEvent.add_class.injEq, List.mem_singleton, List.not_mem_nil, or_false,
          false_or] at hmem ⊢
        obtain ⟨hl, hk⟩ := hmem
        subst hl hk
        exact ⟨rfl, rfl, name, st1, st2, st3, rfl, h2, h3, rfl, rfl⟩

/-- The three ways `allocate_objArray_klass` can go, with the direct supertype the
creation is given: the back-out path, the creation of the descriptor, or a null
`secondary_supers` array. -/
lemma allocate_objArray_klass_paths (env : RegistryEnv) (st : VMState) (loader_data : Nat)
    (n : Int) (element_klass : KlassId) (null_free : Bool) :
    (¬ reaches_creation env st element_klass null_free ∧
      ∃ element_super element_supers,
        allocate_objArray_klass env st loader_data n element_klass null_free =
          back_out_and_retry env st n element_klass null_free element_super element_supers) ∨
    (reaches_creation env st element_klass null_free ∧
      allocate_objArray_klass env st loader_data n element_klass null_free =
        create_objArray_klass env st [] loader_data n element_klass null_free
          (direct_super_klass env st element_klass null_free)) ∨
    (¬ reaches_creation env st element_klass null_free ∧
      allocate_objArray_klass env st loader_data n element_klass null_free =
        ⟨RegistryOutcome.null_dereference, st, []⟩) := by
  by_cases hb : (!st.is_bootstrapping || st.Object_klass_loaded) = true
  · cases hsuper : (st.klass_at element_klass).super with
    | none =>
      refine Or.inr (Or.inl ⟨Or.inr (Or.inl hsuper), ?_⟩)
      unfold allocate_objArray_klass direct_super_klass candidate_super
      rw [if_pos hb, if_pos hb, hsuper]
    | some element_super =>
      cases hS : (st.klass_at element_klass).secondary_supers with
      | none =>
        refine Or.inr (Or.inr ⟨?_, ?_⟩)
        · rintro (h | h | ⟨h, _⟩)
          · rw [hb] at h; exact Bool.noConfusion h
          · rw [hsuper] at h; exact Option.noConfusion h
          · exact h hS
        · unfold allocate_objArray_klass
          rw [if_pos hb, hsuper, hS]
      | some element_supers =>
        have hiff := supers_exist_iff env st element_klass null_free element_super
          element_supers hsuper hS
        by_cases hex : supertype_arrays_exist env st element_klass null_free
        · refine Or.inr (Or.inl ⟨Or.inr (Or.inr ⟨by rw [hS]; simp, hex⟩), ?_⟩)
          have hbb := hiff.mpr hex
          unfold allocate_objArray_klass direct_super_klass candidate_super
          rw [if_pos hb, if_pos hb, hsuper, hS]
          simp only
          rw [hbb]
          simp
        · refine Or.inl ⟨?_, element_super, element_supers, ?_⟩
          · rintro (h | h | ⟨_, h⟩)
            · rw [hb] at h; exact Bool.noConfusion h
            · rw [hsuper] at h; exact Option.noConfusion h
            · exact hex h
          · have hbb := hiff.not.mpr hex
            rw [Bool.not_eq_true] at hbb
            unfold allocate_objArray_klass
            rw [if_pos hb, hsuper, hS]
            simp only
            rw [hbb]
            simp
  · refine Or.inr (Or.inl ⟨Or.inl (by simpa using hb), ?_⟩)
    unfold allocate_objArray_klass direct_super_klass
    rw [if_neg hb, if_neg hb]

/-- The creation of the descriptor when its three fallible calls succeed: four calls,
the last of them `add_class`. -/
lemma create_objArray_klass_success (env : RegistryEnv) (st : VMState) (loader_data : Nat)
    (n : Int) (element_klass : KlassId) (null_free : Bool) (super_klass : Option KlassId)
    (name : Nat) (st1 : VMState) (k : KlassId) (st2 st3 : VMState)
    (h1 : env.create_element_klass_array_name element_klass st = (some name, st1))
    (h2 : allocate_klass env loader_data n element_klass name null_free st1 = (some k, st2))
    (h3 : env.complete_create_array_klass k super_klass st2 = (true, st3)) :
    create_objArray_klass env st [] loader_data n element_klass null_free super_klass =
      ⟨RegistryOutcome.returned k, env.add_class loader_data k st3,
        [RegistryEvent.create_element_klass_array_name element_klass,
          RegistryEvent.allocate loader_data n element_klass (some name) null_free,
          RegistryEvent.complete_create_array_klass k super_klass,
          RegistryEvent.add_class loader_data k]⟩ := by
  unfold create_objArray_klass
  simp only [h1, h2, h3, List.nil_append, List.cons_append]

/-- The creation of the descriptor begins with the call that creates the name. -/
lemma create_objArray_klass_name_first (env : RegistryEnv) (st : VMState) (loader_data : Nat)
    (n : Int) (element_klass : KlassId) (null_free : Bool) (super_klass : Option KlassId) :
    RegistryEvent.create_element_klass_array_name element_klass ∈
      (create_objArray_klass env st [] loader_data n element_klass null_free
        super_klass).trace := by
  unfold create_objArray_klass
  simp only
  split
  · simp
  · split
    · simp
    · split <;> simp

/-- C17: on the trace of collaborator calls of `allocate_objArray_klass`.
A registration is made only after the mirror: whenever the trace holds a call
`add_class(l, k)`, the loader `l` is the one given to the call, `k` is the descriptor
the call returns, the call has gone on to create a descriptor of its own, the name
creation, the allocation of `k` and `complete_create_array_klass` on `k` (which creates
the mirror) have all succeeded, and the trace is exactly these three calls followed by
the one `add_class`, which therefore occurs once and last.
A created descriptor is registered: when the call goes on to create a descriptor and
the name creation, the allocation of `k` and `complete_create_array_klass` on `k`
succeed, the call returns `k`, the trace is the four calls ending in
`add_class(loader_data, k)`, that call occurs exactly once, no other `add_class` is
made, and the state is the one `add_class` leaves.
A failure is never registered: if the name creation fails, or the allocation fails, or
`complete_create_array_klass` fails, or the call ends with an exception pending, the
trace holds no `add_class` at all.
The call goes on to create a descriptor exactly when its trace holds the call that
creates the name. -/
theorem add_class_once_after_mirror (env : RegistryEnv) (st : VMState) (loader_data : Nat)
    (n : Int) (element_klass : KlassId) (null_free : Bool) :
    (∀ l k, RegistryEvent.add_class l k ∈
        (allocate_objArray_klass env st loader_data n element_klass null_free).trace →
      l = loader_data ∧
      (allocate_objArray_klass env st loader_data n element_klass null_free).outcome =
        RegistryOutcome.returned k ∧
      (allocate_objArray_klass env st loader_data n element_klass null_free).trace.count
        (RegistryEvent.add_class l k) = 1 ∧
      reaches_creation env st element_klass null_free ∧
      ∃ name super_klass st1 st2 st3,
        super_klass = direct_super_klass env st element_klass null_free ∧
        env.create_element_klass_array_name element_klass st = (some name, st1) ∧
        allocate_klass env loader_data n element_klass name null_free st1 = (some k, st2) ∧
        env.complete_create_array_klass k super_klass st2 = (true, st3) ∧
        (allocate_objArray_klass env st loader_data n element_klass null_free).trace =
          [RegistryEvent.create_element_klass_array_name element_klass,
            RegistryEvent.allocate loader_data n element_klass (some name) null_free,
            RegistryEvent.complete_create_array_klass k super_klass,
            RegistryEvent.add_class loader_data k] ∧
        (allocate_objArray_klass env st loader_data n element_klass null_free).state =
          env.add_class loader_data k st3) ∧
    ((allocate_objArray_klass env st loader_data n element_klass null_free).outcome =
        RegistryOutcome.exception →
      ∀ l k, RegistryEvent.add_class l k ∉
        (allocate_objArray_klass env st loader_data n element_klass null_free).trace) ∧
    (reaches_creation env st element_klass null_free →
      ∀ name st1 k st2 st3,
        env.create_element_klass_array_name element_klass st = (some name, st1) →
        allocate_klass env loader_data n element_klass name null_free st1 = (some k, st2) →
        env.complete_create_array_klass k
          (direct_super_klass env st element_klass null_free) st2 = (true, st3) →
        (allocate_objArray_klass env st loader_data n element_klass null_free).outcome =
          RegistryOutcome.returned k ∧
        (allocate_objArray_klass env st loader_data n element_klass null_free).trace =
          [RegistryEvent.create_element_klass_array_name element_klass,
            RegistryEvent.allocate loader_data n element_klass (some name) null_free,
            RegistryEvent.complete_create_array_klass k
              (direct_super_klass env st element_klass null_free),
            RegistryEvent.add_class loader_data k] ∧
        (allocate_objArray_klass env st loader_data n element_klass null_free).trace.count
          (RegistryEvent.add_class loader_data k) = 1 ∧
        (∀ l k2, RegistryEvent.add_class l k2 ∈
            (allocate_objArray_klass env st loader_data n element_klass null_free).trace →
          l = loader_data ∧ k2 = k) ∧
        (allocate_objArray_klass env st loader_data n element_klass null_free).state =
          env.add_class loader_data k st3) ∧
    ((env.create_element_klass_array_name element_klass st).1 = none →
      ∀ l k, RegistryEvent.add_class l k ∉
        (allocate_objArray_klass env st loader_data n element_klass null_free).trace) ∧
    (∀ name st1,
      env.create_element_klass_array_name element_klass st = (some name, st1) →
      (allocate_klass env loader_data n element_klass name null_free st1).1 = none →
      ∀ l k, RegistryEvent.add_class l k ∉
        (allocate_objArray_klass env st loader_data n element_klass null_free).trace) ∧
    (∀ name st1 oak st2,
      env.create_element_klass_array_name element_klass st = (some name, st1) →
      allocate_klass env loader_data n element_klass name null_free st1 = (some oak, st2) →
      (env.complete_create_array_klass oak
        (direct_super_klass env st element_klass null_free) st2).1 = false →
      ∀ l k, RegistryEvent.add_class l k ∉
        (allocate_objArray_klass env st loader_data n element_klass null_free).trace) ∧
    (reaches_creation env st element_klass null_free ↔
      RegistryEvent.create_element_klass_array_name element_klass ∈
        (allocate_objArray_klass env st loader_data n element_klass null_free).trace) := by
  have main : ∀ l k, RegistryEvent.add_class l k ∈
        (allocate_objArray_klass env st loader_data n element_klass null_free).trace →
      l = loader_data ∧
      (allocate_objArray_klass env st loader_data n element_klass null_free).outcome =
        RegistryOutcome.returned k ∧
      reaches_creation env st element_klass null_free ∧
      ∃ name st1 st2 st3,
        env.create_element_klass_array_name element_klass st = (some name, st1) ∧
        allocate_klass env loader_data n element_klass name null_free st1 = (some k, st2) ∧
        env.complete_create_array_klass k
          (direct_super_klass env st element_klass null_free) st2 = (true, st3) ∧
        (allocate_objArray_klass env st loader_data n element_klass null_free).trace =
          [RegistryEvent.create_element_klass_array_name element_klass,
            RegistryEvent.allocate loader_data n element_klass (some name) null_free,
            RegistryEvent.complete_create_array_klass k
              (direct_super_klass env st element_klass null_free),
            RegistryEvent.add_class loader_data k] ∧
        (allocate_objArray_klass env st loader_data n element_klass null_free).state =
          env.add_class loader_data k st3 := by
    intro l k hmem
    rcases allocate_objArray_klass_paths env st loader_data n element_klass null_free with
      ⟨_, es, S, h⟩ | ⟨hreach, h⟩ | ⟨_, h⟩
    · rw [h] at hmem
      have := back_out_no_create env st n element_klass null_free es S _ hmem
      simp [creates_descriptor] at this
    · rw [h] at hmem ⊢
      obtain ⟨h1, h2, name, st1, st2, st3, h3, h4, h5, h6, h7⟩ :=
        create_objArray_klass_add_class env st loader_data n element_klass null_free
          (direct_super_klass env st element_klass null_free) l k hmem
      exact ⟨h1, h2, hreach, name, st1, st2, st3, h3, h4, h5, h6, h7⟩
    · rw [h] at hmem
      simp at hmem
  refine ⟨?_, ?_, ?_, ?_, ?_, ?_, ?_⟩
  · intro l k hmem
    obtain ⟨h1, h2, hreach, name, st1, st2, st3, h3, h4, h5, h6, h7⟩ := main l k hmem
    refine ⟨h1, h2, ?_, hreach, name, _, st1, st2, st3, rfl, h3, h4, h5, h6, h7⟩
    rw [h6, h1]
    simp
  · intro hexc l k hmem
    have h2 := (main l k hmem).2.1
    rw [hexc] at h2
    simp at h2
  · intro hreach name st1 k st2 st3 h1 h2 h3
    have hcreate : allocate_objArray_klass env st loader_data n element_klass null_free =
        create_objArray_klass env st [] loader_data n element_klass null_free
          (direct_super_klass env st element_klass null_free) := by
      rcases allocate_objArray_klass_paths env st loader_data n element_klass null_free with
        ⟨hn, _⟩ | ⟨_, h⟩ | ⟨hn, _⟩
      · exact absurd hreach hn
      · exact h
      · exact absurd hreach hn
    rw [hcreate, create_objArray_klass_success env st loader_data n element_klass null_free _
      name st1 k st2 st3 h1 h2 h3]
    refine ⟨rfl, rfl, ?_, ?_, rfl⟩
    · simp
    · intro l k2 hmem
      simpa using hmem
  · intro hfail l k hmem
    obtain ⟨_, _, _, name, st1, _, _, h3, _⟩ := main l k hmem
    rw [h3] at hfail
    simp at hfail
  · intro name st1 h1 hfail l k hmem
    obtain ⟨_, _, _, name2, st1b, st2, _, h3, h4, _⟩ := main l k hmem
    rw [h1] at h3
    simp only [Prod.mk.injEq, Option.some.injEq] at h3
    obtain ⟨hn, hs⟩ := h3
    subst hn hs
    rw [h4] at hfail
    simp at hfail
  · intro name st1 oak st2 h1 h2 hfail l k hmem
    obtain ⟨_, _, _, name2, st1b, st2b, st3, h3, h4, h5, _⟩ := main l k hmem
    rw [h1] at h3
    simp only [Prod.mk.injEq, Option.some.injEq] at h3
    obtain ⟨hn, hs⟩ := h3
    subst hn hs
    rw [h2] at h4
    simp only [Prod.mk.injEq, Option.some.injEq] at h4
    obtain ⟨hk, hs2⟩ := h4
    subst hk hs2
    rw [h5] at hfail
    simp at hfail
  · rcases allocate_objArray_klass_paths env st loader_data n element_klass null_free with
      ⟨hn, es, S, h⟩ | ⟨hreach, h⟩ | ⟨hn, h⟩
    · refine ⟨fun hr => absurd hr hn, fun hmem => ?_⟩
      rw [h] at hmem
      have := back_out_no_create env st n element_klass null_free es S _ hmem
      simp [creates_descriptor] at this
    · refine ⟨fun _ => ?_, fun _ => hreach⟩
      rw [h]
      exact create_objArray_klass_name_first env st loader_data n element_klass null_free _
    · refine ⟨fun hr => absurd hr hn, fun hmem => ?_⟩
      rw [h] at hmem
      simp at hmem

/-- The witness of C17: `String[]` is created once `Comparable[]` exists; the descriptor
at address 9 is returned and registered with loader 0, once and last. -/
theorem add_class_once_after_mirror_witness :
    reaches_creation Example.registry_env Example.vm_state_complete 2 false ∧
    (allocate_objArray_klass Example.registry_env Example.vm_state_complete 0 1 2 false).outcome =
      RegistryOutcome.returned 9 ∧
    (allocate_objArray_klass Example.registry_env Example.vm_state_complete 0 1 2 false).trace =
      [RegistryEvent.create_element_klass_array_name 2,
        RegistryEvent.allocate 0 1 2 (some 0) false,
        RegistryEvent.complete_create_array_klass 9 (some 8),
        RegistryEvent.add_class 0 9] ∧
    (allocate_objArray_klass Example.registry_env Example.vm_state_complete 0 1 2
      false).trace.count (RegistryEvent.add_class 0 9) = 1 :=
  have hreach : reaches_creation Example.registry_env Example.vm_state_complete 2 false :=
    Or.inr (Or.inr ⟨by decide, by decide⟩)
  have h := (add_class_once_after_mirror Example.registry_env Example.vm_state_complete 0 1 2
    false).2.2.1 hreach 0 _ 9 _ _ rfl rfl rfl
  ⟨hreach, h.1, h.2.1, h.2.2.1⟩

end ObjArrayKlass

/-! ## Theorems: the bottom klass -/

namespace ObjArrayKlass

/-- The bottom klass the constructor computes over a valid element klass is an instance
klass or a primitive-array klass. -/
lemma bottom_klass_kind (klass_at : KlassId → Klass) (element_klass : KlassId)
    (h : valid_element klass_at element_klass) (n : Int) (name : Nat) (null_free : Bool) :
    (klass_at (construct klass_at n element_klass name null_free).bottom_klass).is_instance_klass
        = true ∨
    (klass_at (construct klass_at n element_klass name null_free).bottom_klass).is_typeArray_klass
        = true := by
  induction h generalizing n name null_free with
  | instance_klass k hk =>
    left
    have h1 : (klass_at k).is_objArray_klass = false := by
      unfold Klass.is_instance_klass at hk
      unfold Klass.is_objArray_klass
      rcases Bool.or_eq_true _ _ |>.mp hk with h | h <;>
        simp only [decide_eq_true_eq] at h <;> simp [h]
    have h2 : (klass_at k).is_flatArray_klass = false := by
      unfold Klass.is_instance_klass at hk
      unfold Klass.is_flatArray_klass
      rcases Bool.or_eq_true _ _ |>.mp hk with h | h <;>
        simp only [decide_eq_true_eq] at h <;> simp [h]
    simp only [construct, h1, h2, Bool.false_eq_true, if_false]
    exact hk
  | typeArray_klass k hk =>
    right
    have hkind : (klass_at k).kind = KlassKind.TypeArrayKlassKind := by
      simpa [Klass.is_typeArray_klass] using hk
    have h1 : (klass_at k).is_objArray_klass = false := by
      simp [Klass.is_objArray_klass, hkind]
    have h2 : (klass_at k).is_flatArray_klass = false := by
      simp [Klass.is_flatArray_klass, hkind]
    simp only [construct, h1, h2, Bool.false_eq_true, if_false]
    exact hk
  | flatArray_klass k hk hin =>
    left
    have hkind : (klass_at k).kind = KlassKind.FlatArrayKlassKind := by
      simpa [Klass.is_flatArray_klass] using hk
    have h1 : (klass_at k).is_objArray_klass = false := by
      simp [Klass.is_objArray_klass, hkind]
    simp only [construct, h1, hk, Bool.false_eq_true, if_false, if_true]
    have hi : (klass_at (klass_at k).element_klass).kind = KlassKind.InlineKlassKind := by
      simpa [Klass.is_inline_klass] using hin
    simp [Klass.is_instance_klass, hi]
  | objArray_klass k n0 name0 nf0 hk _ hb ih =>
    have hbk : (construct klass_at n k name null_free).bottom_klass =
        (klass_at k).bottom_klass := by
      simp only [construct, hk, if_true]
    rw [hbk, hb]
    exact ih n0 name0 nf0

/-- C20: for a descriptor constructed over an element klass that is an instance klass,
a primitive-array klass, a flat array of an inline klass, or an object-array klass
itself built this way, the bottom klass is the element's own bottom klass when the
element is an object array, the flat array's element klass when the element is a flat
array, and the element klass itself otherwise; it is an instance klass or a
primitive-array klass, so the `invalid bottom klass` assertion holds; and the
descriptor takes the class loader data of its bottom klass. -/
theorem constructor_bottom_klass (klass_at : KlassId → Klass) (n : Int)
    (element_klass : KlassId) (name : Nat) (null_free : Bool)
    (h : valid_element klass_at element_klass) :
    (construct klass_at n element_klass name null_free).bottom_klass =
      (if (klass_at element_klass).is_objArray_klass then (klass_at element_klass).bottom_klass
       else if (klass_at element_klass).is_flatArray_klass then
         (klass_at element_klass).element_klass
       else element_klass) ∧
    ((klass_at (construct klass_at n element_klass name null_free).bottom_klass).is_instance_klass
        = true ∨
      (klass_at (construct klass_at n element_klass name null_free).bottom_klass).is_typeArray_klass
        = true) ∧
    (construct klass_at n element_klass name null_free).class_loader_data =
      (klass_at (construct klass_at n element_klass name null_free).bottom_klass).class_loader_data ∧
    (construct klass_at n element_klass name null_free).element_klass = element_klass ∧
    (construct klass_at n element_klass name null_free).is_objArray_klass = true :=
  ⟨rfl, bottom_klass_kind klass_at element_klass h n name null_free, rfl, rfl, rfl⟩

/-- The witness of C20: `Object[][]` constructed over `Object[]` (8) has bottom klass
`Object` (1). -/
theorem constructor_bottom_klass_witness :
    valid_element Example.klass_table 8 ∧
    (construct Example.klass_table 2 8 0 false).bottom_klass = 1 ∧
    (Example.klass_table 1).is_instance_klass = true :=
  have hv : valid_element Example.klass_table 8 :=
    valid_element.objArray_klass 8 1 0 false rfl
      (valid_element.instance_klass 1 rfl) rfl
  ⟨hv, (constructor_bottom_klass Example.klass_table 2 8 0 false hv).1, rfl⟩

end ObjArrayKlass

/-! ## Theorems: the contents of a new array -/

namespace ObjArrayKlass

lemma modify_last {α : Type} (f : α → α) (l : List α) (a : α) :
    (l ++ [a]).modify f l.length = l ++ [f a] := by
  induction l with
  | nil => rfl
  | cons x xs ih => simp [List.modify_succ_cons, ih]

lemma set_replicate_boundary (v w : oop) (m j : Nat) :
    (List.replicate m v ++ List.replicate (j + 1) w).set m v =
      List.replicate (m + 1) v ++ List.replicate j w := by
  induction m with
  | zero => simp [List.replicate_succ]
  | succ m ih =>
    rw [show List.replicate (m + 1 + 1) v = v :: List.replicate (m + 1) v from
      List.replicate_succ v (m + 1)]
    rw [show List.replicate (m + 1) v ++ List.replicate (j + 1) w =
      v :: (List.replicate m v ++ List.replicate (j + 1) w) from by
        rw [List.replicate_succ, List.cons_append]]
    rw [List.set_cons_succ, ih, List.cons_append]

/-- The loop that populates a null-free array stores the value in the first `m` slots. -/
lemma populate_slots (objs : List objArrayOopDesc) (init : List KlassId) (k : KlassId)
    (len : Int) (v : oop) (n m : Nat) (hm : m ≤ n) :
    (List.range m).foldl (fun heap i => obj_at_put heap objs.length i v)
        ⟨objs ++ [⟨k, len, List.replicate n none⟩], init⟩ =
      ⟨objs ++ [⟨k, len, List.replicate m v ++ List.replicate (n - m) none⟩], init⟩ := by
  induction m with
  | zero => simp
  | succ m ih =>
    rw [List.range_succ, List.foldl_append, ih (by omega)]
    simp only [List.foldl_cons, List.foldl_nil, obj_at_put, modify_last]
    obtain ⟨j, hj⟩ : ∃ j, n - m = j + 1 := ⟨n - m - 1, by omega⟩
    have hj2 : n - (m + 1) = j := by omega
    rw [hj, hj2, set_replicate_boundary]

/-- C11: for a length with `0 ≤ length ≤ max_array_length` and a heap that can
allocate, `allocate` on a null-free descriptor whose element klass initialises without
throwing returns a new array of that length in which every slot holds the default value
of the element klass, the element klass having been initialised; and `allocate` on a
descriptor that is not null-free returns a new array of that length in which every slot
is null. -/
theorem allocate_contents (env : AllocEnv) (this : KlassId) (length : Int) (heap : JavaHeap)
    (h0 : 0 ≤ length) (hmax : length ≤ env.max_array_length)
    (halloc : env.allocation_fails heap.objects.length = false) :
    ((env.klass_at this).is_null_free_array_klass = true →
      env.initialize_fails (env.klass_at this).element_klass = false →
      allocate env this length heap =
        Completion.normal (some heap.objects.length)
          ⟨heap.objects ++ [⟨this, length,
              List.replicate length.toNat (env.default_value (env.klass_at this).element_klass)⟩],
            heap.initialized ++ [(env.klass_at this).element_klass]⟩) ∧
    ((env.klass_at this).is_null_free_array_klass = false →
      allocate env this length heap =
        Completion.normal (some heap.objects.length)
          ⟨heap.objects ++ [⟨this, length, List.replicate length.toNat none⟩],
            heap.initialized⟩) := by
  have hcheck : check_array_allocation_length length env.max_array_length = none := by
    unfold check_array_allocation_length
    have h1 : ¬ length > env.max_array_length := by omega
    have h2 : ¬ length < 0 := by omega
    simp [h1, h2]
  constructor
  · intro hnf hinit
    unfold allocate array_allocate
    simp only [hcheck, halloc, hnf, hinit, Bool.false_eq_true, if_false, if_true]
    have := populate_slots heap.objects (heap.initialized ++ [(env.klass_at this).element_klass])
      this length (env.default_value (env.klass_at this).element_klass) length.toNat
      length.toNat le_rfl
    simp only [Nat.sub_self, List.replicate_zero, List.append_nil] at this
    rw [this]
  · intro hnf
    unfold allocate array_allocate
    simp only [hcheck, halloc, hnf, Bool.false_eq_true, if_false]

/-- The witness of C11: a null-free `Point[3]` allocated on the empty heap. -/
theorem allocate_contents_witness :
    allocate Example.point_alloc_env 11 3 Example.empty_heap =
      Completion.normal (some 0) ⟨[⟨11, 3, [some 77, some 77, some 77]⟩], [3]⟩ :=
  (allocate_contents Example.point_alloc_env 11 3 Example.empty_heap (by decide) (by decide)
    rfl).1 rfl rfl

end ObjArrayKlass

/-! ## Theorems: the attach queue as lists of records -/


namespace Win32AttachListener

lemma next_eq_next_at (st : Win32AttachListener) (op : Nat) : next st op = next_at st.ops op := rfl

lemma get?_modify_eq' (ops : List Win32AttachOperation) (f : Win32AttachOperation → Win32AttachOperation)
    (i j : Nat) : (ops.modify f i).get? j = if i = j then (ops.get? j).map f else ops.get? j := by
  rw [List.get?_eq_getElem?, List.get?_eq_getElem?, List.getElem?_modify]
  split_ifs with h
  · cases ops[j]? <;> simp [h]
  · cases ops[j]? <;> simp [h]

lemma next_at_modify (ops : List Win32AttachOperation) (f : Win32AttachOperation → Win32AttachOperation)
    (i j : Nat) :
    next_at (ops.modify f i) j =
      if i = j then (ops.get? j).bind (fun r => (f r).next) else next_at ops j := by
  unfold next_at
  rw [get?_modify_eq']
  split_ifs
  · cases ops.get? j <;> rfl
  · rfl

lemma request_of_modify (ops : List Win32AttachOperation) (f : Win32AttachOperation → Win32AttachOperation)
    (i j : Nat) (h : i ≠ j ∨ ∀ r, (f r).name = r.name ∧ (f r).arg0 = r.arg0 ∧ (f r).arg1 = r.arg1 ∧
      (f r).arg2 = r.arg2 ∧ (f r).pipe = r.pipe) :
    request_of (ops.modify f i) j = request_of ops j := by
  unfold request_of
  rw [get?_modify_eq']
  split_ifs with hij
  · rcases h with h | h
    · exact absurd hij h
    · cases hg : ops.get? j with
      | none => rfl
      | some r =>
        obtain ⟨h1, h2, h3, h4, h5⟩ := h r
        simp [h1, h2, h3, h4, h5]
  · rfl

lemma chain_congr (ops ops1 : List Win32AttachOperation) (hlen : ops1.length = ops.length)
    (l : List Nat) (p : Option Nat) (h : ∀ i ∈ l, next_at ops1 i = next_at ops i)
    (hc : chain ops p l) : chain ops1 p l := by
  induction l generalizing p with
  | nil => exact hc
  | cons a rest ih =>
    obtain ⟨hp, ha, hrest⟩ := hc
    refine ⟨hp, by omega, ?_⟩
    rw [h a (List.mem_cons_self _ _)]
    exact ih _ (fun i hi => h i (List.mem_cons_of_mem _ hi)) hrest

lemma chain_lt (ops : List Win32AttachOperation) (l : List Nat) (p : Option Nat)
    (hc : chain ops p l) : ∀ i ∈ l, i < ops.length := by
  induction l generalizing p with
  | nil => simp
  | cons a rest ih =>
    obtain ⟨_, ha, hrest⟩ := hc
    intro i hi
    rcases List.mem_cons.mp hi with rfl | hi
    · exact ha
    · exact ih _ hrest i hi

/-- Appending the record `i` to a list: the last record, if any, now points to `i`. -/
lemma chain_snoc (ops ops1 : List Win32AttachOperation) (hlen : ops1.length = ops.length)
    (i : Nat) (hi : i < ops.length) (hnew : next_at ops1 i = none)
    (l : List Nat) (p : Option Nat) (hc : chain ops p l) (hnodup : l.Nodup)
    (hsame : ∀ j ∈ l, l.getLast? ≠ some j → next_at ops1 j = next_at ops j)
    (hlast : ∀ t, l.getLast? = some t → next_at ops1 t = some i) :
    chain ops1 (if l = [] then some i else p) (l ++ [i]) := by
  induction l generalizing p with
  | nil => exact ⟨rfl, by omega, hnew⟩
  | cons a rest ih =>
    obtain ⟨hp, ha, hrest⟩ := hc
    simp only [reduceCtorEq, if_false, List.cons_append]
    refine ⟨hp, by omega, ?_⟩
    cases rest with
    | nil =>
      rw [hlast a rfl]
      exact ⟨rfl, by omega, hnew⟩
    | cons b rest1 =>
      have hne : (a :: b :: rest1).getLast? ≠ some a := by
        rw [List.getLast?_cons_cons]
        intro h
        have hmem : a ∈ b :: rest1 := List.mem_of_getLast?_eq_some h
        exact (List.nodup_cons.mp hnodup).1 hmem
      rw [hsame a (List.mem_cons_self _ _) hne]
      have := ih (next_at ops a) hrest (List.nodup_cons.mp hnodup).2
        (fun j hj hl => hsame j (List.mem_cons_of_mem _ hj) (by rwa [List.getLast?_cons_cons]))
        (fun t ht => hlast t (by rwa [List.getLast?_cons_cons]))
      simpa using this

lemma update_ops (st : Win32AttachListener) (op : Nat)
    (f : Win32AttachOperation → Win32AttachOperation) :
    (update st op f).ops = st.ops.modify f op := rfl

/-- What the critical section of `enqueue` does to a queue with a free record and room
on the semaphore. -/
lemma enqueue_locked_spec (sleeps : Nat) (st : Win32AttachListener)
    (cmd arg0 arg1 arg2 pipename : CString) (i : Nat) (havail : st.avail = some i)
    (hi : i < st.ops.length) (hti : st.tail ≠ some i)
    (htl : ∀ t, st.tail = some t → t < st.ops.length)
    (hroom : st.semaphore_count + 1 ≤ st.semaphore_max) :
    ∃ st1, enqueue_locked sleeps st cmd arg0 arg1 arg2 pipename =
        EnqueueResult.returned 0 sleeps st1 ∧
      st1.avail = next_at st.ops i ∧
      st1.head = (if st.tail = none then some i else st.head) ∧
      st1.tail = some i ∧
      st1.semaphore_count = st.semaphore_count + 1 ∧
      st1.semaphore_max = st.semaphore_max ∧
      st1.ops.length = st.ops.length ∧
      next_at st1.ops i = none ∧
      (∀ t, st.tail = some t → next_at st1.ops t = some i) ∧
      (∀ j, j ≠ i → st.tail ≠ some j → next_at st1.ops j = next_at st.ops j) ∧
      (∀ j, j ≠ i → request_of st1.ops j = request_of st.ops j) ∧
      request_of st1.ops i =
        ⟨cmd, arg0, arg1, arg2, pipename.take Win32AttachOperation.pipe_name_max⟩ := by
  obtain ⟨r, hr⟩ : ∃ r, st.ops[i]? = some r := ⟨_, List.getElem?_eq_getElem hi⟩
  cases htail : st.tail with
  | none =>
    refine ⟨?w, ?h1, ?h2⟩
    case h1 =>
      unfold enqueue_locked
      simp only [havail, set_available, update, set_head, set_tail, htail]
      rw [if_pos hroom]
      exact rfl
    case h2 =>
      simp only [List.length_modify, next_at_modify, if_true, true_and]
      refine ⟨rfl, ?_, ?_, ?_, ?_, ?_⟩
      · simp [hr, Win32AttachOperation.set_next, Win32AttachOperation.set_name,
          Win32AttachOperation.set_arg0, Win32AttachOperation.set_arg1,
          Win32AttachOperation.set_arg2, Win32AttachOperation.set_pipe]
      · intro t ht; simp at ht
      · intro j hj _
        simp [Ne.symm hj]
      · intro j hj
        simp [request_of, get?_modify_eq', Ne.symm hj]
      · simp [request_of, get?_modify_eq', hr, Win32AttachOperation.set_next,
          Win32AttachOperation.set_name,
          Win32AttachOperation.set_arg0, Win32AttachOperation.set_arg1,
          Win32AttachOperation.set_arg2, Win32AttachOperation.set_pipe]
  | some t =>
    have hne : t ≠ i := fun h => hti (by rw [htail, h])
    have ht1 : t < st.ops.length := htl t htail
    refine ⟨?w2, ?g1, ?g2⟩
    case g1 =>
      unfold enqueue_locked
      simp only [havail, set_available, update, set_head, set_tail, htail]
      rw [if_pos hroom]
      exact rfl
    case g2 =>
      simp only [List.length_modify, next_at_modify, if_true, true_and, reduceCtorEq, if_false]
      refine ⟨rfl, ?_, ?_, ?_, ?_, ?_⟩
      · simp [hr, hne, get?_modify_eq', Win32AttachOperation.set_next,
          Win32AttachOperation.set_name,
          Win32AttachOperation.set_arg0, Win32AttachOperation.set_arg1,
          Win32AttachOperation.set_arg2, Win32AttachOperation.set_pipe]
      · intro t1 ht
        simp only [Option.some.injEq] at ht
        subst ht
        obtain ⟨rt, hrt⟩ : ∃ rt, st.ops[t]? = some rt := ⟨_, List.getElem?_eq_getElem ht1⟩
        simp [hne, Ne.symm hne, get?_modify_eq', hrt, Win32AttachOperation.set_next,
          Win32AttachOperation.set_name,
          Win32AttachOperation.set_arg0, Win32AttachOperation.set_arg1,
          Win32AttachOperation.set_arg2, Win32AttachOperation.set_pipe]
      · intro j hj hjt
        have hjt2 : t ≠ j := fun h => hjt (by rw [h])
        simp [Ne.symm hj, hjt2]
      · intro j hj
        by_cases hjt : t = j
        · subst hjt
          obtain ⟨rt, hrt⟩ : ∃ rt, st.ops[t]? = some rt := ⟨_, List.getElem?_eq_getElem ht1⟩
          simp [request_of, get?_modify_eq', hne, Ne.symm hne, Win32AttachOperation.set_next, hrt]
        · simp [request_of, get?_modify_eq', Ne.symm hj, hjt]
      · simp [request_of, get?_modify_eq', hr, hne, Win32AttachOperation.set_next,
          Win32AttachOperation.set_name,
          Win32AttachOperation.set_arg0, Win32AttachOperation.set_arg1,
          Win32AttachOperation.set_arg2, Win32AttachOperation.set_pipe]

/-- A call of `enqueue` either leaves the queue as it was, with a status other than 0,
or has passed the check of the pipe name and run the critical section. -/
lemma enqueue_cases (lim : AttachLimits) (is_initialized : Nat → Bool) (mutex_wait : WaitResult)
    (st : Win32AttachListener) (cmd arg0 arg1 arg2 pipename : CString) (status : Int)
    (sleeps : Nat) (st1 : Win32AttachListener)
    (h : enqueue lim is_initialized mutex_wait st cmd arg0 arg1 arg2 pipename =
      EnqueueResult.returned status sleeps st1) :
    (st1 = st ∧ status ≠ 0) ∨
    (strlen pipename ≤ Win32AttachOperation.pipe_name_max ∧
      enqueue_locked sleeps st cmd arg0 arg1 arg2 pipename =
        EnqueueResult.returned status sleeps st1) := by
  unfold enqueue at h
  simp only at h
  split_ifs at h with h1 h2 h3 h4 h5 h6 h7 h8
  all_goals first
    | (simp only [EnqueueResult.returned.injEq] at h
       obtain ⟨hs, _, hst⟩ := h
       left
       refine ⟨hst.symm, ?_⟩
       rw [← hs]
       simp [ATTACH_ERROR_DISABLED, ATTACH_ERROR_ILLEGALARG, ATTACH_ERROR_INTERNAL])
    | (right
       refine ⟨Nat.not_lt.mp h6, ?_⟩
       have hsl : (enqueue_wait is_initialized 0).2 = sleeps := by
         unfold enqueue_locked at h
         split at h
         · simp only at h
           split_ifs at h
           simp only [EnqueueResult.returned.injEq] at h
           exact h.2.1
         · simp only [EnqueueResult.returned.injEq] at h
           exact h.2.1
       subst hsl
       exact h)

lemma enqueue_locked_empty (sleeps : Nat) (st : Win32AttachListener)
    (cmd arg0 arg1 arg2 pipename : CString) (havail : st.avail = none) :
    enqueue_locked sleeps st cmd arg0 arg1 arg2 pipename =
      EnqueueResult.returned ATTACH_ERROR_RESOURCE sleeps st := by
  unfold enqueue_locked
  simp only [havail]

lemma dequeue_empty (mutex_wait : WaitResult) (st : Win32AttachListener)
    (hcount : st.semaphore_count = 0) :
    dequeue mutex_wait st = DequeueResult.blocked st := by
  unfold dequeue
  rw [hcount]
  rfl

lemma dequeue_nonempty (mutex_wait : WaitResult) (st : Win32AttachListener) (i n : Nat)
    (hhead : st.head = some i) (hcount : st.semaphore_count = n + 1) :
    dequeue mutex_wait st =
      if mutex_wait ≠ WaitResult.WAIT_OBJECT_0 then DequeueResult.vm_abort
      else DequeueResult.returned i
        ⟨st.ops, st.avail, next_at st.ops i,
          if next_at st.ops i = none then none else st.tail, n, st.semaphore_max⟩ := by
  unfold dequeue
  rw [hcount]
  unfold dequeue_loop
  simp only [hhead, set_head, set_tail, next_eq_next_at]
  split_ifs <;> rfl

lemma release_eq (st : Win32AttachListener) (this : Nat) :
    Win32AttachOperation.release WaitResult.WAIT_OBJECT_0 st this =
      ⟨st.ops.modify (fun r => r.set_next st.avail) this, some this, st.head, st.tail,
        st.semaphore_count, st.semaphore_max⟩ := rfl

lemma perm_enqueue (i : Nat) (f p sv : List Nat) :
    (f ++ (p ++ [i]) ++ sv).Perm ((i :: f) ++ p ++ sv) := by
  rw [List.perm_iff_count]
  intro a
  simp only [List.count_append, List.count_cons, List.count_nil]
  omega

lemma perm_dequeue (i : Nat) (f r sv : List Nat) :
    (f ++ r ++ (i :: sv)).Perm (f ++ (i :: r) ++ sv) := by
  rw [List.perm_iff_count]
  intro a
  simp only [List.count_append, List.count_cons, List.count_nil]
  omega

lemma perm_complete (op : Nat) (f p sv : List Nat) (h : op ∈ sv) :
    ((op :: f) ++ p ++ sv.erase op).Perm (f ++ p ++ sv) := by
  rw [List.perm_iff_count]
  intro a
  have := (List.perm_cons_erase h).count_eq a
  simp only [List.count_append, List.count_cons, List.count_nil] at this ⊢
  omega

lemma take_of_strlen_le (s : CString) (h : strlen s ≤ Win32AttachOperation.pipe_name_max) :
    s.take Win32AttachOperation.pipe_name_max = s :=
  List.take_of_length_le h

/-- The shape of the queue is kept by `enqueue`. -/
lemma shape_enqueue (lim : AttachLimits) (c : Config) (is_initialized : Nat → Bool)
    (mutex_wait : WaitResult) (r : AttachRequest) (status : Int) (sleeps : Nat)
    (st1 : Win32AttachListener)
    (h : enqueue lim is_initialized mutex_wait c.st r.cmd r.arg0 r.arg1 r.arg2 r.pipename =
      EnqueueResult.returned status sleeps st1)
    (free pending : List Nat) (hs : queue_shape c free pending) :
    (status ≠ 0 ∧ st1 = c.st ∧
      queue_shape ⟨st1, c.in_service, if status = 0 then c.accepted ++ [r] else c.accepted,
        c.served⟩ free pending) ∨
    (status = 0 ∧ ∃ i free1, free = i :: free1 ∧
      queue_shape ⟨st1, c.in_service, if status = 0 then c.accepted ++ [r] else c.accepted,
        c.served⟩ free1 (pending ++ [i])) := by
  obtain ⟨hlen, hfree, hpend, htail, hperm, hcount, hmax, hacc⟩ := hs
  have hnd : (free ++ pending ++ c.in_service).Nodup :=
    hperm.nodup_iff.mpr (List.nodup_range 4)
  have htot : (free ++ pending ++ c.in_service).length = 4 := by
    rw [hperm.length_eq]; simp
  have same : ∀ status1 : Int, status1 ≠ 0 →
      queue_shape ⟨c.st, c.in_service, if status1 = 0 then c.accepted ++ [r] else c.accepted,
        c.served⟩ free pending := by
    intro status1 hne
    simp only [if_neg hne]
    exact ⟨hlen, hfree, hpend, htail, hperm, hcount, hmax, hacc⟩
  rcases enqueue_cases _ _ _ _ _ _ _ _ _ _ _ _ h with ⟨hst, hne⟩ | ⟨hpipe, hlocked⟩
  · left
    subst hst
    exact ⟨hne, rfl, same status hne⟩
  · cases free with
    | nil =>
      have havail : c.st.avail = none := hfree
      rw [enqueue_locked_empty _ _ _ _ _ _ _ havail] at hlocked
      simp only [EnqueueResult.returned.injEq] at hlocked
      obtain ⟨hs1, _, hst⟩ := hlocked
      have hne : status ≠ 0 := by rw [← hs1]; simp [ATTACH_ERROR_RESOURCE]
      left
      subst hst
      exact ⟨hne, rfl, same status hne⟩
    | cons i free1 =>
      right
      obtain ⟨havail, hi, hfree1⟩ := hfree
      simp only [List.cons_append, List.nodup_cons, List.mem_append, not_or] at hnd
      obtain ⟨⟨⟨hi_free, hi_pend⟩, hi_serv⟩, hnd1⟩ := hnd
      have hnd_pend : pending.Nodup := (List.nodup_append.mp (List.nodup_append.mp hnd1).1).2.1
      have hdisj : ∀ j, j ∈ free1 → j ∉ pending := by
        intro j hj hjp
        exact (List.nodup_append.mp (List.nodup_append.mp hnd1).1).2.2 hj hjp
      have hti : c.st.tail ≠ some i := by
        rw [htail]
        intro hl
        exact hi_pend (List.mem_of_getLast?_eq_some hl)
      have htl : ∀ t, c.st.tail = some t → t < c.st.ops.length := by
        intro t ht
        rw [htail] at ht
        exact chain_lt _ _ _ hpend t (List.mem_of_getLast?_eq_some ht)
      have hroom : c.st.semaphore_count + 1 ≤ c.st.semaphore_max := by
        simp only [List.cons_append, List.length_cons, List.length_append] at htot
        rw [hcount, hmax]
        omega
      obtain ⟨st2, heq, h_avail, h_head, h_tail, h_count, h_max, h_len, h_new, h_last, h_same,
        h_req, h_reqi⟩ := enqueue_locked_spec sleeps c.st r.cmd r.arg0 r.arg1 r.arg2
          r.pipename i havail hi hti htl hroom
      rw [heq] at hlocked
      simp only [EnqueueResult.returned.injEq] at hlocked
      obtain ⟨hs0, _, hst⟩ := hlocked
      subst hst
      subst hs0
      refine ⟨rfl, i, free1, rfl, ?_⟩
      simp only [if_true]
      refine ⟨by rw [h_len, hlen], ?_, ?_, ?_, ?_, ?_, by rw [h_max, hmax], ?_⟩
      · rw [h_avail]
        apply chain_congr c.st.ops st2.ops h_len free1 _ _ hfree1
        intro j hj
        apply h_same j
        · rintro rfl; exact hi_free hj
        · rw [htail]
          intro hl
          exact hdisj j hj (List.mem_of_getLast?_eq_some hl)
      · have hsn := chain_snoc c.st.ops st2.ops h_len i hi h_new pending c.st.head hpend hnd_pend
          (fun j hj hl => h_same j (by rintro rfl; exact hi_pend hj) (by rw [htail]; exact hl))
          (fun t ht => h_last t (by rw [htail]; exact ht))
        rw [h_head]
        have hiff : c.st.tail = none ↔ pending = [] := by
          rw [htail]; exact List.getLast?_eq_none_iff
        by_cases hp : pending = []
        · rw [if_pos (hiff.mpr hp)]
          rw [if_pos hp] at hsn
          exact hsn
        · rw [if_neg (fun h => hp (hiff.mp h))]
          rw [if_neg hp] at hsn
          exact hsn
      · rw [h_tail]
        simp
      · exact (perm_enqueue i free1 pending c.in_service).trans hperm
      · rw [h_count, hcount]
        simp
      · simp only
        rw [hacc, List.map_append, List.append_assoc]
        congr 1
        congr 1
        · apply List.map_congr_left
          intro j hj
          exact (h_req j (by rintro rfl; exact hi_pend hj)).symm
        · simp only [List.map_cons, List.map_nil, h_reqi, take_of_strlen_le _ hpipe]

/-- On a queue of the right shape `dequeue` blocks when nothing is pending, and
otherwise unlinks and returns the head of the operation list. -/
lemma shape_dequeue (c : Config) (mutex_wait : WaitResult) (free pending : List Nat)
    (hs : queue_shape c free pending) :
    (pending = [] ∧ dequeue mutex_wait c.st = DequeueResult.blocked c.st) ∨
    (∃ i rest, pending = i :: rest ∧ mutex_wait ≠ WaitResult.WAIT_OBJECT_0 ∧
      dequeue mutex_wait c.st = DequeueResult.vm_abort) ∨
    (∃ i rest st1, pending = i :: rest ∧ c.st.head = some i ∧
      dequeue mutex_wait c.st = DequeueResult.returned i st1 ∧ st1.ops = c.st.ops ∧
      queue_shape ⟨st1, i :: c.in_service, c.accepted, c.served ++ [request_of st1.ops i]⟩
        free rest) := by
  obtain ⟨hlen, hfree, hpend, htail, hperm, hcount, hmax, hacc⟩ := hs
  cases pending with
  | nil =>
    left
    exact ⟨rfl, dequeue_empty _ _ hcount⟩
  | cons i rest =>
    right
    obtain ⟨hhead, hi, hrest⟩ := hpend
    have hd := dequeue_nonempty mutex_wait c.st i rest.length hhead hcount
    by_cases hmw : mutex_wait ≠ WaitResult.WAIT_OBJECT_0
    · left
      rw [if_pos hmw] at hd
      exact ⟨i, rest, rfl, hmw, hd⟩
    · right
      rw [if_neg hmw] at hd
      refine ⟨i, rest, _, rfl, hhead, hd, rfl, hlen, hfree, hrest, ?_, ?_, rfl, hmax, ?_⟩
      · cases rest with
        | nil =>
          have hnone : next_at c.st.ops i = none := hrest
          simp [hnone]
        | cons b rest1 =>
          have hsome : next_at c.st.ops i = some b := hrest.1
          simp only [hsome, reduceCtorEq, if_false]
          rw [htail, List.getLast?_cons_cons]
      · exact (perm_dequeue i free rest c.in_service).trans hperm
      · simp only
        rw [hacc, List.map_cons, List.append_assoc]
        rfl

/-- The shape of the queue is kept by `complete` on a record in service. -/
lemma shape_complete (c : Config) (op : Nat) (env : PipeEnv) (fuel : Nat) (result : Int)
    (result_stream : CString) (res : CompleteResult) (hop : op ∈ c.in_service)
    (h : Win32AttachOperation.complete env WaitResult.WAIT_OBJECT_0 fuel c.st op result
      result_stream = some res)
    (free pending : List Nat) (hs : queue_shape c free pending) :
    queue_shape ⟨res.st, c.in_service.erase op, c.accepted, c.served⟩ (op :: free) pending := by
  obtain ⟨hlen, hfree, hpend, htail, hperm, hcount, hmax, hacc⟩ := hs
  have hnd : (free ++ pending ++ c.in_service).Nodup :=
    hperm.nodup_iff.mpr (List.nodup_range 4)
  have hop4 : op < 4 := by
    have : op ∈ List.range 4 := hperm.subset (List.mem_append_right _ hop)
    simpa using this
  have hop_free : op ∉ free := by
    intro hf
    exact (List.nodup_append.mp hnd).2.2 (List.mem_append_left _ hf) hop
  have hop_pend : op ∉ pending := by
    intro hp
    exact (List.nodup_append.mp hnd).2.2 (List.mem_append_right _ hp) hop
  have hst := complete_st env _ fuel c.st op result result_stream res h
  rw [release_eq] at hst
  have hnext : ∀ j, j ≠ op →
      next_at (c.st.ops.modify (fun r => r.set_next c.st.avail) op) j = next_at c.st.ops j := by
    intro j hj
    rw [next_at_modify, if_neg (Ne.symm hj)]
  obtain ⟨rec, hrec⟩ : ∃ rec, c.st.ops.get? op = some rec := by
    rw [List.get?_eq_get (by omega)]; exact ⟨_, rfl⟩
  refine ⟨?_, ?_, ?_, ?_, ?_, ?_, ?_, ?_⟩
  · rw [hst]; simp [hlen]
  · rw [hst]
    refine ⟨rfl, by simp [hlen, hop4], ?_⟩
    simp only
    rw [next_at_modify, if_pos rfl, hrec]
    simp only [Option.some_bind, Win32AttachOperation.set_next]
    apply chain_congr c.st.ops _ (by simp) free _ _ hfree
    intro j hj
    exact hnext j (by rintro rfl; exact hop_free hj)
  · rw [hst]
    apply chain_congr c.st.ops _ (by simp) pending _ _ hpend
    intro j hj
    exact hnext j (by rintro rfl; exact hop_pend hj)
  · rw [hst]; exact htail
  · exact (perm_complete op free pending c.in_service hop).trans hperm
  · rw [hst]; exact hcount
  · rw [hst]; exact hmax
  · rw [hst]
    simp only
    rw [hacc]
    congr 1
    apply List.map_congr_left
    intro j _
    exact (request_of_modify c.st.ops (fun r => r.set_next c.st.avail) op j
      (Or.inr (fun r => ⟨rfl, rfl, rfl, rfl, rfl⟩))).symm

lemma shape_init : queue_shape ⟨init, [], [], []⟩ [3, 2, 1, 0] [] := by
  refine ⟨rfl, ?_, rfl, rfl, by decide, rfl, rfl, rfl⟩
  exact ⟨rfl, by decide, rfl, by decide, rfl, by decide, rfl, by decide, rfl⟩

/-- Every reachable configuration has the shape of a queue. -/
lemma reachable_shape (lim : AttachLimits) (c : Config) (h : Reachable lim c) :
    ∃ free pending, queue_shape c free pending := by
  induction h with
  | init => exact ⟨_, _, shape_init⟩
  | step c c1 _ hstep ih =>
    obtain ⟨free, pending, hs⟩ := ih
    cases hstep with
    | enqueue is_initialized mutex_wait r status sleeps st1 heq =>
      rcases shape_enqueue lim c is_initialized mutex_wait r status sleeps st1 heq free pending hs
        with ⟨_, _, h1⟩ | ⟨_, i, free1, _, h1⟩
      · exact ⟨_, _, h1⟩
      · exact ⟨_, _, h1⟩
    | dequeue mutex_wait op st1 heq =>
      rcases shape_dequeue c mutex_wait free pending hs with
        ⟨_, hb⟩ | ⟨i, rest, _, _, hb⟩ | ⟨i, rest, st2, _, _, hb, _, h1⟩
      · rw [hb] at heq; simp at heq
      · rw [hb] at heq; simp at heq
      · rw [hb] at heq
        simp only [DequeueResult.returned.injEq] at heq
        obtain ⟨rfl, rfl⟩ := heq
        exact ⟨_, _, h1⟩
    | dequeue_blocked mutex_wait st1 heq =>
      rcases shape_dequeue c mutex_wait free pending hs with
        ⟨_, hb⟩ | ⟨i, rest, _, _, hb⟩ | ⟨i, rest, st2, _, _, hb, _, h1⟩
      · rw [hb] at heq
        simp only [DequeueResult.blocked.injEq] at heq
        subst heq
        exact ⟨_, _, hs⟩
      · rw [hb] at heq; simp at heq
      · rw [hb] at heq; simp at heq
    | complete op env fuel result result_stream res hop heq =>
      exact ⟨_, _, shape_complete c op env fuel result result_stream res hop heq free pending hs⟩

end Win32AttachListener


namespace Win32AttachOperation

open Win32AttachListener

lemma to_uint_small (x : Int) (h0 : 0 ≤ x) (h1 : x < (2 : Int) ^ 31) : to_uint x = x := by
  unfold to_uint
  exact Int.emod_eq_of_lt h0 (by omega)

lemma to_int_small (x : Int) (h0 : 0 ≤ x) (h1 : x < (2 : Int) ^ 31) : to_int x = x := by
  unfold to_int
  rw [Int.emod_eq_of_lt (by omega) (by omega)]
  omega

/-- With a pipe that makes progress, `write_pipe` on a length below `2^31` ends within
`len + 1` rounds. -/
lemma write_pipe_returns (env : PipeEnv) (hp : makes_progress env) (fuel : Nat) :
    ∀ (calls : Nat) (buf : CString) (len : Int), 0 ≤ len → len < (2 : Int) ^ 31 →
      len + 1 ≤ fuel → ∃ r, write_pipe env fuel calls buf len = some r := by
  induction fuel with
  | zero => intro calls buf len h0 _ hf; omega
  | succ fuel ih =>
    intro calls buf len h0 h1 hf
    unfold write_pipe
    rw [to_uint_small len h0 h1]
    cases hw : env.WriteFile calls len.toNat with
    | none => exact ⟨_, rfl⟩
    | some nwrote =>
      simp only
      have hmin : ((min nwrote len.toNat : Nat) : Int) ≤ len := by
        have : min nwrote len.toNat ≤ len.toNat := Nat.min_le_right _ _
        omega
      have hrange0 : 0 ≤ len - ((min nwrote len.toNat : Nat) : Int) := by omega
      rw [to_int_small _ hrange0 (by omega)]
      split_ifs with hpos
      · have hlen_pos : 0 < len.toNat := by omega
        have hnw : nwrote ≠ 0 := by
          rintro rfl
          exact hp calls len.toNat hlen_pos hw
        have hmin1 : 1 ≤ min nwrote len.toNat := by
          rw [Nat.le_min]; omega
        obtain ⟨r, hr⟩ := ih (calls + 1) (buf.drop (min nwrote len.toNat))
          (len - ((min nwrote len.toNat : Nat) : Int)) hrange0 (by omega) (by omega)
        rw [hr]
        exact ⟨_, rfl⟩
      · exact ⟨_, rfl⟩

/-- With a pipe on which every write succeeds and makes progress, `write_pipe` delivers
the whole buffer. -/
lemma write_pipe_all (env : PipeEnv) (hs : writes_succeed env) (hp : makes_progress env)
    (fuel : Nat) :
    ∀ (calls : Nat) (buf : CString), (buf.length : Int) < (2 : Int) ^ 31 →
      buf.length + 1 ≤ fuel →
      ∃ calls1, write_pipe env fuel calls buf buf.length = some (true, calls1, buf) := by
  induction fuel with
  | zero => intro calls buf _ hf; omega
  | succ fuel ih =>
    intro calls buf h1 hf
    unfold write_pipe
    rw [to_uint_small _ (by omega) h1]
    obtain ⟨nwrote, hw⟩ := hs calls ((buf.length : Int)).toNat
    rw [hw]
    simp only [Int.toNat_ofNat]
    have hrange0 : (0 : Int) ≤ (buf.length : Int) - ((min nwrote buf.length : Nat) : Int) := by
      have : min nwrote buf.length ≤ buf.length := Nat.min_le_right _ _
      omega
    rw [to_int_small _ hrange0 (by omega)]
    have hdrop : ((buf.drop (min nwrote buf.length)).length : Int) =
        (buf.length : Int) - ((min nwrote buf.length : Nat) : Int) := by
      rw [List.length_drop]
      have : min nwrote buf.length ≤ buf.length := Nat.min_le_right _ _
      omega
    split_ifs with hpos
    · have hlen_pos : 0 < buf.length := by omega
      have hnw : nwrote ≠ 0 := by
        rintro rfl
        have := hp calls buf.length hlen_pos
        simp only [Int.toNat_ofNat] at hw
        exact this hw
      have hmin1 : 1 ≤ min nwrote buf.length := by
        rw [Nat.le_min]; omega
      obtain ⟨calls1, hr⟩ := ih (calls + 1) (buf.drop (min nwrote buf.length))
        (by rw [hdrop]; omega) (by rw [List.length_drop]; omega)
      rw [← hdrop, hr]
      simp only [Option.map_some', List.take_append_drop]
      exact ⟨_, rfl⟩
    · have hall : buf.length ≤ min nwrote buf.length := by omega
      rw [List.take_of_length_le hall]
      exact ⟨_, rfl⟩

end Win32AttachOperation

namespace Win32AttachOperation

open Win32AttachListener

lemma decimal_length (result : Int) (h : is_jint result) : (decimal result).length ≤ 11 := by
  obtain ⟨h0, h1⟩ := h
  have hn : result.natAbs < 10 ^ 10 := by
    have : (result.natAbs : Int) ≤ (2 : Int) ^ 31 := by
      rw [Int.natCast_natAbs]
      exact abs_le.mpr ⟨by omega, by omega⟩
    have h2 : result.natAbs ≤ 2 ^ 31 := by exact_mod_cast this
    calc result.natAbs ≤ 2 ^ 31 := h2
      _ < 10 ^ 10 := by norm_num
  have hd : (Nat.toDigits 10 result.natAbs).length ≤ 10 :=
    Nat.toDigitsCore_length 10 (by norm_num) _ _ 10 hn (by norm_num)
  unfold decimal
  simp only [List.length_append, List.length_map]
  split_ifs <;> simp <;> omega

lemma result_message_eq (result : Int) (h : is_jint result) :
    result_message result = decimal result ++ [10] := by
  unfold result_message
  apply List.take_of_length_le
  have := decimal_length result h
  simp only [List.length_append, List.length_singleton]
  omega

/-- A call of `complete` returns if the pipe cannot be opened, and also if the pipe makes
progress, the payload is shorter than `2^31` bytes and the fuel covers it. -/
lemma complete_terminates (env : PipeEnv) (mutex_wait : WaitResult) (fuel : Nat)
    (st : Win32AttachListener) (this : Nat) (result : Int) (result_stream : CString)
    (h : env.CreateFile (((st.ops.get? this).map (fun r => r.pipe)).getD []) = false ∨
      (makes_progress env ∧ (result_stream.length : Int) < (2 : Int) ^ 31 ∧
        result_stream.length + 32 ≤ fuel)) :
    ∃ res, complete env mutex_wait fuel st this result result_stream = some res := by
  unfold complete
  simp only
  rcases h with h | ⟨hp, hlen, hfuel⟩
  · rw [h]
    exact ⟨_, rfl⟩
  · split_ifs
    · have hmsg : (result_message result).length ≤ 31 := by
        unfold result_message
        exact List.length_take_le _ _
      have hm1 : to_int (strlen (result_message result)) = (result_message result).length :=
        to_int_small _ (by unfold strlen; omega) (by unfold strlen; omega)
      have hm2 : to_int result_stream.length = result_stream.length :=
        to_int_small _ (by omega) hlen
      obtain ⟨r1, hr1⟩ := write_pipe_returns env hp fuel 0 (result_message result)
        (result_message result).length (by omega) (by omega) (by omega)
      rw [hm1, hr1]
      obtain ⟨ok, calls, out⟩ := r1
      cases ok with
      | false => exact ⟨_, rfl⟩
      | true =>
        simp only
        obtain ⟨r2, hr2⟩ := write_pipe_returns env hp fuel calls result_stream
          result_stream.length (by omega) hlen (by omega)
        rw [hm2, hr2]
        obtain ⟨ok2, calls2, out2⟩ := r2
        cases ok2 <;> exact ⟨_, rfl⟩
    · exact ⟨_, rfl⟩

end Win32AttachOperation



namespace Win32AttachListener

lemma reachable_one_pending : Reachable Example.limits Example.one_pending := by
  have h := Reachable.step _ _ (@Reachable.init Example.limits)
    (Step.enqueue ⟨init, [], [], []⟩ (fun _ => true) WaitResult.WAIT_OBJECT_0 Example.request
      0 0 Example.one_pending.st
      (by
        have hv : Example.request.valid Example.limits := by decide
        have := submit_of_valid Example.limits init Example.request hv
        unfold submit at this
        rw [this]
        exact rfl))
  exact h

lemma reachable_one_in_service : Reachable Example.limits Example.one_in_service := by
  have h := Reachable.step _ _ reachable_one_pending
    (Step.dequeue Example.one_pending WaitResult.WAIT_OBJECT_0 3 Example.one_in_service.st rfl)
  exact h

end Win32AttachListener

namespace Win32AttachListener

/-- On a queue of the right shape the critical section of `enqueue` returns: the
`guarantee` on `ReleaseSemaphore` holds. -/
lemma enqueue_locked_returns (c : Config) (free pending : List Nat)
    (hs : queue_shape c free pending) (sleeps : Nat) (cmd arg0 arg1 arg2 pipename : CString) :
    ∃ status st1, enqueue_locked sleeps c.st cmd arg0 arg1 arg2 pipename =
      EnqueueResult.returned status sleeps st1 := by
  obtain ⟨hlen, hfree, hpend, htail, hperm, hcount, hmax, hacc⟩ := hs
  have hnd : (free ++ pending ++ c.in_service).Nodup :=
    hperm.nodup_iff.mpr (List.nodup_range 4)
  have htot : (free ++ pending ++ c.in_service).length = 4 := by
    rw [hperm.length_eq]; simp
  cases free with
  | nil =>
    have havail : c.st.avail = none := hfree
    exact ⟨_, _, enqueue_locked_empty _ _ _ _ _ _ _ havail⟩
  | cons i free1 =>
    obtain ⟨havail, hi, hfree1⟩ := hfree
    simp only [List.cons_append, List.nodup_cons, List.mem_append, not_or] at hnd
    obtain ⟨⟨⟨hi_free, hi_pend⟩, hi_serv⟩, hnd1⟩ := hnd
    have hti : c.st.tail ≠ some i := by
      rw [htail]
      intro hl
      exact hi_pend (List.mem_of_getLast?_eq_some hl)
    have htl : ∀ t, c.st.tail = some t → t < c.st.ops.length := by
      intro t ht
      rw [htail] at ht
      exact chain_lt _ _ _ hpend t (List.mem_of_getLast?_eq_some ht)
    have hroom : c.st.semaphore_count + 1 ≤ c.st.semaphore_max := by
      simp only [List.cons_append, List.length_cons, List.length_append] at htot
      rw [hcount, hmax]
      omega
    obtain ⟨st2, heq, _⟩ := enqueue_locked_spec sleeps c.st cmd arg0 arg1 arg2
      pipename i havail hi hti htl hroom
    exact ⟨_, _, heq⟩

lemma enqueue_returns (lim : AttachLimits) (c : Config) (free pending : List Nat)
    (hs : queue_shape c free pending) (is_initialized : Nat → Bool) (mutex_wait : WaitResult)
    (cmd arg0 arg1 arg2 pipename : CString) :
    enqueue lim is_initialized mutex_wait c.st cmd arg0 arg1 arg2 pipename ≠
      EnqueueResult.vm_abort := by
  unfold enqueue
  simp only
  split_ifs
  all_goals first
    | (intro h; exact EnqueueResult.noConfusion h)
    | (obtain ⟨status, st1, h⟩ := enqueue_locked_returns c free pending hs
         (enqueue_wait is_initialized 0).2 cmd arg0 arg1 arg2 pipename
       rw [h]
       intro h2
       exact EnqueueResult.noConfusion h2)

/-- C18: in every configuration reachable from `init` by `enqueue`, `dequeue` and
`complete` steps, the count of the semaphore is the length of the operation list and
at most 4, the maximum count; so no call of `enqueue` fails its `guarantee` on
`ReleaseSemaphore`, and a `dequeue` that finds the semaphore signalled returns the
record at the head of the operation list. -/
theorem semaphore_counts_pending (lim : AttachLimits) (c : Config) (h : Reachable lim c) :
    (∃ pending, chain c.st.ops c.st.head pending ∧ c.st.semaphore_count = pending.length) ∧
    c.st.semaphore_count ≤ 4 ∧ c.st.semaphore_max = 4 ∧
    (∀ (is_initialized : Nat → Bool) (mutex_wait : WaitResult)
        (cmd arg0 arg1 arg2 pipename : CString),
      enqueue lim is_initialized mutex_wait c.st cmd arg0 arg1 arg2 pipename ≠
        EnqueueResult.vm_abort) ∧
    (0 < c.st.semaphore_count →
      ∃ op st1, c.st.head = some op ∧
        dequeue WaitResult.WAIT_OBJECT_0 c.st = DequeueResult.returned op st1) := by
  obtain ⟨free, pending, hs⟩ := reachable_shape lim c h
  have hs2 := hs
  obtain ⟨hlen, hfree, hpend, htail, hperm, hcount, hmax, hacc⟩ := hs2
  have htot : (free ++ pending ++ c.in_service).length = 4 := by
    rw [hperm.length_eq]; simp
  refine ⟨⟨pending, hpend, hcount⟩, ?_, hmax, ?_, ?_⟩
  · simp only [List.length_append] at htot
    omega
  · intro is_initialized mutex_wait cmd arg0 arg1 arg2 pipename
    exact enqueue_returns lim c free pending hs _ _ _ _ _ _ _
  · intro hpos
    rcases shape_dequeue c WaitResult.WAIT_OBJECT_0 free pending hs with
      ⟨hnil, _⟩ | ⟨i, rest, _, hne, _⟩ | ⟨i, rest, st1, _, hhead, hd, _, _⟩
    · rw [hcount, hnil] at hpos
      simp at hpos
    · exact absurd rfl hne
    · exact ⟨i, st1, hhead, hd⟩

/-- The witness of C18: the queue holding the one request `jcmd`. -/
theorem semaphore_counts_pending_witness :
    Example.one_pending.st.semaphore_count ≤ 4 ∧
    ∃ op st1, Example.one_pending.st.head = some op ∧
      dequeue WaitResult.WAIT_OBJECT_0 Example.one_pending.st = DequeueResult.returned op st1 :=
  ⟨(semaphore_counts_pending Example.limits Example.one_pending reachable_one_pending).2.1,
   (semaphore_counts_pending Example.limits Example.one_pending reachable_one_pending).2.2.2.2
     (by decide)⟩

/-- C19: in every configuration reachable from `init` by `enqueue`, `dequeue` and
`complete` steps, `complete` being applied only to a record in service, there are a
list `free` linked from the available pointer and a list `pending` linked from the head
pointer, both ending in a null pointer, such that `free`, `pending` and the records in
service together hold each of the four preallocated records exactly once; the tail
pointer is null exactly when the head pointer is, and the three lengths add up to 4. -/
theorem records_never_lost (lim : AttachLimits) (c : Config) (h : Reachable lim c) :
    ∃ free pending : List Nat,
      c.st.ops.length = 4 ∧
      chain c.st.ops c.st.avail free ∧
      chain c.st.ops c.st.head pending ∧
      (free ++ pending ++ c.in_service).Perm (List.range 4) ∧
      (free ++ pending ++ c.in_service).Nodup ∧
      (∀ i, i < 4 → (free ++ pending ++ c.in_service).count i = 1) ∧
      (c.st.tail = none ↔ c.st.head = none) ∧
      c.st.tail = pending.getLast? ∧
      free.length + pending.length + c.in_service.length = 4 := by
  obtain ⟨free, pending, hs⟩ := reachable_shape lim c h
  obtain ⟨hlen, hfree, hpend, htail, hperm, hcount, hmax, hacc⟩ := hs
  have hnd : (free ++ pending ++ c.in_service).Nodup :=
    hperm.nodup_iff.mpr (List.nodup_range 4)
  have htot : (free ++ pending ++ c.in_service).length = 4 := by
    rw [hperm.length_eq]; simp
  refine ⟨free, pending, hlen, hfree, hpend, hperm, hnd, ?_, ?_, htail, ?_⟩
  · intro i hi
    apply List.count_eq_one_of_mem hnd
    exact hperm.symm.subset (by simpa using hi)
  · rw [htail]
    cases pending with
    | nil =>
      have : c.st.head = none := hpend
      simp [this]
    | cons a rest =>
      have : c.st.head = some a := hpend.1
      rw [this]
      constructor
      · intro hl
        have := List.getLast?_eq_none_iff.mp hl
        simp at this
      · intro hh
        simp at hh
  · simp only [List.length_append] at htot
    omega

/-- The witness of C19: the queue in which record 3 is in service. -/
theorem records_never_lost_witness :
    ∃ free pending : List Nat,
      chain Example.one_in_service.st.ops Example.one_in_service.st.avail free ∧
      chain Example.one_in_service.st.ops Example.one_in_service.st.head pending ∧
      free.length + pending.length + Example.one_in_service.in_service.length = 4 := by
  obtain ⟨free, pending, _, h1, h2, _, _, _, _, _, h3⟩ :=
    records_never_lost Example.limits Example.one_in_service reachable_one_in_service
  exact ⟨free, pending, h1, h2, h3⟩

/-- C12: in every configuration reachable from `init` by `enqueue`, `dequeue` and
`complete` steps, the requests carried by the records that `dequeue` has returned, in
the order of the returns, are an initial segment of the requests that `enqueue` has
accepted, in the order of acceptance: the `k`-th dequeue returns the record carrying
the command, the three arguments and the pipe name of the `k`-th accepted request;
the accepted requests not yet returned are those carried by the operation list, head
first. -/
theorem dequeue_fifo (lim : AttachLimits) (c : Config) (h : Reachable lim c) :
    c.served <+: c.accepted ∧
    (∀ k, k < c.served.length → c.served[k]? = c.accepted[k]?) ∧
    ∃ pending, chain c.st.ops c.st.head pending ∧
      c.accepted = c.served ++ pending.map (request_of c.st.ops) := by
  obtain ⟨free, pending, hs⟩ := reachable_shape lim c h
  obtain ⟨hlen, hfree, hpend, htail, hperm, hcount, hmax, hacc⟩ := hs
  refine ⟨⟨_, hacc.symm⟩, ?_, pending, hpend, hacc⟩
  intro k hk
  rw [hacc, List.getElem?_append_left hk]

/-- The witness of C12: the request `jcmd` enqueued and then dequeued. -/
theorem dequeue_fifo_witness :
    Example.one_in_service.served <+: Example.one_in_service.accepted ∧
    Example.one_in_service.served = [Example.request] :=
  ⟨(dequeue_fifo Example.limits Example.one_in_service reachable_one_in_service).1, rfl⟩

end Win32AttachListener

namespace Win32AttachOperation

open Win32AttachListener

/-- C13: for a queue of the right shape with available list `free` and operation list
`pending`, a record `op` in service, and every result code and payload, a call of
`complete` whose wait for the mutex returns `WAIT_OBJECT_0` (as its assertions
require) leaves, when it returns, `op` at the front of the available list, followed by
`free`, in which `op` does not occur, so `op` is on the available list exactly once;
the operation list, its head and tail pointers, the requests its records carry and
the semaphore are as before.  The call returns when the pipe cannot be opened, and, when
it opens, whether the writes succeed or fail, provided each successful write of a
non-empty buffer accepts at least one byte, the payload is shorter than `2^31` bytes and
the fuel covers it. -/
theorem complete_frees_record (c : Config) (free pending : List Nat)
    (hs : queue_shape c free pending) (op : Nat) (hop : op ∈ c.in_service)
    (env : PipeEnv) (fuel : Nat) (result : Int) (result_stream : CString) :
    (∀ res, complete env WaitResult.WAIT_OBJECT_0 fuel c.st op result result_stream = some res →
      res.st.avail = some op ∧
      chain res.st.ops res.st.avail (op :: free) ∧
      op ∉ free ∧ (op :: free).count op = 1 ∧
      chain res.st.ops res.st.head pending ∧
      res.st.head = c.st.head ∧ res.st.tail = c.st.tail ∧
      pending.map (request_of res.st.ops) = pending.map (request_of c.st.ops) ∧
      res.st.semaphore_count = c.st.semaphore_count) ∧
    ((env.CreateFile (((c.st.ops.get? op).map (fun r => r.pipe)).getD []) = false ∨
        (makes_progress env ∧ (result_stream.length : Int) < (2 : Int) ^ 31 ∧
          result_stream.length + 32 ≤ fuel)) →
      ∃ res, complete env WaitResult.WAIT_OBJECT_0 fuel c.st op result result_stream =
        some res) := by
  constructor
  · intro res hres
    have hshape := shape_complete c op env fuel result result_stream res hop hres free pending hs
    obtain ⟨_, hfree1, hpend1, _, _, _, _, hacc1⟩ := hshape
    obtain ⟨hlen, hfree, hpend, htail, hperm, hcount, hmax, hacc⟩ := hs
    have hnd : (free ++ pending ++ c.in_service).Nodup :=
      hperm.nodup_iff.mpr (List.nodup_range 4)
    have hop_free : op ∉ free := by
      intro hf
      exact (List.nodup_append.mp hnd).2.2 (List.mem_append_left _ hf) hop
    have hst := complete_st env _ fuel c.st op result result_stream res hres
    rw [release_eq] at hst
    refine ⟨by rw [hst], hfree1, hop_free, ?_, hpend1, by rw [hst], by rw [hst], ?_,
      by rw [hst]⟩
    · rw [List.count_cons_self, List.count_eq_zero_of_not_mem hop_free]
    · simp only at hacc1
      rw [hacc] at hacc1
      exact (List.append_cancel_left hacc1).symm
  · intro h
    exact complete_terminates env _ fuel c.st op result result_stream h

/-- The witness of C13: record 3, in service, completed on a pipe that cannot be
opened. -/
theorem complete_frees_record_witness :
    ∃ res, complete ⟨fun _ => false, fun _ _ => none⟩ WaitResult.WAIT_OBJECT_0 0
        Example.one_in_service.st 3 0 [] = some res :=
  (complete_frees_record Example.one_in_service [2, 1, 0] []
    (by
      refine ⟨rfl, ?_, rfl, rfl, by decide, rfl, rfl, rfl⟩
      exact ⟨rfl, by decide, rfl, by decide, rfl, by decide, rfl⟩)
    3 (by decide) ⟨fun _ => false, fun _ _ => none⟩ 0 0 []).2 (Or.inl rfl)

/-- C16: when the pipe opens and every write succeeds, each write of a non-empty buffer
accepting at least one byte of it, then for every 32-bit result code and every payload
shorter than `2^31` bytes, `complete` returns once the fuel covers the payload, and the
bytes it has delivered are exactly the decimal text of the result code, one newline
and the payload, in this order; the result line is at most 12 bytes long, so the
32-byte buffer does not truncate it. -/
theorem complete_delivers (env : PipeEnv) (mutex_wait : WaitResult) (fuel : Nat)
    (st : Win32AttachListener) (this : Nat) (result : Int) (result_stream : CString)
    (hopen : env.CreateFile (((st.ops.get? this).map (fun r => r.pipe)).getD []) = true)
    (hs : writes_succeed env) (hp : makes_progress env) (hres : is_jint result)
    (hlen : (result_stream.length : Int) < (2 : Int) ^ 31)
    (hfuel : result_stream.length + 32 ≤ fuel) :
    ∃ res, complete env mutex_wait fuel st this result result_stream = some res ∧
      res.delivered = decimal result ++ [10] ++ result_stream ∧
      res.log = AttachLog.wrote_result ∧
      result_message result = decimal result ++ [10] ∧
      (decimal result ++ [10]).length ≤ 12 := by
  have hmsg := result_message_eq result hres
  have hdl := decimal_length result hres
  have hml : (result_message result).length ≤ 12 := by
    rw [hmsg]
    simp only [List.length_append, List.length_singleton]
    omega
  have hm1 : to_int (strlen (result_message result)) = (result_message result).length :=
    to_int_small _ (by unfold strlen; omega) (by unfold strlen; omega)
  have hm2 : to_int result_stream.length = result_stream.length :=
    to_int_small _ (by omega) hlen
  obtain ⟨calls1, h1⟩ := write_pipe_all env hs hp fuel 0 (result_message result)
    (by omega) (by omega)
  obtain ⟨calls2, h2⟩ := write_pipe_all env hs hp fuel calls1 result_stream hlen (by omega)
  refine ⟨⟨release mutex_wait st this, result_message result ++ result_stream,
    AttachLog.wrote_result⟩, ?_, ?_, rfl, hmsg, ?_⟩
  · unfold complete
    simp only [hopen, if_true, hm1, h1, hm2, h2]
  · simp only
    rw [hmsg]
  · rw [← hmsg]
    exact hml

/-- The witness of C16: the result code -42 and a payload of three bytes, on a pipe that
accepts one byte per write. -/
theorem complete_delivers_witness :
    decimal (-42) = [45, 52, 50] ∧
    ∃ res, complete Example.slow_pipe WaitResult.WAIT_OBJECT_0 40 Example.one_in_service.st 3
        (-42) [111, 107, 10] = some res ∧
      res.delivered = decimal (-42) ++ [10] ++ [111, 107, 10] ∧
      res.log = AttachLog.wrote_result ∧
      result_message (-42) = decimal (-42) ++ [10] ∧
      (decimal (-42) ++ [10]).length ≤ 12 :=
  ⟨by decide,
   complete_delivers Example.slow_pipe WaitResult.WAIT_OBJECT_0 40 Example.one_in_service.st 3
    (-42) [111, 107, 10] rfl (fun _ len => ⟨min len 1, rfl⟩)
    (fun k len hlen h => by
      simp only [Example.slow_pipe, Option.some.injEq] at h
      omega)
    (by decide) (by decide) (by decide)⟩


end Win32AttachOperation

/-! ## Theorems: nested allocation and the shared secondary supertypes -/

namespace ObjArrayKlass

/-- With a heap that can allocate and an element klass that initialises, `allocate` of a
length within the limits appends one array of that length to the heap. -/
lemma allocate_shape (env : AllocEnv) (halloc : ∀ k, env.allocation_fails k = false)
    (hinit : ∀ k, env.initialize_fails k = false) (this : KlassId) (length : Int)
    (heap : JavaHeap) (h0 : 0 ≤ length) (hmax : length ≤ env.max_array_length) :
    ∃ slots inits, slots.length = length.toNat ∧
      allocate env this length heap =
        Completion.normal (some heap.objects.length)
          ⟨heap.objects ++ [⟨this, length, slots⟩], inits⟩ := by
  have hcheck : check_array_allocation_length length env.max_array_length = none := by
    unfold check_array_allocation_length
    have h1 : ¬ length > env.max_array_length := by omega
    have h2 : ¬ length < 0 := by omega
    simp [h1, h2]
  cases hnf : (env.klass_at this).is_null_free_array_klass with
  | true =>
    refine ⟨List.replicate length.toNat (env.default_value (env.klass_at this).element_klass),
      heap.initialized ++ [(env.klass_at this).element_klass], by simp, ?_⟩
    unfold allocate array_allocate
    simp only [hcheck, halloc, hnf, hinit, Bool.false_eq_true, if_false, if_true]
    have := populate_slots heap.objects (heap.initialized ++ [(env.klass_at this).element_klass])
      this length (env.default_value (env.klass_at this).element_klass) length.toNat
      length.toNat le_rfl
    simp only [Nat.sub_self, List.replicate_zero, List.append_nil] at this
    rw [this]
  | false =>
    refine ⟨List.replicate length.toNat none, heap.initialized, by simp, ?_⟩
    unfold allocate array_allocate
    simp only [hcheck, halloc, hnf, Bool.false_eq_true, if_false]

lemma allocate_negative (env : AllocEnv) (this : KlassId) (length : Int) (heap : JavaHeap)
    (h0 : length < 0) (hmax : length ≤ env.max_array_length) :
    allocate env this length heap =
      Completion.threw (JavaException.NegativeArraySizeException length) heap := by
  unfold allocate check_array_allocation_length
  have h1 : ¬ length > env.max_array_length := by omega
  simp [h1, h0]

lemma fill_sub_arrays_inv (P : JavaHeap → Prop) (sub_allocate : JavaHeap → Completion)
    (array : Nat)
    (hsub : ∀ h, P h → ∃ r h1, sub_allocate h = Completion.normal r h1 ∧ P h1)
    (hput : ∀ h i v, P h → P (obj_at_put h array i v)) :
    ∀ (count index : Nat) (heap : JavaHeap), P heap →
      ∃ heap1, fill_sub_arrays sub_allocate array count index heap =
        Completion.normal (some array) heap1 ∧ P heap1 := by
  intro count
  induction count with
  | zero =>
    intro index heap hP
    exact ⟨heap, rfl, hP⟩
  | succ count ih =>
    intro index heap hP
    obtain ⟨r, h1, hr, hP1⟩ := hsub heap hP
    unfold fill_sub_arrays
    rw [hr]
    exact ih (index + 1) _ (hput h1 index r hP1)

lemma fill_sub_arrays_threw (sub_allocate : JavaHeap → Completion) (array : Nat)
    (count index : Nat) (heap : JavaHeap) (e : JavaException) (h1 : JavaHeap)
    (hsub : sub_allocate heap = Completion.threw e h1) :
    fill_sub_arrays sub_allocate array (count + 1) index heap = Completion.threw e h1 := by
  unfold fill_sub_arrays
  rw [hsub]

lemma holds_new_array_put (heap0 h : JavaHeap) (k : KlassId) (length : Int) (i : Nat) (v : oop)
    (hP : holds_new_array heap0 h k length) :
    holds_new_array heap0 (obj_at_put h heap0.objects.length i v) k length := by
  obtain ⟨arr, rest, hobj, hk, hl, hs⟩ := hP
  refine ⟨{ arr with slots := arr.slots.set i v }, rest, ?_, hk, hl, ?_⟩
  · unfold obj_at_put
    simp only [hobj]
    have : ∀ (base : List objArrayOopDesc) (f : objArrayOopDesc → objArrayOopDesc),
        (base ++ arr :: rest).modify f base.length = base ++ f arr :: rest := by
      intro base f
      induction base with
      | nil => rfl
      | cons x xs ih => simp [List.modify_succ_cons, ih]
    rw [this]
  · simp only [List.length_set]
    exact hs

lemma holds_new_array_extend (heap0 h h1 : JavaHeap) (k k2 : KlassId) (length length2 : Int)
    (hP : holds_new_array heap0 h k length) (hext : holds_new_array h h1 k2 length2) :
    holds_new_array heap0 h1 k length := by
  obtain ⟨arr, rest, hobj, hk, hl, hs⟩ := hP
  obtain ⟨arr2, rest2, hobj2, _, _, _⟩ := hext
  refine ⟨arr, rest ++ arr2 :: rest2, ?_, hk, hl, hs⟩
  rw [hobj2, hobj]
  simp

lemma multi_allocate_succ (env : AllocEnv) (n : Nat) :
    multi_allocate env (n + 1) = multi_allocate_body env (multi_allocate env n) (n + 1) := rfl

/-- With a heap that can allocate, klasses that initialise, lengths within the limit and
object-array descriptors below, `multi_allocate` throws NegativeArraySizeException for
the first negative length if there is one, and otherwise returns a new outer array. -/
lemma multi_allocate_spec (env : AllocEnv) (halloc : ∀ k, env.allocation_fails k = false)
    (hinit : ∀ k, env.initialize_fails k = false) :
    ∀ (n : Nat) (this : KlassId) (sizes : List Int) (heap : JavaHeap),
      sizes.length = n + 1 → (∀ x ∈ sizes, x ≤ env.max_array_length) →
      obj_array_chain env n this →
      (∀ v, sizes.find? (fun x => decide (x < 0)) = some v →
        ∃ heap1, multi_allocate env (n + 1) this sizes heap =
          Completion.threw (JavaException.NegativeArraySizeException v) heap1) ∧
      (sizes.find? (fun x => decide (x < 0)) = none →
        ∃ heap1, multi_allocate env (n + 1) this sizes heap =
            Completion.normal (some heap.objects.length) heap1 ∧
          holds_new_array heap heap1 this (sizes.headD 0)) := by
  intro n
  induction n with
  | zero =>
    intro this sizes heap hlen hmax _
    match sizes, hlen with
    | [len], _ =>
      have hm : len ≤ env.max_array_length := hmax len (List.mem_singleton.mpr rfl)
      by_cases hneg : len < 0
      · constructor
        · intro v hv
          simp only [List.find?_cons, hneg, decide_True, Option.some.injEq] at hv
          subst hv
          refine ⟨heap, ?_⟩
          rw [multi_allocate_succ]
          unfold multi_allocate_body
          simp only [List.head?_cons, allocate_negative env this len heap hneg hm]
        · intro hnone
          simp [List.find?_cons, hneg] at hnone
      · obtain ⟨slots, inits, hsl, hal⟩ :=
          allocate_shape env halloc hinit this len heap (by omega) hm
        constructor
        · intro v hv
          simp [List.find?_cons, hneg] at hv
        · intro _
          refine ⟨⟨heap.objects ++ [⟨this, len, slots⟩], inits⟩, ?_,
            ⟨⟨this, len, slots⟩, [], rfl, rfl, rfl, hsl⟩⟩
          rw [multi_allocate_succ]
          unfold multi_allocate_body
          simp only [List.head?_cons, hal]
          simp
  | succ m ih =>
    intro this sizes heap hlen hmax hchain
    match sizes, hlen with
    | len :: rest, hlen =>
      have hrest : rest.length = m + 1 := by simpa using hlen
      have hm : len ≤ env.max_array_length := hmax len (List.mem_cons_self _ _)
      have hmrest : ∀ x ∈ rest, x ≤ env.max_array_length :=
        fun x hx => hmax x (List.mem_cons_of_mem _ hx)
      obtain ⟨ld, hld, hobj, hchain1⟩ := hchain
      by_cases hneg : len < 0
      · constructor
        · intro v hv
          simp only [List.find?_cons, hneg, decide_True, Option.some.injEq] at hv
          subst hv
          refine ⟨heap, ?_⟩
          rw [multi_allocate_succ]
          unfold multi_allocate_body
          simp only [List.head?_cons, allocate_negative env this len heap hneg hm]
        · intro hnone
          simp [List.find?_cons, hneg] at hnone
      · obtain ⟨slots, inits, hsl, hal⟩ :=
          allocate_shape env halloc hinit this len heap (by omega) hm
        have hfind : (len :: rest).find? (fun x => decide (x < 0)) =
            rest.find? (fun x => decide (x < 0)) := by
          simp [List.find?_cons, hneg]
        have hbody : multi_allocate env (m + 1 + 1) this (len :: rest) heap =
            if len ≠ 0 then
              fill_sub_arrays (fun h => multi_allocate env (m + 1) ld rest h)
                heap.objects.length len.toNat 0 ⟨heap.objects ++ [⟨this, len, slots⟩], inits⟩
            else
              check_lower_dimensions (some heap.objects.length)
                ⟨heap.objects ++ [⟨this, len, slots⟩], inits⟩ (m + 1) (len :: rest) := by
          rw [multi_allocate_succ]
          unfold multi_allocate_body
          simp only [List.head?_cons, hal, hld, hobj, if_true, List.tail_cons]
          have hgt : m + 1 + 1 > 1 := by omega
          simp only [hgt, if_true, Nat.add_sub_cancel]
        rw [hfind, hbody]
        have P0 : holds_new_array heap ⟨heap.objects ++ [⟨this, len, slots⟩], inits⟩ this len :=
          ⟨⟨this, len, slots⟩, [], rfl, rfl, rfl, hsl⟩
        by_cases hzero : len = 0
        · rw [if_neg (not_not.mpr hzero)]
          rw [check_lower_dimensions_eq _ _ (m + 1) (len :: rest) (by simp [hrest])]
          have htake : (len :: rest).tail.take (m + 1) = rest := by
            simp only [List.tail_cons]
            exact List.take_of_length_le (by omega)
          rw [htake]
          constructor
          · intro v hv
            rw [hv]
            exact ⟨_, rfl⟩
          · intro hnone
            rw [hnone]
            exact ⟨_, rfl, P0⟩
        · rw [if_pos hzero]
          constructor
          · intro v hv
            obtain ⟨h1, hsub⟩ := (ih ld rest ⟨heap.objects ++ [⟨this, len, slots⟩], inits⟩
              hrest hmrest hchain1).1 v hv
            obtain ⟨c, hc⟩ : ∃ c, len.toNat = c + 1 := ⟨len.toNat - 1, by omega⟩
            rw [hc]
            exact ⟨h1, fill_sub_arrays_threw _ _ c 0 _ _ h1 hsub⟩
          · intro hnone
            have hsub : ∀ h, holds_new_array heap h this len →
                ∃ r h1, multi_allocate env (m + 1) ld rest h = Completion.normal r h1 ∧
                  holds_new_array heap h1 this len := by
              intro h hP
              obtain ⟨h1, heq, hnew⟩ := (ih ld rest h hrest hmrest hchain1).2 hnone
              exact ⟨_, h1, heq, holds_new_array_extend heap h h1 this ld len _ hP hnew⟩
            obtain ⟨heap1, heq, hP1⟩ := fill_sub_arrays_inv
              (fun h => holds_new_array heap h this len)
              (fun h => multi_allocate env (m + 1) ld rest h) heap.objects.length hsub
              (fun h i v hP => holds_new_array_put heap h this len i v hP)
              len.toNat 0 _ P0
            exact ⟨heap1, heq, hP1⟩

/-- C22: for a rank of at least 1, a length vector of `rank` entries none of which
exceeds `max_array_length`, a heap that never fails to allocate, element klasses that
initialise without throwing, and object-array descriptors at every lower dimension,
`multi_allocate` throws NegativeArraySizeException if and only if at least one of the
lengths is negative, wherever it stands and whatever the other lengths are; and when
all lengths are non-negative it returns a new outer array of the descriptor, of length
`sizes[0]`. -/
theorem multi_allocate_negative_iff (env : AllocEnv) (rank : Nat) (this : KlassId)
    (sizes : List Int) (heap : JavaHeap)
    (hrank : 1 ≤ rank) (hlen : sizes.length = rank)
    (hmax : ∀ x ∈ sizes, x ≤ env.max_array_length)
    (halloc : ∀ k, env.allocation_fails k = false)
    (hinit : ∀ k, env.initialize_fails k = false)
    (hchain : obj_array_chain env (rank - 1) this) :
    ((∃ v heap1, multi_allocate env rank this sizes heap =
        Completion.threw (JavaException.NegativeArraySizeException v) heap1) ↔
      ∃ x ∈ sizes, x < 0) ∧
    ((∀ x ∈ sizes, 0 ≤ x) →
      ∃ a heap1 arr, multi_allocate env rank this sizes heap =
          Completion.normal (some a) heap1 ∧
        heap1.objects.get? a = some arr ∧ arr.klass = this ∧
        arr.length = sizes.headD 0 ∧ arr.slots.length = (sizes.headD 0).toNat) := by
  obtain ⟨n, rfl⟩ : ∃ n, rank = n + 1 := ⟨rank - 1, by omega⟩
  simp only [Nat.add_sub_cancel] at hchain
  obtain ⟨hthrow, hnormal⟩ := multi_allocate_spec env halloc hinit n this sizes heap hlen hmax
    hchain
  have hnone_iff : sizes.find? (fun x => decide (x < 0)) = none ↔ ∀ x ∈ sizes, 0 ≤ x := by
    rw [List.find?_eq_none]
    constructor
    · intro h x hx
      have := h x hx
      simp only [decide_eq_true_eq, not_lt] at this
      exact this
    · intro h x hx
      simp only [decide_eq_true_eq, not_lt]
      exact h x hx
  refine ⟨⟨?_, ?_⟩, ?_⟩
  · rintro ⟨v, heap1, heq⟩
    by_contra hno
    have hall : ∀ x ∈ sizes, 0 ≤ x := by
      intro x hx
      by_contra hlt
      exact hno ⟨x, hx, by omega⟩
    obtain ⟨heap2, heq2, _⟩ := hnormal (hnone_iff.mpr hall)
    rw [heq2] at heq
    exact Completion.noConfusion heq
  · rintro ⟨x, hx, hlt⟩
    cases hf : sizes.find? (fun x => decide (x < 0)) with
    | none =>
      have := hnone_iff.mp hf x hx
      omega
    | some v =>
      obtain ⟨heap1, heq⟩ := hthrow v hf
      exact ⟨v, heap1, heq⟩
  · intro hall
    obtain ⟨heap1, heq, arr, rest, hobj, hk, hl, hs⟩ := hnormal (hnone_iff.mpr hall)
    refine ⟨heap.objects.length, heap1, arr, heq, ?_, hk, hl, hs⟩
    rw [hobj, List.get?_eq_getElem?, List.getElem?_append_right (le_refl _)]
    simp

/-- The witness of C22: `new Object[2][-1]`. -/
theorem multi_allocate_negative_iff_witness :
    ((∃ v heap1, multi_allocate Example.multi_alloc_env 2 12 [2, -1] Example.empty_heap =
        Completion.threw (JavaException.NegativeArraySizeException v) heap1) ↔
      ∃ x ∈ ([2, -1] : List Int), x < 0) ∧
    multi_allocate Example.multi_alloc_env 2 12 [2, -1] Example.empty_heap =
      Completion.threw (JavaException.NegativeArraySizeException (-1))
        ⟨[⟨12, 2, [none, none]⟩], []⟩ ∧
    multi_allocate Example.multi_alloc_env 2 12 [2, 1] Example.empty_heap =
      Completion.normal (some 0)
        ⟨[⟨12, 2, [some 1, some 2]⟩, ⟨8, 1, [none]⟩, ⟨8, 1, [none]⟩], []⟩ :=
  ⟨(multi_allocate_negative_iff Example.multi_alloc_env 2 12 [2, -1] Example.empty_heap
      (by decide) rfl (by decide) (fun _ => rfl) (fun _ => rfl)
      ⟨8, rfl, rfl, trivial⟩).1,
   by decide, by decide⟩

/-- C21, as amended: for a non-negative number of extra slots, when the element klass
has no secondary supertypes and no extra slot is requested, `compute_secondary_supers`
installs the shared array `the_array_interfaces_array` in the descriptor and returns
`nullptr`; when the element klass has at least one secondary supertype, and also when
an extra slot is requested, it returns a newly built list and leaves the descriptor
as it was. -/
theorem compute_secondary_supers_sharing (vm : vmClasses) (klass_at : KlassId → Klass)
    (this : Klass) (num_extra_slots : Int) (hx : 0 ≤ num_extra_slots) :
    (num_extra_slots = 0 →
      ((klass_at this.element_klass).secondary_supers).getD [] = [] →
      compute_secondary_supers vm klass_at this num_extra_slots =
        (none, { this with secondary_supers := some (the_array_interfaces_array vm) })) ∧
    (((klass_at this.element_klass).secondary_supers).getD [] ≠ [] →
      ∃ secondaries, compute_secondary_supers vm klass_at this num_extra_slots =
        (some secondaries, this)) ∧
    (0 < num_extra_slots →
      ∃ secondaries, compute_secondary_supers vm klass_at this num_extra_slots =
        (some secondaries, this)) := by
  refine ⟨?_, ?_, ?_⟩
  · intro h0 hempty
    unfold compute_secondary_supers
    cases hS : (klass_at this.element_klass).secondary_supers with
    | none => simp [h0]
    | some S =>
      rw [hS] at hempty
      simp only [Option.getD_some] at hempty
      subst hempty
      simp [h0]
  · intro hne
    unfold compute_secondary_supers
    cases hS : (klass_at this.element_klass).secondary_supers with
    | none => rw [hS] at hne; simp at hne
    | some S =>
      rw [hS] at hne
      simp only [Option.getD_some] at hne
      have hpos : 0 < S.length := List.length_pos.mpr hne
      have h2 : ¬ (num_extra_slots + 2 + (S.length : Int) = 2) := by omega
      simp only [h2, if_false]
      exact ⟨_, rfl⟩
  · intro hpos
    unfold compute_secondary_supers
    cases hS : (klass_at this.element_klass).secondary_supers with
    | none =>
      have h2 : ¬ (num_extra_slots + 2 + 0 = 2) := by omega
      simp only [h2, if_false]
      exact ⟨_, rfl⟩
    | some S =>
      have h2 : ¬ (num_extra_slots + 2 + (S.length : Int) = 2) := by omega
      simp only [h2, if_false]
      exact ⟨_, rfl⟩

/-- The witness of C21, as amended: the descriptor of `Object[]`, with no extra slot. -/
theorem compute_secondary_supers_sharing_witness :
    compute_secondary_supers Example.vm Example.klass_table
        (construct Example.klass_table 1 1 0 false) 0 =
      (none, { construct Example.klass_table 1 1 0 false with
                secondary_supers := some (the_array_interfaces_array Example.vm) }) :=
  (compute_secondary_supers_sharing Example.vm Example.klass_table
    (construct Example.klass_table 1 1 0 false) 0 le_rfl).1 rfl rfl

/-- The counterexample to C21 as stated: the element klass `Object` has no secondary
supertypes and the list computed is exactly the two markers, yet with one extra slot
requested `compute_secondary_supers` returns a newly built list and installs nothing in
the descriptor. -/
theorem compute_secondary_supers_extra_slot_not_shared :
    ((Example.klass_table 1).secondary_supers).getD [] = [] ∧
    compute_secondary_supers Example.vm Example.klass_table
        (construct Example.klass_table 1 1 0 false) 1 =
      (some [some Example.vm.Cloneable_klass, some Example.vm.Serializable_klass],
        construct Example.klass_table 1 1 0 false) ∧
    (compute_secondary_supers Example.vm Example.klass_table
        (construct Example.klass_table 1 1 0 false) 1).1 ≠ none ∧
    (compute_secondary_supers Example.vm Example.klass_table
        (construct Example.klass_table 1 1 0 false) 1).2.secondary_supers ≠
      some (the_array_interfaces_array Example.vm) :=
  ⟨rfl, rfl, by decide, by decide⟩

end ObjArrayKlass
